import Mathlib

/-!
Torc media engine: packet queue, stream scanning and selection, timestamp
validation, the worker threads and the demuxer loop, the player state machine
and the video refresh.

A shallow embedding of parts of `libs/libtorc-audio/audiodecoder.cpp`,
`libs/libtorc-video/videodecoder.cpp`, `libs/libtorc-core/torcplayer.cpp` and
`libs/libtorc-qml/torcsgvideoplayer.cpp`, with theorems about the embedded code.

Conventions.
* C++ `int` / `qint64` values are modelled by `Int`. The counters and sizes
  involved (queue length, queue byte size, stream scores, fault counters) stay
  far below the 32/64-bit limits for any input the engine can hold in memory, so
  no wrap-around is modelled for them. The drift of the video refresh is the
  exception: one of its operands can be the marker `AV_NOPTS_VALUE`, so the
  difference is reduced to 64 bits.
* A pointer to a packet is either the address of the static flush packet
  `gFlushCodec` or the address of a heap packet; the comparison
  `packet == &gFlushCodec` becomes a constructor test.
* Mutexes, wait conditions and sleeps are not modelled: every function is
  embedded as the sequential code it runs; what other threads do to shared
  members between two steps of a worker is an explicit input.
* Calls into libav and into the audio sink are inputs of the model (one record
  of answers per loop pass); a loop whose number of passes depends on them
  takes a list of such records and runs one pass per record.
-/

namespace Torc

/-! ## Packets and the packet queue (`audiodecoder.cpp`, lines 207-294) -/

/-- `AV_NOPTS_VALUE`, the libav marker for an unknown timestamp (`INT64_MIN`). -/
def AV_NOPTS_VALUE : Int := -9223372036854775808

/-- The fields of libav's `AVPacket` that the engine reads or writes.
`data` records whether the data pointer is non-null. -/
structure AVPacket where
  data : Bool
  size : Int
  stream_index : Int
  pts : Int
  dts : Int
deriving DecidableEq, Repr

/-- The static packet `gFlushCodec`: zero-initialised storage on which
`InitialiseLibav` runs `av_init_packet` and sets `data` (lines 207, 511-512).
`av_init_packet` leaves `size` alone, so it keeps its static value 0. -/
def gFlushCodec : AVPacket :=
  { data := true, size := 0, stream_index := 0, pts := AV_NOPTS_VALUE, dts := AV_NOPTS_VALUE }

/-- A value of type `AVPacket*` held by a queue: `&gFlushCodec` or a packet
allocated by the demuxer. -/
inductive PacketPtr where
  | flushCodec
  | heap (pkt : AVPacket)
deriving DecidableEq, Repr

namespace PacketPtr

/-- The packet a pointer refers to. -/
def deref : PacketPtr → AVPacket
  | flushCodec => gFlushCodec
  | heap pkt => pkt

/-- The test `packet == &gFlushCodec`. -/
def isFlush : PacketPtr → Bool
  | flushCodec => true
  | heap _ => false

end PacketPtr

/-- The value of `sizeof(AVPacket*)` (a 64-bit build). -/
def sizeofPtr : Int := 8

/-- The data members of `TorcPacketQueue` (the mutex and the wait condition are
left out). `m_length` and `m_size` are counters kept next to the list, as in the
source. -/
structure TorcPacketQueue where
  m_length : Int
  m_size : Int
  m_queue : List PacketPtr
deriving DecidableEq, Repr

namespace TorcPacketQueue

/-- The constructor `TorcPacketQueue()`: both counters 0, empty list. -/
def new : TorcPacketQueue :=
  { m_length := 0, m_size := 0, m_queue := [] }

/-- The method `Size()`. -/
def Size (q : TorcPacketQueue) : Int := q.m_size

/-- The method `Length()`. -/
def Length (q : TorcPacketQueue) : Int := q.m_length

/-- The method `Pop()`: `NULL` on an empty list, otherwise `takeFirst` and the
two counters are reduced. -/
def Pop (q : TorcPacketQueue) : Option PacketPtr × TorcPacketQueue :=
  match q.m_queue with
  | [] => (none, q)
  | packet :: rest =>
    (some packet,
      { m_queue := rest
        m_size := q.m_size - (sizeofPtr + packet.deref.size)
        m_length := q.m_length - 1 })

/-- The method `Push(Packet)`: append and raise the two counters. The source
returns `true` and sets the caller's pointer to `NULL`; callers model that. -/
def Push (q : TorcPacketQueue) (Packet : AVPacket) : TorcPacketQueue :=
  { m_queue := q.m_queue ++ [PacketPtr.heap Packet]
    m_size := q.m_size + (sizeofPtr + Packet.size)
    m_length := q.m_length + 1 }

/-- The loop `while (!m_queue.isEmpty()) { packet = Pop(); ... }` of `Flush`,
with a bound on the number of iterations. A popped heap packet is freed, the
flush packet is not; neither leaves a trace in the queue. -/
def flushLoop : Nat → TorcPacketQueue → TorcPacketQueue
  | 0, q => q
  | fuel + 1, q =>
    if q.m_queue.isEmpty then q else flushLoop fuel q.Pop.2

/-- The method `Flush(InsertFlush)`: empty the list through `Pop`, then append
`&gFlushCodec` when `InsertFlush` is set. The loop bound is the list length,
which `flushLoop_empties` shows to be enough. -/
def Flush (InsertFlush : Bool) (q : TorcPacketQueue) : TorcPacketQueue :=
  let q1 := flushLoop q.m_queue.length q
  if InsertFlush then
    { m_queue := q1.m_queue ++ [PacketPtr.flushCodec]
      m_size := q1.m_size + (sizeofPtr + gFlushCodec.size)
      m_length := q1.m_length + 1 }
  else q1

end TorcPacketQueue

/-- One call on a packet queue. -/
inductive QueueOp where
  | push (Packet : AVPacket)
  | pop
  | flush (InsertFlush : Bool)
deriving DecidableEq, Repr

/-- The queue after one call. -/
def QueueOp.apply (q : TorcPacketQueue) : QueueOp → TorcPacketQueue
  | QueueOp.push Packet => q.Push Packet
  | QueueOp.pop => q.Pop.2
  | QueueOp.flush InsertFlush => q.Flush InsertFlush

/-- The queue after a sequence of calls, first call first. -/
def runOps (ops : List QueueOp) (q : TorcPacketQueue) : TorcPacketQueue :=
  ops.foldl QueueOp.apply q

/-- A call made by the producing side: `Push` or `Flush(true)`. -/
inductive ProducerOp where
  | push (Packet : AVPacket)
  | flush
deriving DecidableEq, Repr

/-- The producer call as a queue call. -/
def ProducerOp.toOp : ProducerOp → QueueOp
  | ProducerOp.push Packet => QueueOp.push Packet
  | ProducerOp.flush => QueueOp.flush true

/-- The test that a producer call is a `Push`. -/
def ProducerOp.isPush : ProducerOp → Bool
  | ProducerOp.push _ => true
  | ProducerOp.flush => false

/-- The packet of a `Push`. -/
def ProducerOp.packet? : ProducerOp → Option AVPacket
  | ProducerOp.push Packet => some Packet
  | ProducerOp.flush => none

/-- The delivery order as the specification words it: the sentinel of the most
recent flush, if there was a flush, then the packets pushed after it, in push
order. -/
def specDeliveryOrder (ops : List ProducerOp) : List PacketPtr :=
  (if ops.any (fun o => !o.isPush) then [PacketPtr.flushCodec] else []) ++
    ((ops.reverse.takeWhile ProducerOp.isPush).reverse.filterMap ProducerOp.packet?).map
      PacketPtr.heap

/-- The results of `n` successive calls of `Pop`, and the queue left. -/
def popN : Nat → TorcPacketQueue → List (Option PacketPtr) × TorcPacketQueue
  | 0, q => ([], q)
  | n + 1, q =>
    let r := q.Pop
    let rest := popN n r.2
    (r.1 :: rest.1, rest.2)

/-- The byte size the queue accounts for one item: pointer size plus packet size. -/
def accountedSize (p : PacketPtr) : Int := sizeofPtr + p.deref.size

/-- The counters agree with the list: `m_length` is its length and `m_size` the
sum of the accounted sizes. -/
def TorcPacketQueue.Consistent (q : TorcPacketQueue) : Prop :=
  q.m_length = q.m_queue.length ∧ q.m_size = (q.m_queue.map accountedSize).sum

/-! ## Stream selection (`audiodecoder.cpp`, lines 64-91 and 1946-1994) -/

/-- The stream types of `TorcStreamTypes`. -/
inductive TorcStreamTypes where
  | StreamTypeUnknown
  | StreamTypeAudio
  | StreamTypeVideo
  | StreamTypeSubtitle
  | StreamTypeRawText
  | StreamTypeAttachment
deriving DecidableEq, Repr

/-- libav's `AV_DISPOSITION_DEFAULT`. -/
def AV_DISPOSITION_DEFAULT : Nat := 0x0001

/-- libav's `AV_DISPOSITION_FORCED`. -/
def AV_DISPOSITION_FORCED : Nat := 0x0040

/-- The data members of `TorcStreamData` other than the metadata map. The
language is the numeric value of the `QLocale::Language` enumerator and the
disposition is libav's bit set. -/
structure TorcStreamData where
  m_type : TorcStreamTypes
  m_index : Int
  m_id : Int
  m_secondaryIndex : Int
  m_avDisposition : Nat
  m_language : Nat
  m_originalChannels : Int
deriving DecidableEq, Repr

/-- Constants that `SelectStream` uses and that are declared in headers outside
the sources at hand (`torcdecoder.h`, `torclanguage.h`): the two decode flag
bits and the language macro `DEFAULT_QT_LANGUAGE`. They are parameters of the
model. -/
structure HeaderConstants where
  DecodeAudio : Nat
  DecodeVideo : Nat
  DEFAULT_QT_LANGUAGE : Nat
deriving DecidableEq, Repr

/-- The method `AudioDecoder::FlagIsSet`: `m_flags & Flag` converted to `bool`. -/
def FlagIsSet (m_flags Flag : Nat) : Bool := (m_flags &&& Flag) != 0

/-- The local `ignore` of `SelectStream`: audio without the audio flag, or video,
subtitle or raw text without the video flag. -/
def SelectStream.ignore (c : HeaderConstants) (m_flags : Nat) (Typ : TorcStreamTypes) : Bool :=
  (Typ == TorcStreamTypes.StreamTypeAudio && !FlagIsSet m_flags c.DecodeAudio) ||
  ((Typ == TorcStreamTypes.StreamTypeVideo || Typ == TorcStreamTypes.StreamTypeSubtitle ||
      Typ == TorcStreamTypes.StreamTypeRawText) && !FlagIsSet m_flags c.DecodeVideo)

/-- The local `thisscore` of the loop in `SelectStream` for the stream `it`, with
the loop variables `count` and `index` and the user language `language`. -/
def SelectStream.thisscore (c : HeaderConstants) (language : Nat) (count index : Int)
    (it : TorcStreamData) : Int :=
  let languagematch := (language != c.DEFAULT_QT_LANGUAGE) && (it.m_language == language)
  let forced := (it.m_avDisposition &&& AV_DISPOSITION_FORCED) != 0
  let defaultstream := (it.m_avDisposition &&& AV_DISPOSITION_DEFAULT) != 0
  (count - index) + (if languagematch then 500 else 0) +
    (if forced then 1000 else 0) + (if defaultstream then 100 else 0) +
    ((it.m_originalChannels + count) * 2)

/-- The variables the loop of `SelectStream` updates. -/
structure SelectStream.Loop where
  index : Int
  score : Int
  selected : Int
deriving DecidableEq, Repr

/-- One iteration of the loop of `SelectStream`. -/
def SelectStream.step (c : HeaderConstants) (language : Nat) (count : Int)
    (st : SelectStream.Loop) (it : TorcStreamData) : SelectStream.Loop :=
  let thisscore := SelectStream.thisscore c language count st.index it
  if thisscore > st.score then
    { index := st.index + 1, score := thisscore, selected := it.m_index }
  else
    { index := st.index + 1, score := st.score, selected := st.selected }

/-- The method `AudioDecoder::SelectStream(Type)` (the parameter is named `Typ` here). Inputs read from the object:
`m_flags`, the list `streams = m_programs[m_currentProgram]->m_streams[Type]`,
`current = m_currentStreams[Type]` and the user language returned by
`gLocalContext->GetLanguage()`. The result is the returned `bool` and the value
stored in `m_currentStreams[Type]`. -/
def SelectStream (c : HeaderConstants) (language m_flags : Nat)
    (streams : List TorcStreamData) (current : Int) (Typ : TorcStreamTypes) : Bool × Int :=
  let selected : Int := -1
  let count : Int := streams.length
  if count < 1 || SelectStream.ignore c m_flags Typ then
    (current == selected, selected)
  else
    match streams with
    | [only] => (current == only.m_index, only.m_index)
    | _ =>
      let final := streams.foldl (SelectStream.step c language count)
        { index := 0, score := 0, selected := selected }
      (current == final.selected, final.selected)

/-- The method `TorcStreamData::IsValid`: the type lies strictly between
`StreamTypeUnknown` and `StreamTypeEnd`, which are the bounds around the five
proper types, and the index is greater than -1. -/
def TorcStreamData.IsValid (s : TorcStreamData) : Bool :=
  (s.m_type != TorcStreamTypes.StreamTypeUnknown) && decide (s.m_index > -1)

/-- Sample header constants for evaluating the model on concrete inputs. -/
def sampleConstants : HeaderConstants :=
  { DecodeAudio := 1, DecodeVideo := 2, DEFAULT_QT_LANGUAGE := 31 }

/-- A sample audio stream: container index 1, default disposition, language 31,
two channels. -/
def sampleStreamA : TorcStreamData :=
  { m_type := TorcStreamTypes.StreamTypeAudio, m_index := 1, m_id := 0, m_secondaryIndex := -1
    m_avDisposition := 1, m_language := 31, m_originalChannels := 2 }

/-- A sample audio stream: container index 2, no disposition, language 42, six
channels. -/
def sampleStreamB : TorcStreamData :=
  { m_type := TorcStreamTypes.StreamTypeAudio, m_index := 2, m_id := 0, m_secondaryIndex := -1
    m_avDisposition := 0, m_language := 42, m_originalChannels := 6 }

/-- A sample audio stream: container index 3, no disposition, language 31, two
channels. -/
def sampleStreamC : TorcStreamData :=
  { m_type := TorcStreamTypes.StreamTypeAudio, m_index := 3, m_id := 0, m_secondaryIndex := -1
    m_avDisposition := 0, m_language := 31, m_originalChannels := 2 }

/-- A sample audio stream whose codec context reports the channel count -10:
container index 4, no disposition, language 31. -/
def sampleStreamD : TorcStreamData :=
  { m_type := TorcStreamTypes.StreamTypeAudio, m_index := 4, m_id := 0, m_secondaryIndex := -1
    m_avDisposition := 0, m_language := 31, m_originalChannels := -10 }

/-- A sample audio stream whose codec context reports the channel count -10:
container index 5, no disposition, language 42. -/
def sampleStreamE : TorcStreamData :=
  { m_type := TorcStreamTypes.StreamTypeAudio, m_index := 5, m_id := 0, m_secondaryIndex := -1
    m_avDisposition := 0, m_language := 42, m_originalChannels := -10 }

/-- The test that a disposition bit set contains the given flag. -/
def hasDisposition (disposition flag : Nat) : Bool := (disposition &&& flag) != 0

/-- The score exactly as the specification's formula gives it for the stream `s`
at 0-based position `position` among `count` streams: the language bonus is given
whenever the stream's language equals the user language. -/
def specScore (language : Nat) (count position : Nat) (s : TorcStreamData) : Int :=
  ((count : Int) - position)
    + (if s.m_language = language then 500 else 0)
    + (if hasDisposition s.m_avDisposition AV_DISPOSITION_FORCED then 1000 else 0)
    + (if hasDisposition s.m_avDisposition AV_DISPOSITION_DEFAULT then 100 else 0)
    + 2 * (s.m_originalChannels + count)

/-- The specification's formula with the language bonus guarded as in the code:
the bonus is given when the user language is not the default language and the
stream's language equals it. -/
def specScoreGuarded (c : HeaderConstants) (language : Nat) (count position : Nat)
    (s : TorcStreamData) : Int :=
  ((count : Int) - position)
    + (if language ≠ c.DEFAULT_QT_LANGUAGE ∧ s.m_language = language then 500 else 0)
    + (if hasDisposition s.m_avDisposition AV_DISPOSITION_FORCED then 1000 else 0)
    + (if hasDisposition s.m_avDisposition AV_DISPOSITION_DEFAULT then 100 else 0)
    + 2 * (s.m_originalChannels + count)

/-- The loop variables of `SelectStream` before the first iteration. -/
def SelectStream.init : SelectStream.Loop :=
  { index := 0, score := 0, selected := -1 }

/-! ## Timestamp validation (`videodecoder.cpp`, lines 512-538) -/

/-- The data members of `VideoDecoder` that track timestamp faults. -/
structure PTSTracker where
  m_lastPTS : Int
  m_lastDTS : Int
  m_faultyPTSCount : Int
  m_faultyDTSCount : Int
deriving DecidableEq, Repr

/-- The method `VideoDecoder::ResetPTSTracker`: both last values `INT64_MIN`,
both counters 0. -/
def ResetPTSTracker : PTSTracker :=
  { m_lastPTS := -9223372036854775808, m_lastDTS := -9223372036854775808
    m_faultyPTSCount := 0, m_faultyDTSCount := 0 }

/-- The method `VideoDecoder::GetValidTimestamp(PTS, DTS)`: the returned
timestamp and the tracker after the call. -/
def GetValidTimestamp (t : PTSTracker) (PTS DTS : Int) : Int × PTSTracker :=
  let t1 : PTSTracker :=
    if DTS != AV_NOPTS_VALUE then
      { t with
        m_faultyDTSCount := t.m_faultyDTSCount + (if DTS ≤ t.m_lastDTS then 1 else 0)
        m_lastDTS := DTS }
    else t
  let t2 : PTSTracker :=
    if PTS != AV_NOPTS_VALUE then
      { t1 with
        m_faultyPTSCount := t1.m_faultyPTSCount + (if PTS ≤ t1.m_lastPTS then 1 else 0)
        m_lastPTS := PTS }
    else t1
  if (decide (t2.m_faultyPTSCount ≤ t2.m_faultyDTSCount) || DTS == AV_NOPTS_VALUE) &&
      PTS != AV_NOPTS_VALUE then
    (PTS, t2)
  else
    (DTS, t2)

/-- A sample tracker: last timestamps 3, one PTS fault, no DTS fault. -/
def sampleTrackerOneFault : PTSTracker :=
  { m_lastPTS := 3, m_lastDTS := 3, m_faultyPTSCount := 1, m_faultyDTSCount := 0 }

/-- A sample tracker: last timestamps 20, two PTS faults, one DTS fault. -/
def sampleTrackerTwoFaults : PTSTracker :=
  { m_lastPTS := 20, m_lastDTS := 20, m_faultyPTSCount := 2, m_faultyDTSCount := 1 }

/-- The return value as the specification words it: `PTS` unless the PTS fault
counter exceeds the DTS fault counter, in which case `DTS`. -/
def specValidTimestamp (faultyPTSCount faultyDTSCount PTS DTS : Int) : Int :=
  if faultyPTSCount > faultyDTSCount then DTS else PTS

/-! ## Decoder threads and the audio worker (`audiodecoder.cpp`, lines 296-379
and 690-956) -/

/-- The states of `TorcDecoder::DecoderState` that the engine uses. -/
inductive DecoderState where
  | None
  | Opening
  | Paused
  | Pausing
  | Starting
  | Running
  | Stopping
  | Stopped
  | Errored
deriving DecidableEq, Repr

/-- The data members of `TorcDecoderThread` for a thread that owns a queue. -/
structure TorcDecoderThread where
  m_queue : TorcPacketQueue
  m_threadRunning : Bool
  m_state : DecoderState
  m_requestedState : DecoderState
deriving DecidableEq, Repr

namespace TorcDecoderThread

/-- The method `IsPaused()`. -/
def IsPaused (t : TorcDecoderThread) : Bool := t.m_state == DecoderState.Paused

/-- The method `Stop()`: request `Stopped` (and wake the waiters). -/
def Stop (t : TorcDecoderThread) : TorcDecoderThread :=
  { t with m_requestedState := DecoderState.Stopped }

/-- The method `Pause()`: request `Paused` (and wake the waiters). -/
def Pause (t : TorcDecoderThread) : TorcDecoderThread :=
  { t with m_requestedState := DecoderState.Paused }

/-- The method `Unpause()`: request `Running` (and wake the waiters). -/
def Unpause (t : TorcDecoderThread) : TorcDecoderThread :=
  { t with m_requestedState := DecoderState.Running }

end TorcDecoderThread

/-- libav's `CODEC_ID_AC3`. -/
def CODEC_ID_AC3 : Int := 0x15003

/-- libav's `av_get_bytes_per_sample`: 0 for a sample format outside the table,
otherwise the sample width in bytes (U8, S16, S32, FLT, DBL and their planar
forms). -/
def av_get_bytes_per_sample (sample_fmt : Int) : Int :=
  if sample_fmt = 0 ∨ sample_fmt = 5 then 1
  else if sample_fmt = 1 ∨ sample_fmt = 6 then 2
  else if sample_fmt = 2 ∨ sample_fmt = 3 ∨ sample_fmt = 7 ∨ sample_fmt = 8 then 4
  else if sample_fmt = 4 ∨ sample_fmt = 9 then 8
  else 0

/-- The fields of libav's `AVCodecContext` that the audio worker reads. The
field `request_channels`, which the worker only writes to steer the decoder, is
left out: what the decoder does is an input of the model. -/
structure AVCodecContext where
  channels : Int
  sample_rate : Int
  sample_fmt : Int
  codec_id : Int
  profile : Int
deriving DecidableEq, Repr

/-- The fields of `AudioDescription` that the audio worker reads from
`m_audioOut`. -/
structure AudioDescription where
  m_passthrough : Bool
  m_sampleRate : Int
  m_channels : Int
  m_bestFillSize : Int
  m_bufferTime : Int
deriving DecidableEq, Repr

/-- What the audio worker does that the sink can observe: a call of
`AddAudioData` with its byte count, PTS and frame count, or the reset of the
audio PTS to unknown when the worker pops the flush sentinel. -/
inductive AudioEvent where
  | AddAudioData (datasize pts frames : Int)
  | flush
deriving DecidableEq, Repr

/-- How a loop body ends: `next` for falling through or `continue`, `exit` for
leaving the loop, `crash` for a null dereference or a division by zero, `fuel`
when the supplied inputs are used up while the loop is still running. -/
inductive Control where
  | next
  | exit
  | crash
  | fuel
deriving DecidableEq, Repr

/-- The state the audio worker works on: its thread's members, the members of
`AudioDecoder` it reads or writes, the local `yield`, and the record of what it
has sent to the sink. `streamCodec i` is `m_avFormatContext->streams[i]->codec`;
`audioStreams` is the audio bucket of the current program. -/
structure AudioWorker where
  m_state : DecoderState
  m_requestedState : DecoderState
  m_queue : TorcPacketQueue
  m_interruptDecoder : Int
  m_audioPts : Int
  m_audio : Bool
  m_audioOut : AudioDescription
  m_currentStream : Int
  streamCodec : Int → Option AVCodecContext
  constants : HeaderConstants
  language : Nat
  m_flags : Nat
  audioStreams : List TorcStreamData
  yield : Bool
  log : List AudioEvent

/-- What other threads may do to the state shared with a worker between two of
its steps: raise the interrupt flag (`AudioDecoder::Stop`), request a state
(`Stop`, `Pause`, `Unpause` of the thread) and push to or flush the queue. -/
structure Interference where
  interrupt : Bool
  request : Option DecoderState
  producer : List ProducerOp
deriving DecidableEq, Repr

/-- No action by other threads. -/
def Interference.none : Interference :=
  { interrupt := false, request := Option.none, producer := [] }

/-- The worker state after the actions of the other threads. -/
def Interference.apply (i : Interference) (w : AudioWorker) : AudioWorker :=
  { w with
    m_interruptDecoder := if i.interrupt then 1 else w.m_interruptDecoder
    m_requestedState := match i.request with
      | some r => r
      | Option.none => w.m_requestedState
    m_queue := runOps (i.producer.map ProducerOp.toOp) w.m_queue }

/-- What libav's `avcodec_decode_audio4` and `av_samples_get_buffer_size` do in
one call of `DecodeAudioPacket`: the result code, whether a frame was produced,
the buffer size of that frame, and the channel count, sample rate and sample
format the decoder leaves in the context. -/
structure DecodeOracle where
  result : Int
  gotframe : Bool
  bufferSize : Int
  channels : Int
  sample_rate : Int
  sample_fmt : Int
deriving DecidableEq, Repr

/-- The inputs of one pass of the loop `while (temp.size > 0)`: the answers of
the sink, the decoder's behaviour, and `m_audioOut` as `SetupAudio` leaves it in
the reselect branch and in the stream-changed branch. -/
structure ChunkEnv where
  ShouldPassthrough : Bool
  DecoderWillDownmix : Bool
  GetMaxChannels : Int
  NeedDecodingBeforePassthrough : Bool
  decode : DecodeOracle
  reselectSetup : AudioDescription
  changedSetup : AudioDescription
deriving DecidableEq, Repr

/-- The variables of the loop `while (temp.size > 0)`: the worker, the codec
context `context` points to, `temp.size`, `reselectaudiotrack` and the four
locals declared at the top of the loop body. -/
structure ChunkState where
  w : AudioWorker
  context : AVCodecContext
  tempSize : Int
  reselectaudiotrack : Bool
  used : Int
  datasize : Int
  decodedsize : Int
  decoded : Bool

/-- The function `DecodeAudioPacket`: the returned result code, the value left
in `DataSize` (0 on an error or when no frame was produced) and the context as
the decoder leaves it. -/
def DecodeAudioPacket (o : DecodeOracle) (Context : AVCodecContext) :
    Int × Int × AVCodecContext :=
  let context : AVCodecContext :=
    { Context with channels := o.channels, sample_rate := o.sample_rate,
                   sample_fmt := o.sample_fmt }
  if o.result < 0 || !o.gotframe then (o.result, 0, context)
  else (o.result, o.bufferSize, context)

namespace DecodeAudioFrames

/-- The block `if (!context->channels) { ... }` at the top of the loop body,
after the four locals are initialised. -/
def firstDecode (e : ChunkEnv) (s : ChunkState) : ChunkState :=
  let s : ChunkState := { s with used := 0, datasize := 0, decodedsize := -1, decoded := false }
  if s.context.channels == 0 then
    let context : AVCodecContext :=
      if e.ShouldPassthrough || !e.DecoderWillDownmix then s.context
      else if s.context.codec_id == CODEC_ID_AC3 then
        { s.context with channels := e.GetMaxChannels }
      else s.context
    let r := DecodeAudioPacket e.decode context
    { s with
      context := r.2.2
      used := r.1
      datasize := r.2.1
      decodedsize := r.2.1
      decoded := true
      reselectaudiotrack := s.reselectaudiotrack || (r.2.2.channels != 0) }
  else s

/-- The block `if (reselectaudiotrack) { if (SelectStream(StreamTypeAudio))
SetupAudio(); }`. -/
def reselect (e : ChunkEnv) (s : ChunkState) : ChunkState :=
  if s.reselectaudiotrack then
    let r := SelectStream s.w.constants s.w.language s.w.m_flags s.w.audioStreams
      s.w.m_currentStream TorcStreamTypes.StreamTypeAudio
    let w : AudioWorker := { s.w with m_currentStream := r.2 }
    if r.1 then { s with w := { w with m_audioOut := e.reselectSetup } }
    else { s with w := w }
  else s

/-- The statement `datasize = 0;` and the block
`if (m_audioOut->m_passthrough) { ... } else { ... }` that follows it. -/
def output (e : ChunkEnv) (s : ChunkState) : ChunkState :=
  let s : ChunkState := { s with datasize := 0 }
  if s.w.m_audioOut.m_passthrough then
    let s : ChunkState :=
      if !s.decoded then
        if e.NeedDecodingBeforePassthrough then
          let r := DecodeAudioPacket e.decode s.context
          { s with context := r.2.2, used := r.1, datasize := r.2.1, decodedsize := r.2.1 }
        else { s with decodedsize := -1 }
      else s
    { s with datasize := s.tempSize, tempSize := 0 }
  else
    let s : ChunkState :=
      if !s.decoded then
        let context : AVCodecContext :=
          if e.DecoderWillDownmix then
            if s.context.codec_id == CODEC_ID_AC3 then
              { s.context with channels := e.GetMaxChannels }
            else s.context
          else s.context
        let r := DecodeAudioPacket e.decode context
        { s with context := r.2.2, used := r.1, datasize := r.2.1, decodedsize := r.2.1 }
      else s
    if s.context.sample_rate != s.w.m_audioOut.m_sampleRate ||
        s.context.channels != s.w.m_audioOut.m_channels then
      let r := SelectStream s.w.constants s.w.language s.w.m_flags s.w.audioStreams
        s.w.m_currentStream TorcStreamTypes.StreamTypeAudio
      { s with
        w := { s.w with m_currentStream := r.2, m_audioOut := e.changedSetup }
        datasize := 0 }
    else s

/-- The end of the loop body, from `if (used < 0)` on: leave the loop on a
decoding error, skip a chunk without data, otherwise raise the audio PTS to the
packet's PTS when that is known and greater, compute the frame count and call
`AddAudioData`. A zero divisor in the frame count is a crash. -/
def deliver (packet : AVPacket) (s : ChunkState) : Control × ChunkState :=
  if s.used < 0 then (Control.exit, s)
  else if s.datasize ≤ 0 then (Control.next, { s with tempSize := s.tempSize - s.used })
  else
    let m_audioPts :=
      if packet.pts != AV_NOPTS_VALUE && decide (packet.pts > s.w.m_audioPts) then packet.pts
      else s.w.m_audioPts
    let s : ChunkState := { s with w := { s.w with m_audioPts := m_audioPts } }
    if decide (s.context.channels ≤ 0) || decide (s.decodedsize < 0) then
      (Control.next,
        { s with
          w := { s.w with log := s.w.log ++ [AudioEvent.AddAudioData s.datasize m_audioPts (-1)] }
          tempSize := s.tempSize - s.used })
    else if s.context.channels * av_get_bytes_per_sample s.context.sample_fmt = 0 then
      (Control.crash, s)
    else
      let frames := Int.tdiv s.decodedsize
        (s.context.channels * av_get_bytes_per_sample s.context.sample_fmt)
      (Control.next,
        { s with
          w := { s.w with log := s.w.log ++ [AudioEvent.AddAudioData s.datasize m_audioPts frames] }
          tempSize := s.tempSize - s.used })

/-- One pass of the body of `while (temp.size > 0)`. -/
def chunkBody (e : ChunkEnv) (packet : AVPacket) (s : ChunkState) : Control × ChunkState :=
  deliver packet (output e (reselect e (firstDecode e s)))

/-- The loop `while (temp.size > 0)`, one element of the input list per pass.
The result is `next` when the loop condition fails or the body leaves the loop,
`crash` when the body crashes, and `fuel` when the inputs are used up while
`temp.size` is still positive. -/
def chunkLoop (packet : AVPacket) : List ChunkEnv → ChunkState → Control × ChunkState
  | [], s => if s.tempSize > 0 then (Control.fuel, s) else (Control.next, s)
  | e :: es, s =>
    if s.tempSize > 0 then
      match chunkBody e packet s with
      | (Control.next, s1) => chunkLoop packet es s1
      | (Control.exit, s1) => (Control.next, s1)
      | (c, s1) => (c, s1)
    else (Control.next, s)

/-- The block `if (packet) { ... }` for a packet the worker kept: run the loop
over `temp`, starting with `temp.size = packet->size`, and store the context
back. -/
def decodePacket (chunks : List ChunkEnv) (index : Int) (context : AVCodecContext)
    (packet : AVPacket) (w : AudioWorker) : Control × AudioWorker :=
  let w : AudioWorker := { w with yield := false }
  let r := chunkLoop packet chunks
    { w := w, context := context, tempSize := packet.size, reselectaudiotrack := false
      used := 0, datasize := 0, decodedsize := -1, decoded := false }
  (r.1, { r.2.w with streamCodec := Function.update r.2.w.streamCodec index (some r.2.context) })

end DecodeAudioFrames

/-- The inputs of one pass of the main loop of `DecodeAudioFrames`: what the
other threads do before the loop condition is tested and before the flags are
tested again under the lock, the answers of the sink, and the inputs of the
chunk loop. -/
structure AudioIterEnv where
  before : Interference
  atWait : Interference
  GetFillStatus : Int
  HasAudioOut : Bool
  chunks : List ChunkEnv
deriving DecidableEq, Repr

namespace DecodeAudioFrames

/-- The two blocks `if (*nextstate == TorcDecoder::Running) { ... }` and
`if (*nextstate == TorcDecoder::Paused) { ... }` of a worker's loop. -/
def applyRequest (w : AudioWorker) : AudioWorker :=
  let w : AudioWorker :=
    if w.m_requestedState == DecoderState.Running then
      { w with m_requestedState := DecoderState.None, m_state := DecoderState.Running }
    else w
  if w.m_requestedState == DecoderState.Paused then
    { w with m_requestedState := DecoderState.None, m_state := DecoderState.Paused }
  else w

/-- The loop body from `int index = m_currentStreams[StreamTypeAudio];` on:
look up the codec context, pop a packet if the queue has one, reset the audio
PTS on the flush sentinel, free a packet that cannot be played, and decode a
packet that can. -/
def process (env : AudioIterEnv) (w : AudioWorker) : Control × AudioWorker :=
  let index := w.m_currentStream
  let context : Option AVCodecContext := if index > -1 then w.streamCodec index else none
  if w.m_queue.Length != 0 then
    match w.m_queue.Pop with
    | (some PacketPtr.flushCodec, q) =>
      (Control.next,
        { w with
          m_queue := q
          m_audioPts := AV_NOPTS_VALUE
          yield := false
          log := w.log ++ [AudioEvent.flush] })
    | (some (PacketPtr.heap packet), q) =>
      match context with
      | some ctx =>
        if !w.m_audio || !env.HasAudioOut || index != packet.stream_index then
          (Control.next, { w with m_queue := q })
        else decodePacket env.chunks index ctx packet { w with m_queue := q }
      | none => (Control.next, { w with m_queue := q })
    | (none, q) =>
      if !w.m_audio || context.isNone || !env.HasAudioOut then
        (Control.next, { w with m_queue := q })
      else (Control.crash, { w with m_queue := q })
  else (Control.next, w)

/-- The loop body after the flags have been tested under the lock: apply the
requested state, go round again when paused or when the sink is full enough,
otherwise process the queue. -/
def locked (env : AudioIterEnv) (w0 : AudioWorker) : Control × AudioWorker :=
  let w := applyRequest w0
  if w.m_state == DecoderState.Paused then (Control.next, w)
  else if w.m_audio && decide (env.GetFillStatus > w.m_audioOut.m_bestFillSize) then
    (Control.next, { w with yield := w.m_queue.Length == 0 })
  else process env w

/-- One pass of the main loop `while (!m_interruptDecoder && *nextstate !=
Stopped)`, the test of the loop condition included: the condition, the wait
(during which other threads act), `yield = true`, the second test of the flags,
and the rest of the body. -/
def iteration (env : AudioIterEnv) (w0 : AudioWorker) : Control × AudioWorker :=
  let w := env.before.apply w0
  if w.m_interruptDecoder != 0 || w.m_requestedState == DecoderState.Stopped then
    (Control.exit, w)
  else
    let w : AudioWorker := { env.atWait.apply w with yield := true }
    if w.m_interruptDecoder != 0 || w.m_requestedState == DecoderState.Stopped then
      (Control.exit, w)
    else locked env w

/-- The statements before the main loop: the audio PTS is unknown, `SetupAudio`
leaves `m_audioOut` as given, the state is `Running` and `yield` is set. -/
def start (setup : AudioDescription) (w : AudioWorker) : AudioWorker :=
  { w with
    m_audioPts := AV_NOPTS_VALUE
    m_audioOut := setup
    m_state := DecoderState.Running
    yield := true }

/-- The statements after the main loop: the state is `Stopped` and the queue is
flushed with `Flush()`, whose argument defaults to `true`. -/
def finish (w : AudioWorker) : AudioWorker :=
  { w with m_state := DecoderState.Stopped, m_queue := w.m_queue.Flush true }

/-- The main loop, one element of the input list per pass. -/
def mainLoop : List AudioIterEnv → AudioWorker → Control × AudioWorker
  | [], w => (Control.fuel, w)
  | env :: envs, w =>
    match iteration env w with
    | (Control.next, w1) => mainLoop envs w1
    | (c, w1) => (c, w1)

end DecodeAudioFrames

/-- The method `AudioDecoder::DecodeAudioFrames` for a thread with a queue: the
statements before the loop, the main loop, and the statements after it when the
loop is left. -/
def DecodeAudioFrames (setup : AudioDescription) (envs : List AudioIterEnv)
    (w : AudioWorker) : Control × AudioWorker :=
  match DecodeAudioFrames.mainLoop envs (DecodeAudioFrames.start setup w) with
  | (Control.exit, w1) => (Control.exit, DecodeAudioFrames.finish w1)
  | (c, w1) => (c, w1)

/-- The PTS values of the `AddAudioData` calls of a record, in call order. -/
def addedPts : List AudioEvent → List Int
  | [] => []
  | AudioEvent.AddAudioData _ pts _ :: rest => pts :: addedPts rest
  | AudioEvent.flush :: rest => addedPts rest

/-- The PTS values of the `AddAudioData` calls of a record, split at the points
where the worker popped a flush sentinel. -/
def ptsSegments : List AudioEvent → List (List Int)
  | [] => [[]]
  | AudioEvent.AddAudioData _ pts _ :: rest =>
    match ptsSegments rest with
    | [] => [[pts]]
    | seg :: segs => (pts :: seg) :: segs
  | AudioEvent.flush :: rest => [] :: ptsSegments rest

/-- The PTS of the last `AddAudioData` call of a record since the last flush, or
the given bound when the record has neither; `none` when a flush came last. -/
def boundAfter : Option Int → List AudioEvent → Option Int
  | b, [] => b
  | _, AudioEvent.AddAudioData _ pts _ :: rest => boundAfter (some pts) rest
  | _, AudioEvent.flush :: rest => boundAfter none rest

/-- Every `AddAudioData` call of the record has a PTS at least that of the call
before it, unless a flush lies between them; the first call is compared with the
given bound, if there is one. -/
def OrderedFrom : Option Int → List AudioEvent → Prop
  | _, [] => True
  | b, AudioEvent.AddAudioData _ pts _ :: rest =>
    (∀ l, b = some l → l ≤ pts) ∧ OrderedFrom (some pts) rest
  | _, AudioEvent.flush :: rest => OrderedFrom none rest

/-- The audio PTS high-water mark after a packet with data: the packet's PTS
when that is known and strictly greater than the mark, otherwise the mark. -/
def raisedPts (packet : AVPacket) (mark : Int) : Int :=
  if packet.pts ≠ AV_NOPTS_VALUE ∧ packet.pts > mark then packet.pts else mark

/-- A sample codec context: stereo, 48 kHz, signed 16 bit. -/
def sampleContext : AVCodecContext :=
  { channels := 2, sample_rate := 48000, sample_fmt := 1, codec_id := 0, profile := 0 }

/-- A sample output description matching `sampleContext`, without passthrough. -/
def sampleAudioOut : AudioDescription :=
  { m_passthrough := false, m_sampleRate := 48000, m_channels := 2, m_bestFillSize := 1000
    m_bufferTime := 100 }

/-- A sample data packet of 4 bytes for stream 1 with the given PTS. -/
def samplePacket (pts : Int) : AVPacket :=
  { data := true, size := 4, stream_index := 1, pts := pts, dts := pts }

/-- A sample worker with a sink, audio stream 1 selected and the given queue
content. -/
def sampleWorker (items : List ProducerOp) : AudioWorker :=
  { m_state := DecoderState.None
    m_requestedState := DecoderState.None
    m_queue := runOps (items.map ProducerOp.toOp) TorcPacketQueue.new
    m_interruptDecoder := 0
    m_audioPts := AV_NOPTS_VALUE
    m_audio := true
    m_audioOut := sampleAudioOut
    m_currentStream := 1
    streamCodec := fun _ => some sampleContext
    constants := sampleConstants
    language := 31
    m_flags := 1
    audioStreams := [sampleStreamA]
    yield := true
    log := [] }

/-- Sample inputs of one chunk: the decoder consumes 4 bytes and produces a
frame of 16 bytes in the format of `sampleContext`. -/
def sampleChunk : ChunkEnv :=
  { ShouldPassthrough := false
    DecoderWillDownmix := false
    GetMaxChannels := 2
    NeedDecodingBeforePassthrough := false
    decode := { result := 4, gotframe := true, bufferSize := 16, channels := 2
                sample_rate := 48000, sample_fmt := 1 }
    reselectSetup := sampleAudioOut
    changedSetup := sampleAudioOut }

/-- Sample inputs of one pass of the main loop: the given queue calls by the
demuxer while the worker waits, an empty sink buffer, one chunk. -/
def sampleIter (producer : List ProducerOp) : AudioIterEnv :=
  { before := Interference.none
    atWait := { interrupt := false, request := none, producer := producer }
    GetFillStatus := 0
    HasAudioOut := true
    chunks := [sampleChunk] }

/-- The invariant of the audio worker's record: the calls are ordered between
flushes, and the last call since the last flush, if any, has a PTS no greater
than the audio PTS. -/
def AudioWorker.Ordered (w : AudioWorker) : Prop :=
  OrderedFrom none w.log ∧ ∀ l, boundAfter none w.log = some l → l ≤ w.m_audioPts

/-! ## The demuxer loop (`audiodecoder.cpp`, lines 620-624 and 1505-1700) -/

/-- The macro `MAX_QUEUE_SIZE_AUDIO`. -/
def MAX_QUEUE_SIZE_AUDIO : Int := 20 * 16 * 1024

/-- libav's `AVERROR_EOF`. -/
def AVERROR_EOF : Int := -541478725

/-- libav's `av_init_packet`: timestamps unknown, stream index 0; `data` and
`size` are left alone. -/
def av_init_packet (pkt : AVPacket) : AVPacket :=
  { pkt with pts := AV_NOPTS_VALUE, dts := AV_NOPTS_VALUE, stream_index := 0 }

/-- libav's `av_free_packet`: the data is released, `data` is `NULL` and `size`
is 0 afterwards. -/
def av_free_packet (pkt : AVPacket) : AVPacket :=
  { pkt with data := false, size := 0 }

/-- The packet the demuxer allocates: `new AVPacket`, `memset` to 0,
`av_init_packet`. -/
def newPacket : AVPacket :=
  av_init_packet { data := false, size := 0, stream_index := 0, pts := 0, dts := 0 }

/-- The state `DemuxPackets` works on: the demuxer thread's two state members,
its three worker threads, the members of `AudioDecoder` and `AudioDecoderPriv`
it reads or writes (`m_avFormatContext` and `m_audio` as non-null tests, the three
entries of `m_currentStreams`), and the locals that live across passes of the
loop. `packet` is `none` when the local pointer is `NULL`. -/
structure Demuxer where
  m_state : DecoderState
  m_requestedState : DecoderState
  m_videoThread : TorcDecoderThread
  m_audioThread : TorcDecoderThread
  m_subtitleThread : TorcDecoderThread
  m_interruptDecoder : Int
  m_avFormatContext : Bool
  m_pauseResult : Int
  m_seek : Bool
  m_audio : Bool
  videoStream : Int
  audioStream : Int
  subtitleStream : Int
  eof : Bool
  waseof : Bool
  demuxererror : Bool
  packet : Option AVPacket
deriving DecidableEq, Repr

/-- What libav and the sink answer in one pass of the demuxer loop: the results
of `av_read_pause`, `av_seek_frame` and `av_read_frame`, the packet a successful
read delivers, the `eof_reached` and `error` members of the I/O context, whether
the audio codec has `CODEC_CAP_DELAY`, and the sink's fill status. -/
structure DemuxEnv where
  av_read_pause : Int
  av_seek_frame : Int
  av_read_frame : Int
  frame : AVPacket
  eof_reached : Bool
  pb_error : Int
  audioCodecDelay : Bool
  GetFillStatus : Int
deriving DecidableEq, Repr

/-- The method `AudioDecoder::Seek`: set the latch if it is not set. -/
def Demuxer.Seek (d : Demuxer) : Demuxer :=
  if !d.m_seek then { d with m_seek := true } else d

/-- A worker thread after `m_queue->Push(packet)`. -/
def TorcDecoderThread.push (t : TorcDecoderThread) (packet : AVPacket) : TorcDecoderThread :=
  { t with m_queue := t.m_queue.Push packet }

/-- A worker thread after `m_queue->Flush()`, whose argument defaults to `true`. -/
def TorcDecoderThread.flush (t : TorcDecoderThread) : TorcDecoderThread :=
  { t with m_queue := t.m_queue.Flush true }

namespace DemuxPackets

/-- The block `if (m_seek) { ... }`: call `av_seek_frame`; on a result that is
not negative flush the video, audio and subtitle queues; clear the latch. -/
def seekStep (av_seek_frame : Int) (d : Demuxer) : Demuxer :=
  if d.m_seek then
    let d : Demuxer :=
      if av_seek_frame < 0 then d
      else
        { d with
          m_videoThread := d.m_videoThread.flush
          m_audioThread := d.m_audioThread.flush
          m_subtitleThread := d.m_subtitleThread.flush }
    { d with m_seek := false }
  else d

/-- The packet after `av_init_packet(packet); packet->data = NULL;
packet->size = 0; packet->stream_index = videoindex;`. -/
def emptyPacket (packet : AVPacket) (videoindex : Int) : AVPacket :=
  { av_init_packet packet with data := false, size := 0, stream_index := videoindex }

/-- The block `if (videoindex > -1) { ... }` of the end-of-file branch: an empty
packet for the video queue. `Push` sets the local pointer to `NULL`; preparing a
packet through a `NULL` pointer is a crash. -/
def eofVideo (d : Demuxer) : Control × Demuxer :=
  if d.videoStream > -1 then
    match d.packet with
    | some packet =>
      (Control.next,
        { d with
          m_videoThread := d.m_videoThread.push (emptyPacket packet d.videoStream)
          packet := none })
    | none => (Control.crash, d)
  else (Control.next, d)

/-- The block `if (audioindex > -1) { ... }` of the end-of-file branch: an empty
packet for the audio queue when the audio codec has `CODEC_CAP_DELAY`; its
`stream_index` is set to `videoindex`, as in the source. -/
def eofAudio (env : DemuxEnv) (d : Demuxer) : Control × Demuxer :=
  if d.audioStream > -1 then
    if env.audioCodecDelay then
      match d.packet with
      | some packet =>
        (Control.next,
          { d with
            m_audioThread := d.m_audioThread.push (emptyPacket packet d.videoStream)
            packet := none })
      | none => (Control.crash, d)
    else (Control.next, d)
  else (Control.next, d)

/-- The block `if (!waseof) { ... }` of the end-of-file branch: set `waseof`,
then the video block, then the audio block. -/
def eofPushes (env : DemuxEnv) (d : Demuxer) : Control × Demuxer :=
  if !d.waseof then
    match eofVideo { d with waseof := true } with
    | (Control.next, d1) => eofAudio env d1
    | (c, d1) => (c, d1)
  else (Control.next, d)

/-- The rest of the end-of-file branch: leave the loop when the three queues are
empty and the sink has played out, otherwise go round again. -/
def eofWait (env : DemuxEnv) (d : Demuxer) : Control × Demuxer :=
  if d.m_audioThread.m_queue.Length + d.m_videoThread.m_queue.Length +
      d.m_subtitleThread.m_queue.Length == 0 then
    if d.m_audio && decide (env.GetFillStatus > 1) then (Control.next, d)
    else (Control.exit, d)
  else (Control.next, d)

/-- The call of `av_read_frame` and what follows it: on a negative result note
the end of file, or leave the loop on an I/O error, or go round again; on
success push the packet to the queue whose selected stream it belongs to, or free
its data when it belongs to none. -/
def readAndRoute (env : DemuxEnv) (d : Demuxer) : Control × Demuxer :=
  if env.av_read_frame < 0 then
    if env.av_read_frame == AVERROR_EOF || env.eof_reached then
      (Control.next, { d with eof := true })
    else if env.pb_error != 0 then
      (Control.exit, { d with demuxererror := true })
    else (Control.next, d)
  else
    let packet := env.frame
    if packet.stream_index == d.videoStream then
      (Control.next, { d with m_videoThread := d.m_videoThread.push packet, packet := none })
    else if packet.stream_index == d.audioStream then
      (Control.next, { d with m_audioThread := d.m_audioThread.push packet, packet := none })
    else if packet.stream_index == d.subtitleStream then
      (Control.next,
        { d with m_subtitleThread := d.m_subtitleThread.push packet, packet := none })
    else (Control.next, { d with packet := some (av_free_packet packet) })

/-- The loop body after the seek block: go round again while paused or while the
audio queue holds more than `MAX_QUEUE_SIZE_AUDIO` bytes, allocate the packet if
the pointer is `NULL`, then the end-of-file branch or the read. -/
def afterSeek (env : DemuxEnv) (d0 : Demuxer) : Control × Demuxer :=
  if d0.m_state == DecoderState.Paused then (Control.next, d0)
  else if d0.m_audioThread.m_queue.Size > MAX_QUEUE_SIZE_AUDIO then (Control.next, d0)
  else
    let d : Demuxer := if d0.packet.isNone then { d0 with packet := some newPacket } else d0
    if d.eof then
      match eofPushes env d with
      | (Control.next, d1) => eofWait env d1
      | (c, d1) => (c, d1)
    else readAndRoute env d

/-- The four blocks at the top of the loop body, each ending in `continue`:
a pause that is completing, a start that is completing, a pending pause request
and a pending run request. The result is `none` when none of them applies. -/
def transition (env : DemuxEnv) (d : Demuxer) : Option Demuxer :=
  if d.m_state == DecoderState.Pausing then
    if d.m_audioThread.IsPaused && d.m_videoThread.IsPaused && d.m_subtitleThread.IsPaused then
      some { d with m_state := DecoderState.Paused }
    else some d
  else if d.m_state == DecoderState.Starting then
    if d.m_audioThread.IsPaused || d.m_videoThread.IsPaused || d.m_subtitleThread.IsPaused then
      some d
    else some { d with m_state := DecoderState.Running }
  else if d.m_requestedState == DecoderState.Paused then
    some
      { d with
        m_videoThread := d.m_videoThread.Pause
        m_audioThread := d.m_audioThread.Pause
        m_subtitleThread := d.m_subtitleThread.Pause
        m_pauseResult :=
          if d.m_state == DecoderState.Running then env.av_read_pause else d.m_pauseResult
        m_state := DecoderState.Pausing
        m_requestedState := DecoderState.None }
  else if d.m_requestedState == DecoderState.Running then
    some
      { d with
        m_videoThread := d.m_videoThread.Unpause
        m_audioThread := d.m_audioThread.Unpause
        m_subtitleThread := d.m_subtitleThread.Unpause
        m_state := DecoderState.Starting
        m_requestedState := DecoderState.None }
  else none

/-- The loop condition `!m_interruptDecoder && m_priv->m_avFormatContext &&
*nextstate != TorcDecoder::Stopped`. -/
def loopCondition (d : Demuxer) : Bool :=
  d.m_interruptDecoder == 0 && d.m_avFormatContext &&
    d.m_requestedState != DecoderState.Stopped

/-- One pass of the loop of `DemuxPackets`, the test of the loop condition
included. -/
def iteration (env : DemuxEnv) (d : Demuxer) : Control × Demuxer :=
  if !loopCondition d then (Control.exit, d)
  else
    match transition env d with
    | some d1 => (Control.next, d1)
    | none => afterSeek env (seekStep env.av_seek_frame d)

end DemuxPackets

/-- The pass of the demuxer loop gets as far as the seek block: the loop
condition holds, the state is neither `Pausing` nor `Starting`, and neither
`Paused` nor `Running` is requested. -/
def Demuxer.reachesSeek (d : Demuxer) : Bool :=
  DemuxPackets.loopCondition d &&
    d.m_state != DecoderState.Pausing && d.m_state != DecoderState.Starting &&
    d.m_requestedState != DecoderState.Paused && d.m_requestedState != DecoderState.Running

/-- A sample worker thread in state `Running` whose queue holds the given
packets. -/
def sampleThread (packets : List AVPacket) : TorcDecoderThread :=
  { m_queue := runOps (packets.map QueueOp.push) TorcPacketQueue.new
    m_threadRunning := true
    m_state := DecoderState.Running
    m_requestedState := DecoderState.None }

/-- A sample demuxer in the given state with a pending seek: video stream 0,
audio stream 1, subtitle stream 2, one packet in the video queue and one in the
audio queue. -/
def sampleDemuxer (state : DecoderState) : Demuxer :=
  { m_state := state
    m_requestedState := DecoderState.None
    m_videoThread := sampleThread [{ samplePacket 10 with stream_index := 0 }]
    m_audioThread := sampleThread [samplePacket 10]
    m_subtitleThread := sampleThread []
    m_interruptDecoder := 0
    m_avFormatContext := true
    m_pauseResult := 0
    m_seek := true
    m_audio := true
    videoStream := 0
    audioStream := 1
    subtitleStream := 2
    eof := false
    waseof := false
    demuxererror := false
    packet := none }

/-- Sample inputs of one pass of the demuxer loop: the seek succeeds and the
read delivers a packet of the video stream with PTS 20. -/
def sampleDemuxEnv : DemuxEnv :=
  { av_read_pause := 0
    av_seek_frame := 0
    av_read_frame := 0
    frame := { samplePacket 20 with stream_index := 0 }
    eof_reached := false
    pb_error := 0
    audioCodecDelay := false
    GetFillStatus := 0 }

/-- The second queue holds the items of the first one, followed by packets
pushed since. -/
def QueueExtends (q q2 : TorcPacketQueue) : Prop :=
  ∃ pushed : List AVPacket, q2.m_queue = q.m_queue ++ pushed.map PacketPtr.heap

/-- The second demuxer state has the seek latch of the first one, and each of
its three queues holds the items it held in the first one, followed by packets
pushed since. -/
def Demuxer.Extends (d d2 : Demuxer) : Prop :=
  d2.m_seek = d.m_seek ∧
  QueueExtends d.m_videoThread.m_queue d2.m_videoThread.m_queue ∧
  QueueExtends d.m_audioThread.m_queue d2.m_audioThread.m_queue ∧
  QueueExtends d.m_subtitleThread.m_queue d2.m_subtitleThread.m_queue

/-! ## Runs of the demuxer loop against the audio worker -/

/-- One step of a run of the demuxer against its audio worker: a pass of the
demuxer loop, a `Pop` by the audio worker, or the `Flush()` the audio worker
makes when it leaves its loop. -/
inductive DemuxStep where
  | demux (env : DemuxEnv)
  | audioPop
  | audioFlush
deriving DecidableEq, Repr

/-- The state after one step of a run. A pass of the demuxer loop is made only
while the loop has not been left. -/
def DemuxStep.apply (s : Control × Demuxer) : DemuxStep → Control × Demuxer
  | DemuxStep.demux env =>
    if s.1 = Control.next then DemuxPackets.iteration env s.2 else s
  | DemuxStep.audioPop =>
    (s.1, { s.2 with
      m_audioThread := { s.2.m_audioThread with m_queue := s.2.m_audioThread.m_queue.Pop.2 } })
  | DemuxStep.audioFlush => (s.1, { s.2 with m_audioThread := s.2.m_audioThread.flush })

/-- The state after a run, first step first. -/
def runDemux (steps : List DemuxStep) (d : Demuxer) : Control × Demuxer :=
  steps.foldl DemuxStep.apply (Control.next, d)

/-- The inputs of the demuxer passes of a run. -/
def demuxEnvs : List DemuxStep → List DemuxEnv
  | [] => []
  | DemuxStep.demux env :: rest => env :: demuxEnvs rest
  | _ :: rest => demuxEnvs rest

/-- The audio queue the demuxer pushes to in a pass: the queue as the seek block
leaves it when the pass gets that far, the queue at the start of the pass
otherwise. -/
def audioQueueBeforePush (env : DemuxEnv) (d : Demuxer) : TorcPacketQueue :=
  if d.reachesSeek then (DemuxPackets.seekStep env.av_seek_frame d).m_audioThread.m_queue
  else d.m_audioThread.m_queue

/-- The backlog of a queue is within the bound `B` above `MAX_QUEUE_SIZE_AUDIO`:
the counters agree with the list, no queued packet has a negative size, and the
byte size is at most `MAX_QUEUE_SIZE_AUDIO + B`. -/
def TorcPacketQueue.Backlog (B : Int) (q : TorcPacketQueue) : Prop :=
  q.Consistent ∧ (∀ p ∈ q.m_queue, 0 ≤ p.deref.size) ∧ q.Size ≤ MAX_QUEUE_SIZE_AUDIO + B

/-! ## The video and subtitle workers (`audiodecoder.cpp`, lines 626-688 and
958-1017) -/

/-- The state the video worker works on: its thread, the interrupt flag and the
video PTS of `AudioDecoder`. The codec context is only passed to
`avcodec_flush_buffers` and is left out. -/
structure VideoWorker where
  thread : TorcDecoderThread
  m_interruptDecoder : Int
  m_videoPts : Int
deriving DecidableEq, Repr

/-- The state the subtitle worker works on: its thread and the interrupt flag
of `AudioDecoder`. -/
structure SubtitleWorker where
  thread : TorcDecoderThread
  m_interruptDecoder : Int
deriving DecidableEq, Repr

/-- The thread members after the actions of the other threads. -/
def Interference.applyThread (i : Interference) (t : TorcDecoderThread) : TorcDecoderThread :=
  { t with
    m_requestedState := match i.request with
      | some r => r
      | Option.none => t.m_requestedState
    m_queue := runOps (i.producer.map ProducerOp.toOp) t.m_queue }

/-- The interrupt flag after the actions of the other threads. -/
def Interference.applyInterrupt (i : Interference) (m_interruptDecoder : Int) : Int :=
  if i.interrupt then 1 else m_interruptDecoder

/-- The inputs of one pass of the main loop of the video or the subtitle worker:
what the other threads do before the loop condition is tested and while the
worker waits. -/
structure WorkerIterEnv where
  before : Interference
  atWait : Interference
deriving DecidableEq, Repr

/-- The two blocks `if (*nextstate == TorcDecoder::Running) { ... }` and
`if (*nextstate == TorcDecoder::Paused) { ... }`, on the thread members. -/
def TorcDecoderThread.applyRequest (t : TorcDecoderThread) : TorcDecoderThread :=
  let t : TorcDecoderThread :=
    if t.m_requestedState == DecoderState.Running then
      { t with m_requestedState := DecoderState.None, m_state := DecoderState.Running }
    else t
  if t.m_requestedState == DecoderState.Paused then
    { t with m_requestedState := DecoderState.None, m_state := DecoderState.Paused }
  else t

namespace DecodeVideoFrames

/-- The loop `while (*state == TorcDecoder::Running && queue->Length())` of the
video worker, with a bound on the number of passes: pop an item; on the flush
sentinel reset the video PTS, otherwise free the packet. The result is `fuel`
when the bound is used up while the loop condition still holds. -/
def drain : Nat → VideoWorker → Control × VideoWorker
  | 0, w =>
    if w.thread.m_state == DecoderState.Running && w.thread.m_queue.Length != 0 then
      (Control.fuel, w)
    else (Control.next, w)
  | fuel + 1, w =>
    if w.thread.m_state == DecoderState.Running && w.thread.m_queue.Length != 0 then
      match w.thread.m_queue.Pop with
      | (some PacketPtr.flushCodec, q) =>
        drain fuel { w with thread := { w.thread with m_queue := q }, m_videoPts := AV_NOPTS_VALUE }
      | (_, q) => drain fuel { w with thread := { w.thread with m_queue := q } }
    else (Control.next, w)

/-- One pass of the main loop of the video worker, the test of the loop
condition included. The bound of the inner loop is the number of queued items. -/
def iteration (env : WorkerIterEnv) (w0 : VideoWorker) : Control × VideoWorker :=
  let w : VideoWorker :=
    { w0 with
      thread := env.before.applyThread w0.thread
      m_interruptDecoder := env.before.applyInterrupt w0.m_interruptDecoder }
  if w.m_interruptDecoder != 0 || w.thread.m_requestedState == DecoderState.Stopped then
    (Control.exit, w)
  else
    let w : VideoWorker :=
      { w with
        thread := env.atWait.applyThread w.thread
        m_interruptDecoder := env.atWait.applyInterrupt w.m_interruptDecoder }
    if w.m_interruptDecoder != 0 || w.thread.m_requestedState == DecoderState.Stopped then
      (Control.exit, w)
    else
      let w : VideoWorker := { w with thread := w.thread.applyRequest }
      drain w.thread.m_queue.m_queue.length w

/-- The statements before the main loop: the video PTS is unknown and the state
is `Running`. -/
def start (w : VideoWorker) : VideoWorker :=
  { w with
    m_videoPts := AV_NOPTS_VALUE
    thread := { w.thread with m_state := DecoderState.Running } }

/-- The statements after the main loop: the state is `Stopped` and the queue is
flushed with `Flush()`, whose argument defaults to `true`. -/
def finish (w : VideoWorker) : VideoWorker :=
  { w with thread := { w.thread.flush with m_state := DecoderState.Stopped } }

/-- The main loop, one element of the input list per pass. -/
def mainLoop : List WorkerIterEnv → VideoWorker → Control × VideoWorker
  | [], w => (Control.fuel, w)
  | env :: envs, w =>
    match iteration env w with
    | (Control.next, w1) => mainLoop envs w1
    | (c, w1) => (c, w1)

end DecodeVideoFrames

/-- The method `AudioDecoder::DecodeVideoFrames` for a thread with a queue. -/
def DecodeVideoFrames (envs : List WorkerIterEnv) (w : VideoWorker) : Control × VideoWorker :=
  match DecodeVideoFrames.mainLoop envs (DecodeVideoFrames.start w) with
  | (Control.exit, w1) => (Control.exit, DecodeVideoFrames.finish w1)
  | (c, w1) => (c, w1)

namespace DecodeSubtitles

/-- The loop `while (*state == TorcDecoder::Running && queue->Length())` of the
subtitle worker, with a bound on the number of passes: pop an item and free it
unless it is the flush sentinel. -/
def drain : Nat → SubtitleWorker → Control × SubtitleWorker
  | 0, w =>
    if w.thread.m_state == DecoderState.Running && w.thread.m_queue.Length != 0 then
      (Control.fuel, w)
    else (Control.next, w)
  | fuel + 1, w =>
    if w.thread.m_state == DecoderState.Running && w.thread.m_queue.Length != 0 then
      drain fuel { w with thread := { w.thread with m_queue := w.thread.m_queue.Pop.2 } }
    else (Control.next, w)

/-- One pass of the main loop of the subtitle worker, the test of the loop
condition included. The bound of the inner loop is the number of queued items. -/
def iteration (env : WorkerIterEnv) (w0 : SubtitleWorker) : Control × SubtitleWorker :=
  let w : SubtitleWorker :=
    { thread := env.before.applyThread w0.thread
      m_interruptDecoder := env.before.applyInterrupt w0.m_interruptDecoder }
  if w.m_interruptDecoder != 0 || w.thread.m_requestedState == DecoderState.Stopped then
    (Control.exit, w)
  else
    let w : SubtitleWorker :=
      { thread := env.atWait.applyThread w.thread
        m_interruptDecoder := env.atWait.applyInterrupt w.m_interruptDecoder }
    if w.m_interruptDecoder != 0 || w.thread.m_requestedState == DecoderState.Stopped then
      (Control.exit, w)
    else
      let w : SubtitleWorker := { w with thread := w.thread.applyRequest }
      drain w.thread.m_queue.m_queue.length w

/-- The statement before the main loop: the state is `Running`. -/
def start (w : SubtitleWorker) : SubtitleWorker :=
  { w with thread := { w.thread with m_state := DecoderState.Running } }

/-- The statements after the main loop: the state is `Stopped` and the queue is
flushed with `Flush()`, whose argument defaults to `true`. -/
def finish (w : SubtitleWorker) : SubtitleWorker :=
  { w with thread := { w.thread.flush with m_state := DecoderState.Stopped } }

/-- The main loop, one element of the input list per pass. -/
def mainLoop : List WorkerIterEnv → SubtitleWorker → Control × SubtitleWorker
  | [], w => (Control.fuel, w)
  | env :: envs, w =>
    match iteration env w with
    | (Control.next, w1) => mainLoop envs w1
    | (c, w1) => (c, w1)

end DecodeSubtitles

/-- The method `AudioDecoder::DecodeSubtitles` for a thread with a queue. -/
def DecodeSubtitles (envs : List WorkerIterEnv) (w : SubtitleWorker) :
    Control × SubtitleWorker :=
  match DecodeSubtitles.mainLoop envs (DecodeSubtitles.start w) with
  | (Control.exit, w1) => (Control.exit, DecodeSubtitles.finish w1)
  | (c, w1) => (c, w1)

/-- The stop has been asked for: the interrupt flag is raised or `Stopped` is
the requested state. -/
def stopAsked (m_interruptDecoder : Int) (m_requestedState : DecoderState) : Bool :=
  m_interruptDecoder != 0 || m_requestedState == DecoderState.Stopped

/-- Sample inputs of a worker pass without any action of the other threads. -/
def quietPass : WorkerIterEnv :=
  { before := Interference.none, atWait := Interference.none }

/-- A sample video worker with two packets in its queue and `Stopped` requested. -/
def sampleVideoWorker : VideoWorker :=
  { thread := { sampleThread [samplePacket 10, samplePacket 20] with
                m_requestedState := DecoderState.Stopped }
    m_interruptDecoder := 0
    m_videoPts := 0 }

/-- A sample subtitle worker with one packet in its queue and the interrupt flag
raised. -/
def sampleSubtitleWorker : SubtitleWorker :=
  { thread := sampleThread [samplePacket 10]
    m_interruptDecoder := 1 }

/-- Sample inputs of one pass of the audio worker's loop in which the interrupt
flag has been raised before the loop condition is tested. -/
def sampleStopIter : AudioIterEnv :=
  { before := { interrupt := true, request := none, producer := [] }
    atWait := Interference.none
    GetFillStatus := 0
    HasAudioOut := true
    chunks := [] }

/-! ## Program and stream selection on the decoder (`audiodecoder.cpp`, lines
94-120 and 1029-1072) -/

/-- The values of libav's `AVDiscard` that the decoder meets. -/
inductive AVDiscard where
  | AVDISCARD_NONE
  | AVDISCARD_DEFAULT
  | AVDISCARD_ALL
deriving DecidableEq, Repr

/-- The fields of libav's `AVFormatContext` that program selection uses:
`nb_programs` and, in `discard`, the member `programs[i]->discard` of each
program. -/
structure AVFormatContext where
  nb_programs : Nat
  discard : List AVDiscard
deriving DecidableEq, Repr

/-- The data members of `TorcProgramData` other than the metadata map; the array
`m_streams` is given by one list per stream type. -/
structure TorcProgramData where
  m_id : Int
  m_index : Nat
  audio : List TorcStreamData
  video : List TorcStreamData
  subtitle : List TorcStreamData
  rawText : List TorcStreamData
  attachment : List TorcStreamData
  m_streamCount : Int
deriving DecidableEq, Repr

/-- The entry `m_streams[Type]` of a program. -/
def TorcProgramData.m_streams (p : TorcProgramData) : TorcStreamTypes → List TorcStreamData
  | TorcStreamTypes.StreamTypeAudio => p.audio
  | TorcStreamTypes.StreamTypeVideo => p.video
  | TorcStreamTypes.StreamTypeSubtitle => p.subtitle
  | TorcStreamTypes.StreamTypeRawText => p.rawText
  | TorcStreamTypes.StreamTypeAttachment => p.attachment
  | TorcStreamTypes.StreamTypeUnknown => []

/-- The array `m_currentStreams`, one entry per stream type. -/
structure CurrentStreams where
  audio : Int
  video : Int
  subtitle : Int
  rawText : Int
  attachment : Int
deriving DecidableEq, Repr

/-- The entry `m_currentStreams[Type]`. -/
def CurrentStreams.get (s : CurrentStreams) : TorcStreamTypes → Int
  | TorcStreamTypes.StreamTypeAudio => s.audio
  | TorcStreamTypes.StreamTypeVideo => s.video
  | TorcStreamTypes.StreamTypeSubtitle => s.subtitle
  | TorcStreamTypes.StreamTypeRawText => s.rawText
  | TorcStreamTypes.StreamTypeAttachment => s.attachment
  | TorcStreamTypes.StreamTypeUnknown => -1

/-- The array after `m_currentStreams[Type] = value`. -/
def CurrentStreams.set (s : CurrentStreams) (Typ : TorcStreamTypes) (value : Int) :
    CurrentStreams :=
  match Typ with
  | TorcStreamTypes.StreamTypeAudio => { s with audio := value }
  | TorcStreamTypes.StreamTypeVideo => { s with video := value }
  | TorcStreamTypes.StreamTypeSubtitle => { s with subtitle := value }
  | TorcStreamTypes.StreamTypeRawText => { s with rawText := value }
  | TorcStreamTypes.StreamTypeAttachment => { s with attachment := value }
  | TorcStreamTypes.StreamTypeUnknown => s

/-- The members of `AudioDecoder` that program and stream selection read or
write: the state of the demuxer thread, the format context (`none` for `NULL`),
the programs, the current program, the current streams and the decode flags. -/
structure AudioDecoder where
  demuxerState : DecoderState
  m_avFormatContext : Option AVFormatContext
  m_programs : List TorcProgramData
  m_currentProgram : Int
  m_currentStreams : CurrentStreams
  m_flags : Nat
deriving DecidableEq, Repr

namespace AudioDecoder

/-- The element `m_programs[m_currentProgram]`; `none` when the index is outside
the list, where the source reads out of bounds. -/
def currentProgram? (a : AudioDecoder) : Option TorcProgramData :=
  if 0 ≤ a.m_currentProgram then a.m_programs[a.m_currentProgram.toNat]? else none

/-- The method `AudioDecoder::SelectStream(Type)` on the decoder: the returned
`bool` and the decoder afterwards, or `none` when the current program does not
exist. -/
def SelectStream (c : HeaderConstants) (language : Nat) (a : AudioDecoder)
    (Typ : TorcStreamTypes) : Option (Bool × AudioDecoder) :=
  match a.currentProgram? with
  | some program =>
    let r := Torc.SelectStream c language a.m_flags (program.m_streams Typ)
      (a.m_currentStreams.get Typ) Typ
    some (r.1, { a with m_currentStreams := a.m_currentStreams.set Typ r.2 })
  | none => none

/-- The test `m_state == Opening || m_state == Paused` on the demuxer thread. -/
def selectable (a : AudioDecoder) : Bool :=
  a.demuxerState == DecoderState.Opening || a.demuxerState == DecoderState.Paused

/-- The method `AudioDecoder::SelectStreams()`: in state `Opening` or `Paused`
select the audio, video, subtitle and raw text stream in this order and return
`true`; in any other state return `false`. The result is `none` when the
current program does not exist. -/
def SelectStreams (c : HeaderConstants) (language : Nat) (a : AudioDecoder) :
    Option (Bool × AudioDecoder) :=
  if a.selectable then
    match a.SelectStream c language TorcStreamTypes.StreamTypeAudio with
    | some (_, a1) =>
      match a1.SelectStream c language TorcStreamTypes.StreamTypeVideo with
      | some (_, a2) =>
        match a2.SelectStream c language TorcStreamTypes.StreamTypeSubtitle with
        | some (_, a3) =>
          match a3.SelectStream c language TorcStreamTypes.StreamTypeRawText with
          | some (_, a4) => some (true, a4)
          | none => none
        | none => none
      | none => none
    | none => none
  else some (false, a)

/-- The method `AudioDecoder::SelectProgram(Index)`: the returned `bool` and the
decoder afterwards. -/
def SelectProgram (a : AudioDecoder) (Index : Int) : Bool × AudioDecoder :=
  if !a.selectable then (false, a)
  else
    match a.m_avFormatContext with
    | none => (false, a)
    | some context =>
      if Index ≥ a.m_programs.length || Index < 0 then (false, a)
      else if context.nb_programs == 0 then (true, { a with m_currentProgram := 0 })
      else
        match a.m_programs[Index.toNat]? with
        | some program =>
          let avindex : Nat :=
            if program.m_index ≥ context.nb_programs then 0 else program.m_index
          (true,
            { a with
              m_currentProgram := Index
              m_avFormatContext := some
                { context with
                  discard := (List.range context.nb_programs).map (fun i =>
                    if i == avindex then AVDiscard.AVDISCARD_NONE
                    else AVDiscard.AVDISCARD_ALL) } })
        | none => (false, a)

end AudioDecoder

/-- A sample program with the audio streams A and B and no other stream. -/
def sampleProgram : TorcProgramData :=
  { m_id := 1, m_index := 0, audio := [sampleStreamA, sampleStreamB], video := []
    subtitle := [], rawText := [], attachment := [], m_streamCount := 2 }

/-- A sample decoder in the given demuxer state with one program, which is the
current one, and nothing selected. -/
def sampleDecoder (state : DecoderState) : AudioDecoder :=
  { demuxerState := state
    m_avFormatContext := some { nb_programs := 1, discard := [AVDiscard.AVDISCARD_DEFAULT] }
    m_programs := [sampleProgram]
    m_currentProgram := 0
    m_currentStreams := { audio := -1, video := -1, subtitle := -1, rawText := -1
                          attachment := -1 }
    m_flags := 3 }

/-- The macro `DECODER_START_TIMEOUT`, in milliseconds. -/
def DECODER_START_TIMEOUT : Nat := 20000

/-- The macro `DECODER_STOP_TIMEOUT`, in milliseconds. -/
def DECODER_STOP_TIMEOUT : Nat := 3000

/-- The macro `DECODER_PAUSE_TIMEOUT`, in milliseconds. -/
def DECODER_PAUSE_TIMEOUT : Nat := 1000

/-- The states of `TorcPlayer::PlayerState`. -/
inductive PlayerState where
  | Errored
  | None
  | Opening
  | Paused
  | Starting
  | Playing
  | Searching
  | Pausing
  | Stopping
  | Stopped
deriving DecidableEq, Repr

/-- Modelled from the spec: the numeric order of the enumerators of
`TorcDecoder::DecoderState`, whose declaration (`torcdecoder.h`) is not among the
sources. The specification lists `None` and `Opening` first and the states of an
opened decoder after them; `Errored` is placed below `None` because
`OpenDemuxer` tests `*state > TorcDecoder::None` before it tests
`*state == TorcDecoder::Errored`. -/
def DecoderState.toInt : DecoderState → Int
  | DecoderState.Errored => -1
  | DecoderState.None => 0
  | DecoderState.Opening => 1
  | DecoderState.Paused => 2
  | DecoderState.Pausing => 3
  | DecoderState.Starting => 4
  | DecoderState.Running => 5
  | DecoderState.Stopping => 6
  | DecoderState.Stopped => 7

/-- A call the player makes on a decoder. -/
inductive DecoderCall where
  | Start
  | Pause
  | Stop
deriving DecidableEq, Repr

/-- A `TorcDecoder` object as the player sees it: an identity, the state that
`GetState()` reports (it is changed by the decoder's own thread, between the
player's calls), and the calls the player has made on it. -/
structure Decoder where
  id : Nat
  state : DecoderState
  calls : List DecoderCall
deriving DecidableEq, Repr

/-- The decoder after a call by the player. -/
def Decoder.call (d : Decoder) (c : DecoderCall) : Decoder :=
  { d with calls := d.calls ++ [c] }

/-- The messages the player sends to the user. -/
inductive UserMessage where
  | invalidFilename
  | playerBusy
  | failedToOpenDecoder
  | fatalDecodeError
deriving DecidableEq, Repr

/-- The data members of `TorcPlayer` that the state machine uses. A decoder
pointer is `none` for `NULL`; a timer member is `none` for 0 and otherwise holds
the timeout, in milliseconds, the timer was started with. `messages` records the
calls of `SendUserMessage`. The playback speed and the flags are left out. -/
structure TorcPlayer where
  m_uri : String
  m_state : PlayerState
  m_nextState : PlayerState
  m_pauseTimer : Option Nat
  m_playTimer : Option Nat
  m_stopTimer : Option Nat
  m_refreshTimer : Option Nat
  m_decoder : Option Decoder
  m_switching : Bool
  m_nextUri : String
  m_nextDecoder : Option Decoder
  m_nextDecoderPlay : Bool
  m_nextDecoderStartTimer : Option Nat
  m_oldDecoder : Option Decoder
  m_oldDecoderStopTimer : Option Nat
  messages : List UserMessage
deriving DecidableEq, Repr

namespace TorcPlayer

/-- The constructor `TorcPlayer(...)`. -/
def new : TorcPlayer :=
  { m_uri := "", m_state := PlayerState.None, m_nextState := PlayerState.None
    m_pauseTimer := none, m_playTimer := none, m_stopTimer := none, m_refreshTimer := none
    m_decoder := none, m_switching := false, m_nextUri := "", m_nextDecoder := none
    m_nextDecoderPlay := false, m_nextDecoderStartTimer := none, m_oldDecoder := none
    m_oldDecoderStopTimer := none, messages := [] }

/-- The method `SendUserMessage`. -/
def SendUserMessage (p : TorcPlayer) (m : UserMessage) : TorcPlayer :=
  { p with messages := p.messages ++ [m] }

/-- The method `SetState(NewState)`: set the state and kill the play, pause and
stop timers. -/
def SetState (p : TorcPlayer) (NewState : PlayerState) : TorcPlayer :=
  { p with m_state := NewState, m_playTimer := none, m_pauseTimer := none, m_stopTimer := none }

/-- The method `Play()`. -/
def Play (p : TorcPlayer) : Bool × TorcPlayer :=
  if p.m_state == PlayerState.Errored then (false, p)
  else (true, { p with m_nextDecoderPlay := false, m_nextState := PlayerState.Playing })

/-- The method `Stop()`. -/
def Stop (p : TorcPlayer) : Bool × TorcPlayer :=
  if p.m_state == PlayerState.Errored then (false, p)
  else (true, { p with m_nextState := PlayerState.Stopped })

/-- The method `Pause()`. -/
def Pause (p : TorcPlayer) : Bool × TorcPlayer :=
  if p.m_state == PlayerState.Errored then (false, p)
  else (true, { p with m_nextState := PlayerState.Paused })

/-- The method `Unpause()`. -/
def Unpause (p : TorcPlayer) : Bool × TorcPlayer :=
  if p.m_state == PlayerState.Errored then (false, p)
  else (true, { p with m_nextState := PlayerState.Playing })

/-- The method `TogglePause()`. -/
def TogglePause (p : TorcPlayer) : Bool × TorcPlayer :=
  if p.m_state == PlayerState.Errored then (false, p)
  else
    (true,
      { p with
        m_nextState :=
          if p.m_state == PlayerState.Paused || p.m_state == PlayerState.Pausing then
            PlayerState.Playing
          else PlayerState.Paused })

/-- The method `Teardown()`: kill the refresh, start and stop-old timers, set
the state `None`, delete the three decoders and reset the URIs, the pending
state and the switching flag. -/
def Teardown (p : TorcPlayer) : TorcPlayer :=
  let p : TorcPlayer :=
    { p with m_refreshTimer := none, m_nextDecoderStartTimer := none
             m_oldDecoderStopTimer := none }
  let p := p.SetState PlayerState.None
  { p with
    m_decoder := none, m_nextDecoder := none, m_oldDecoder := none
    m_uri := "", m_nextUri := "", m_nextState := PlayerState.None, m_switching := false }

/-- The method `Reset()`: tear down in state `Errored`, `None` or `Stopped`,
otherwise do nothing. -/
def Reset (p : TorcPlayer) : TorcPlayer :=
  if p.m_state == PlayerState.Errored || p.m_state == PlayerState.None ||
      p.m_state == PlayerState.Stopped then p.Teardown
  else p

/-- The method `DestroyNextDecoder()`. -/
def DestroyNextDecoder (p : TorcPlayer) : TorcPlayer :=
  let p := if p.m_switching then p.SendUserMessage UserMessage.failedToOpenDecoder else p
  let p : TorcPlayer :=
    { p with
      m_nextUri := "", m_nextDecoder := none, m_switching := false
      m_nextDecoderStartTimer := none }
  if p.m_decoder.isNone then p.SetState PlayerState.Errored else p

/-- The method `DestroyOldDecoder()`. -/
def DestroyOldDecoder (p : TorcPlayer) : TorcPlayer :=
  let p : TorcPlayer := { p with m_oldDecoder := none, m_oldDecoderStopTimer := none }
  if p.m_decoder.isSome && p.m_nextDecoderPlay then p.Play.2 else p

/-- What `PlayMedia` gets from outside the player: whether the call is made on
the player's thread, the decoder `TorcDecoder::Create` returns (`none` for
`NULL`), and the result of `Open()` on it. -/
structure PlayMediaEnv where
  sameThread : Bool
  Create : Option Decoder
  Open : Bool
deriving DecidableEq, Repr

/-- The method `PlayMedia(URI, StartPaused)`. A call from another thread is
turned into an event and returns `true` without touching the player. -/
def PlayMedia (env : PlayMediaEnv) (p : TorcPlayer) (URI : String) (StartPaused : Bool) :
    Bool × TorcPlayer :=
  if !env.sameThread then (true, p)
  else if URI == p.m_uri &&
      !(p.m_state == PlayerState.Stopped || p.m_state == PlayerState.Errored) then (false, p)
  else if URI.isEmpty then (false, p.SendUserMessage UserMessage.invalidFilename)
  else if p.m_switching then (false, p.SendUserMessage UserMessage.playerBusy)
  else
    let p := if p.m_decoder.isNone then p.SetState PlayerState.Opening else p
    let p : TorcPlayer :=
      { p with m_nextDecoderPlay := !StartPaused, m_nextUri := URI, m_nextDecoder := env.Create }
    match p.m_nextDecoder with
    | none => (false, { p.SendUserMessage UserMessage.failedToOpenDecoder with m_nextUri := "" })
    | some _ =>
      if !env.Open then
        (false,
          { p.SendUserMessage UserMessage.failedToOpenDecoder with
            m_nextUri := "", m_nextDecoder := none })
      else
        (true, { p with m_nextDecoderStartTimer := some DECODER_START_TIMEOUT
                        m_switching := true })

end TorcPlayer

namespace TorcPlayer

/-- First step of `Refresh`: destroy the old decoder once it reports
`Stopped`. -/
def Refresh.destroyOld (p : TorcPlayer) : TorcPlayer :=
  match p.m_oldDecoder with
  | some old => if old.state == DecoderState.Stopped then p.DestroyOldDecoder else p
  | none => p

/-- The swap inside `Refresh` up to and including `SetState(Paused)`: the
current decoder becomes the old one (it is sent `Stop` and its stop timer is
started, if it exists) and the next decoder becomes the current one. -/
def Refresh.swapToPaused (p : TorcPlayer) (next : Decoder) : TorcPlayer :=
  let p : TorcPlayer := { p with m_oldDecoder := p.m_decoder }
  let p : TorcPlayer :=
    match p.m_oldDecoder with
    | some old =>
      { p with m_oldDecoderStopTimer := some DECODER_STOP_TIMEOUT
               m_oldDecoder := some (old.call DecoderCall.Stop) }
    | none => p
  let p : TorcPlayer :=
    { p with
      m_decoder := some next, m_uri := p.m_nextUri, m_nextUri := "", m_nextDecoder := none
      m_switching := false, m_nextDecoderStartTimer := none }
  p.SetState PlayerState.Paused

/-- The swap inside `Refresh`: `Refresh.swapToPaused`, then `Play()` when
play-on-switch is set and no old decoder is left. -/
def Refresh.swap (p : TorcPlayer) (next : Decoder) : TorcPlayer :=
  let p := Refresh.swapToPaused p next
  if p.m_nextDecoderPlay && p.m_oldDecoder.isNone then p.Play.2 else p

/-- Second step of `Refresh`: check the next decoder. It is destroyed when it
reports `Errored` or `Stopped`; it is swapped in when it reports a state above
`Opening` and there is no old decoder. -/
def Refresh.checkNext (p : TorcPlayer) : TorcPlayer :=
  match p.m_nextDecoder with
  | some next =>
    if next.state == DecoderState.Errored || next.state == DecoderState.Stopped then
      p.DestroyNextDecoder
    else if decide (next.state.toInt > DecoderState.Opening.toInt) && p.m_oldDecoder.isNone then
      Refresh.swap p next
    else p
  | none => p

/-- The step `update state` of `Refresh`: turn the pending state into a
transitional state and start its timer. The first component is `false` when
`Refresh` returns `false` here (a start is asked for while an old decoder is
still there). -/
def Refresh.updateState (p : TorcPlayer) : Bool × TorcPlayer :=
  if p.m_nextState != PlayerState.None then
    if p.m_nextState != p.m_state then
      if p.m_nextState == PlayerState.Paused then
        (true, { p.SetState PlayerState.Pausing with
                 m_pauseTimer := some DECODER_PAUSE_TIMEOUT, m_nextState := PlayerState.None })
      else if p.m_nextState == PlayerState.Playing then
        if p.m_oldDecoder.isSome then (false, p)
        else
          (true, { p.SetState PlayerState.Starting with
                   m_playTimer := some DECODER_PAUSE_TIMEOUT, m_nextState := PlayerState.None })
      else if p.m_nextState == PlayerState.Stopped then
        (true, { p.SetState PlayerState.Stopping with
                 m_stopTimer := some DECODER_STOP_TIMEOUT, m_nextState := PlayerState.None })
      else (true, { p with m_nextState := PlayerState.None })
    else (true, { p with m_nextState := PlayerState.None })
  else (true, p)

/-- One of the three last blocks of `Refresh`: in the transitional state
`transitional`, set the player to `done` when the decoder reports `reached`, and
otherwise make `call` on the decoder unless it reports `underway`. The result is
`none` when the block dereferences a `NULL` decoder. -/
def Refresh.follow (p : TorcPlayer) (transitional done : PlayerState)
    (reached underway : DecoderState) (call : DecoderCall) : Option TorcPlayer :=
  if p.m_state == transitional then
    match p.m_decoder with
    | none => none
    | some d =>
      if d.state == reached then some (p.SetState done)
      else if d.state != underway then some { p with m_decoder := some (d.call call) }
      else some p
  else some p

/-- The three last blocks of `Refresh`, for `Pausing`, `Starting` and
`Stopping`. -/
def Refresh.drive (p : TorcPlayer) : Option TorcPlayer :=
  (Refresh.follow p PlayerState.Pausing PlayerState.Paused DecoderState.Paused
      DecoderState.Pausing DecoderCall.Pause).bind fun p =>
  (Refresh.follow p PlayerState.Starting PlayerState.Playing DecoderState.Running
      DecoderState.Starting DecoderCall.Start).bind fun p =>
  Refresh.follow p PlayerState.Stopping PlayerState.Stopped DecoderState.Stopped
      DecoderState.Stopping DecoderCall.Stop

/-- The part of `Refresh` from `update state` on: the pending state is taken
up, then the three blocks for the transitional states run. The first component
is the value returned, `none` when a `NULL` decoder is dereferenced. -/
def Refresh.transitions (p : TorcPlayer) : Option Bool × TorcPlayer :=
  let r := Refresh.updateState p
  if !r.1 then (some false, r.2)
  else
    match Refresh.drive r.2 with
    | none => (none, r.2)
    | some p => (some true, p)

/-- The part of `Refresh` after the decoders have been checked. The first
component is the value returned, `none` when a `NULL` decoder is dereferenced. -/
def Refresh.rest (p : TorcPlayer) : Option Bool × TorcPlayer :=
  if (p.m_state == PlayerState.Stopped || p.m_state == PlayerState.Errored) &&
      p.m_nextState == PlayerState.None then (some false, p)
  else
    match p.m_decoder with
    | none =>
      if p.m_state == PlayerState.None || p.m_state == PlayerState.Opening then (some false, p)
      else (some false, p.SetState PlayerState.Errored)
    | some decoder =>
      if decoder.state == DecoderState.Errored then
        (some false, (p.SendUserMessage UserMessage.fatalDecodeError).SetState PlayerState.Errored)
      else if decoder.state == DecoderState.Stopped then
        Refresh.transitions { p.SetState PlayerState.Stopped with m_decoder := none }
      else Refresh.transitions p

/-- The method `TorcPlayer::Refresh`. -/
def Refresh (p : TorcPlayer) : Option Bool × TorcPlayer :=
  Refresh.rest (Refresh.checkNext (Refresh.destroyOld p))

end TorcPlayer

/-- Which timer member a timer event's id equals. A member that is 0 (not
running) equals no event's id. -/
inductive TimerId where
  | refresh
  | nextDecoderStart
  | oldDecoderStop
  | pause
  | play
  | stop
  | other
deriving DecidableEq, Repr

/-- The events `TorcPlayer::HandleEvent` distinguishes. -/
inductive PlayerEvent where
  | timer (id : TimerId)
  | other
deriving DecidableEq, Repr

/-- The method `TorcPlayer::HandleEvent`. The first component is the value
returned, `none` when the refresh it runs dereferences a `NULL` decoder. -/
def TorcPlayer.HandleEvent (p : TorcPlayer) (Event : PlayerEvent) : Option Bool × TorcPlayer :=
  match Event with
  | PlayerEvent.timer id =>
    if id == TimerId.refresh && p.m_refreshTimer.isSome then
      match p.Refresh with
      | (none, p) => (none, p)
      | (some _, p) => (some true, p)
    else if id == TimerId.nextDecoderStart && p.m_nextDecoderStartTimer.isSome then
      (some true, p.DestroyNextDecoder)
    else if id == TimerId.oldDecoderStop && p.m_oldDecoderStopTimer.isSome then
      (some true, p.DestroyOldDecoder)
    else if id == TimerId.pause && p.m_pauseTimer.isSome then (some true, p)
    else if id == TimerId.play && p.m_playTimer.isSome then (some true, p)
    else if id == TimerId.stop && p.m_stopTimer.isSome then (some true, p)
    else (some false, p)
  | PlayerEvent.other => (some false, p)

/-- The actions `TorcPlayerInterface::HandlePlayerEvent` distinguishes; `None`
stands for every other event. -/
inductive Action where
  | None
  | Play
  | Pause
  | Stop
  | Unpause
  | TogglePlayPause
deriving DecidableEq, Repr

/-- The members of `TorcPlayerInterface` used by the player commands. -/
structure TorcPlayerInterface where
  m_uri : String
  m_player : Option TorcPlayer
deriving DecidableEq, Repr

/-- The method `TorcPlayerInterface::PlayMedia(Paused)`. -/
def TorcPlayerInterface.PlayMedia (env : TorcPlayer.PlayMediaEnv) (i : TorcPlayerInterface)
    (Paused : Bool) : Bool × TorcPlayerInterface :=
  match i.m_player with
  | none => (false, i)
  | some p =>
    let r := p.PlayMedia env i.m_uri Paused
    (r.1, { i with m_player := some r.2 })

/-- The method `TorcPlayerInterface::HandlePlayerEvent` for a non-NULL event
carrying `action`. `decoderHandles` is the result of the current decoder's
`HandleEvent`, consulted by `HandleDecoderEvent` when a current decoder exists. -/
def TorcPlayerInterface.HandlePlayerEvent (env : TorcPlayer.PlayMediaEnv) (decoderHandles : Bool)
    (i : TorcPlayerInterface) (action : Action) : Bool × TorcPlayerInterface :=
  match i.m_player with
  | none => (false, i)
  | some p =>
    let state := p.m_state
    if action == Action.Play && (state == PlayerState.Stopped || p.m_state == PlayerState.None) then
      let i1 : TorcPlayerInterface := { i with m_player := some p.Reset }
      (true, (i1.PlayMedia env false).2)
    else if state == PlayerState.Errored then (false, i)
    else if p.m_decoder.isSome && decoderHandles then (true, i)
    else
      match action with
      | Action.Play => (true, { i with m_player := some p.Play.2 })
      | Action.Pause =>
        if !(state == PlayerState.Paused || state == PlayerState.Pausing ||
            state == PlayerState.Opening) then
          (p.Pause.1, { i with m_player := some p.Pause.2 })
        else (false, i)
      | Action.Stop => (true, { i with m_player := some p.Stop.2 })
      | Action.Unpause => (true, { i with m_player := some p.Unpause.2 })
      | Action.TogglePlayPause => (true, { i with m_player := some p.TogglePause.2 })
      | Action.None => (false, i)

/-- A decoder with identity `id` reporting `state`, with no calls made yet. -/
def sampleEngine (id : Nat) (state : DecoderState) : Decoder :=
  { id := id, state := state, calls := [] }

/-- A player in `state` with current decoder `cur`, next decoder `next` and old
decoder `old`, switching to `b.mkv` from `a.mkv`. -/
def samplePlayer (state : PlayerState) (cur next old : Option Decoder) : TorcPlayer :=
  { TorcPlayer.new with
    m_uri := "a.mkv", m_state := state, m_decoder := cur, m_nextDecoder := next
    m_oldDecoder := old, m_nextUri := "b.mkv", m_switching := next.isSome
    m_nextDecoderStartTimer := if next.isSome then some DECODER_START_TIMEOUT else none
    m_oldDecoderStopTimer := if old.isSome then some DECODER_STOP_TIMEOUT else none
    m_refreshTimer := some 16 }

/-- The five playback commands of `TorcPlayer`. -/
inductive Command where
  | Play
  | Pause
  | Unpause
  | TogglePause
  | Stop
deriving DecidableEq, Repr

/-- Invoke a playback command: the method of the same name. -/
def TorcPlayer.invoke (p : TorcPlayer) : Command → Bool × TorcPlayer
  | Command.Play => p.Play
  | Command.Pause => p.Pause
  | Command.Unpause => p.Unpause
  | Command.TogglePause => p.TogglePause
  | Command.Stop => p.Stop

/-- The action `HandlePlayerEvent` receives for a command. -/
def Command.toAction : Command → Action
  | Command.Play => Action.Play
  | Command.Pause => Action.Pause
  | Command.Unpause => Action.Unpause
  | Command.TogglePause => Action.TogglePlayPause
  | Command.Stop => Action.Stop

/-- An environment in which `TorcDecoder::Create` returns decoder 9 and `Open`
succeeds, called on the player's thread. -/
def samplePlayMediaEnv : TorcPlayer.PlayMediaEnv :=
  { sameThread := true, Create := some (sampleEngine 9 DecoderState.None), Open := true }

/-- The members of the player that the last part of `Refresh` never writes: the
next and old decoder slots, their timers, the switching flag and the URIs. -/
def TorcPlayer.SameSlots (p q : TorcPlayer) : Prop :=
  q.m_nextDecoder = p.m_nextDecoder ∧ q.m_switching = p.m_switching ∧ q.m_uri = p.m_uri ∧
  q.m_nextUri = p.m_nextUri ∧ q.m_oldDecoder = p.m_oldDecoder ∧
  q.m_oldDecoderStopTimer = p.m_oldDecoderStopTimer ∧
  q.m_nextDecoderStartTimer = p.m_nextDecoderStartTimer

/-- The identity of the current decoder, if there is one. -/
def TorcPlayer.currentId (p : TorcPlayer) : Option Nat :=
  p.m_decoder.map Decoder.id

/-! ## The scene-graph video player (`torcsgvideoplayer.cpp`) -/

/-- The members of `VideoFrame` that the refresh uses: the frame number and the
presentation time, in milliseconds. -/
structure VideoFrame where
  m_frameNumber : Nat
  m_pts : Int
deriving DecidableEq, Repr

/-- Modelled from the spec: the frame pool `VideoBuffers` (`videobuffers.h` is
not among the sources). Every frame is in one of the four states free, decoding,
decoded and displaying; the decoded frames are kept oldest first. -/
structure VideoBuffers where
  free : List VideoFrame
  decoding : List VideoFrame
  decoded : List VideoFrame
  displaying : List VideoFrame
deriving DecidableEq, Repr

/-- Modelled from the spec: `GetNextVideoTimeStamp` gives the presentation time
of the oldest decoded frame without removing it. With no decoded frame the
caller's variable keeps the value it had. -/
def VideoBuffers.GetNextVideoTimeStamp (b : VideoBuffers) (videotime : Int) : Int :=
  match b.decoded with
  | [] => videotime
  | f :: _ => f.m_pts

/-- Modelled from the spec: `GetFrameForDisplaying` moves the oldest decoded
frame to the displaying state and returns it, or returns `NULL` when no frame is
decoded. -/
def VideoBuffers.GetFrameForDisplaying (b : VideoBuffers) : Option VideoFrame × VideoBuffers :=
  match b.decoded with
  | [] => (none, b)
  | f :: rest => (some f, { b with decoded := rest, displaying := b.displaying ++ [f] })

/-- Modelled from the spec: `ReleaseFrameFromDisplaying` moves a displaying
frame back to the free state. -/
def VideoBuffers.ReleaseFrameFromDisplaying (b : VideoBuffers) (f : VideoFrame) : VideoBuffers :=
  { b with displaying := b.displaying.erase f, free := b.free ++ [f] }

/-- The members of `TorcSGVideoPlayer` that the refresh uses. `base` is the
`TorcPlayer` part; `m_audioWrapper` and `m_videoProvider` tell whether the
pointer is non-NULL; `rendered` records the calls of
`m_videoProvider->Refresh(frame, Size, TimeNow)` with their frame and time. -/
structure TorcSGVideoPlayer where
  base : TorcPlayer
  m_audioWrapper : Bool
  m_buffers : VideoBuffers
  m_videoProvider : Bool
  m_currentFrame : Option VideoFrame
  m_manualAVSyncAdjustment : Int
  rendered : List (VideoFrame × Nat)
deriving DecidableEq, Repr

/-- What one refresh tick gets from outside the player: the time `TimeNow` in
microseconds, the results of `GetCurrentStream` for video and audio on the
current decoder, the audio time `GetAudioTime` returns in milliseconds, and the
time of the last audio update, in microseconds, that it stores in its argument. -/
structure SGRefreshEnv where
  TimeNow : Nat
  videoStream : Int
  audioStream : Int
  audioTime : Int
  lastAudioUpdate : Nat
deriving DecidableEq, Repr

namespace TorcSGVideoPlayer

/-- The start of `Refresh`: release the frame shown last and clear
`m_currentFrame`. -/
def Refresh.releaseCurrent (s : TorcSGVideoPlayer) : TorcSGVideoPlayer :=
  match s.m_currentFrame with
  | some f =>
    { s with m_buffers := s.m_buffers.ReleaseFrameFromDisplaying f, m_currentFrame := none }
  | none => { s with m_currentFrame := none }

/-- The local `audiotime` of `Refresh` once it has been brought up to date:
`AV_NOPTS_VALUE` without an audio wrapper or an audio stream; otherwise the time
`GetAudioTime` returns, to which, when it is not `AV_NOPTS_VALUE`, the time since
the last audio update (taken as 0 unless that update lies before `TimeNow`) and
the manual adjustment are added. The times are integers without 64-bit
wrap-around. -/
def Refresh.audioTime (env : SGRefreshEnv) (s : TorcSGVideoPlayer) (hasaudiostream : Bool) : Int :=
  if s.m_audioWrapper && hasaudiostream then
    let audiotime := env.audioTime
    if audiotime != AV_NOPTS_VALUE then
      let lastaudioupdate : Nat :=
        if env.lastAudioUpdate < env.TimeNow then env.TimeNow - env.lastAudioUpdate else 0
      audiotime + ((lastaudioupdate / 1000 : Nat) : Int) + s.m_manualAVSyncAdjustment
    else audiotime
  else AV_NOPTS_VALUE

/-- The value of `qint64 drift = audiotime - videotime`: the difference of the
two 64-bit times held in a `qint64`, that is reduced modulo `2^64` into the
range from `-2^63` to `2^63 - 1` (the subtraction wraps in two's complement).
A frame whose `m_pts` is `AV_NOPTS_VALUE` gives a negative drift for every audio
time from 0 on that a `qint64` holds. -/
def Refresh.drift (audiotime videotime : Int) : Int :=
  (audiotime - videotime + 2 ^ 63) % 2 ^ 64 - 2 ^ 63

/-- The loop `while (drift > 50)` of `Refresh`, entered with the frame just
taken: a frame whose drift exceeds 50 ms is released and the next decoded frame
is taken, until the drift of a frame is at most 50 ms or no frame is left. The
first argument bounds the number of passes; the result is `none` when it is
used up. -/
def Refresh.catchUp (audiotime : Int) :
    Nat → VideoBuffers → VideoFrame → Option (Option VideoFrame × VideoBuffers)
  | 0, _, _ => none
  | fuel + 1, b, frame =>
    if Refresh.drift audiotime frame.m_pts > 50 then
      let r := (b.ReleaseFrameFromDisplaying frame).GetFrameForDisplaying
      match r.1 with
      | some f => Refresh.catchUp audiotime fuel r.2 f
      | none => some (none, r.2)
    else some (some frame, b)

/-- The part of `Refresh` that decides whether to wait and otherwise takes the
frame to show. -/
def Refresh.select (audiotime : Int) (hasaudiostream : Bool) (s : TorcSGVideoPlayer) :
    Option TorcSGVideoPlayer :=
  let videotime := s.m_buffers.GetNextVideoTimeStamp AV_NOPTS_VALUE
  let validaudio := audiotime != AV_NOPTS_VALUE
  let validvideo := videotime != AV_NOPTS_VALUE
  if hasaudiostream && validaudio && validvideo && decide (videotime - audiotime > 50) then some s
  else if hasaudiostream && !validaudio then some s
  else if hasaudiostream && !validvideo then some s
  else
    let r := s.m_buffers.GetFrameForDisplaying
    match r.1 with
    | some frame =>
      if hasaudiostream then
        (Refresh.catchUp audiotime (r.2.decoded.length + 1) r.2 frame).map fun x =>
          { s with m_currentFrame := x.1, m_buffers := x.2 }
      else some { s with m_currentFrame := some frame, m_buffers := r.2 }
    | none => some { s with m_currentFrame := none, m_buffers := r.2 }

/-- The part of `Refresh` that hands the current frame to the video provider,
in the states in which video is shown. -/
def Refresh.render (env : SGRefreshEnv) (s : TorcSGVideoPlayer) : TorcSGVideoPlayer :=
  match s.m_currentFrame with
  | some frame =>
    if s.m_videoProvider then
      if s.base.m_state == PlayerState.Paused || s.base.m_state == PlayerState.Starting ||
          s.base.m_state == PlayerState.Playing || s.base.m_state == PlayerState.Searching ||
          s.base.m_state == PlayerState.Pausing || s.base.m_state == PlayerState.Stopping then
        { s with rendered := s.rendered ++ [(frame, env.TimeNow)] }
      else s
    else s
  | none => s

/-- The video part of `Refresh`, before `TorcPlayer::Refresh` is called. The
result is `none` when the bound on the catch-up loop is used up. -/
def Refresh.video (env : SGRefreshEnv) (s : TorcSGVideoPlayer) : Option TorcSGVideoPlayer :=
  let s := Refresh.releaseCurrent s
  if s.base.m_decoder.isSome && env.videoStream != -1 then
    let hasaudiostream := env.audioStream != -1
    (Refresh.select (Refresh.audioTime env s hasaudiostream) hasaudiostream s).map
      (Refresh.render env)
  else some s

/-- The method `TorcSGVideoPlayer::Refresh`. The outer result is `none` when
the bound on the catch-up loop is used up; the value returned is `none` when
`TorcPlayer::Refresh` dereferences a `NULL` decoder. -/
def Refresh (env : SGRefreshEnv) (s : TorcSGVideoPlayer) :
    Option (Option Bool × TorcSGVideoPlayer) :=
  (Refresh.video env s).map fun s =>
    let r := s.base.Refresh
    (r.1.map fun ok => ok && s.m_currentFrame.isSome, { s with base := r.2 })

end TorcSGVideoPlayer

/-- The master clock as the specification gives it: the audio time plus the
time since the last audio update, in milliseconds, plus the manual offset. -/
def specMasterClock (audio_pts_ms : Int) (time_now_us last_audio_update_us : Nat)
    (manual_av_sync_offset_ms : Int) : Int :=
  audio_pts_ms + ((time_now_us : Int) - (last_audio_update_us : Int)) / 1000 +
    manual_av_sync_offset_ms

/-- An empty pool holding the decoded frames `decoded`, oldest first. -/
def samplePool (decoded : List VideoFrame) : VideoBuffers :=
  { free := [], decoding := [], decoded := decoded, displaying := [] }

/-- A playing video player with decoder 1, an audio wrapper, a video provider,
no manual adjustment and the decoded frames `decoded`. -/
def sampleSGPlayer (decoded : List VideoFrame) : TorcSGVideoPlayer :=
  { base := samplePlayer PlayerState.Playing (some (sampleEngine 1 DecoderState.Running)) none none
    m_audioWrapper := true
    m_buffers := samplePool decoded
    m_videoProvider := true
    m_currentFrame := none
    m_manualAVSyncAdjustment := 0
    rendered := [] }

/-- A tick at `TimeNow` = 2000000 with video stream 0, audio stream 1, and the
audio time `audioTime` last updated at 2000000. -/
def sampleTick (audioTime : Int) : SGRefreshEnv :=
  { TimeNow := 2000000, videoStream := 0, audioStream := 1, audioTime := audioTime
    lastAudioUpdate := 2000000 }

/-- A sequence of calls of `GetValidTimestamp`, one `(PTS, DTS)` pair per call:
the values returned, in call order, and the tracker after the last call. -/
def GetValidTimestamps : List (Int × Int) → PTSTracker → List Int × PTSTracker
  | [], t => ([], t)
  | c :: rest, t =>
    ((GetValidTimestamp t c.1 c.2).1 :: (GetValidTimestamps rest (GetValidTimestamp t c.1 c.2).2).1,
      (GetValidTimestamps rest (GetValidTimestamp t c.1 c.2).2).2)

/-- A sample demuxer that has reached the end of the file and has not yet sent
the empty packets: state `Running`, empty queues, no packet allocated, and the
given video and audio stream selected. -/
def sampleEofDemuxer (videoStream audioStream : Int) : Demuxer :=
  { sampleDemuxer DecoderState.Running with
    m_videoThread := sampleThread []
    m_audioThread := sampleThread []
    m_seek := false
    videoStream := videoStream
    audioStream := audioStream
    eof := true }

/-- Sample inputs of a pass of the demuxer loop in which the audio codec has
`CODEC_CAP_DELAY`. -/
def sampleEofEnv : DemuxEnv :=
  { sampleDemuxEnv with audioCodecDelay := true }

/-- Sample inputs of one chunk for a sink that takes the stream as it is: the
sink asks for passthrough and needs no decoding, and a decoding attempt consumes
the bytes without producing a frame or a channel count. -/
def samplePassthroughChunk : ChunkEnv :=
  { ShouldPassthrough := true
    DecoderWillDownmix := false
    GetMaxChannels := 2
    NeedDecodingBeforePassthrough := false
    decode := { result := 1000, gotframe := false, bufferSize := 0, channels := 0
                sample_rate := 48000, sample_fmt := 1 }
    reselectSetup := { sampleAudioOut with m_passthrough := true }
    changedSetup := { sampleAudioOut with m_passthrough := true } }

/-- The loop variables at the top of the first pass over a packet of 1000 bytes,
for a passthrough sink and a codec context with the given channel count. -/
def samplePassthroughState (channels : Int) : ChunkState :=
  { w := { sampleWorker [] with m_audioOut := { sampleAudioOut with m_passthrough := true } }
    context := { sampleContext with channels := channels }
    tempSize := 1000
    reselectaudiotrack := false
    used := 0
    datasize := 0
    decodedsize := -1
    decoded := false }

/-! ## Stream scanning (`audiodecoder.cpp`, lines 64-91 and 1849-1919) -/

/-- libav's `AV_DISPOSITION_ATTACHED_PIC`. -/
def AV_DISPOSITION_ATTACHED_PIC : Nat := 0x0400

/-- libav's `AV_CODEC_ID_TEXT`. -/
def AV_CODEC_ID_TEXT : Int := 0x17002

/-- libav's `AV_CODEC_ID_SRT`. -/
def AV_CODEC_ID_SRT : Int := 0x17008

/-- libav's `AVMediaType`. -/
inductive AVMediaType where
  | AVMEDIA_TYPE_UNKNOWN
  | AVMEDIA_TYPE_VIDEO
  | AVMEDIA_TYPE_AUDIO
  | AVMEDIA_TYPE_DATA
  | AVMEDIA_TYPE_SUBTITLE
  | AVMEDIA_TYPE_ATTACHMENT
  | AVMEDIA_TYPE_NB
deriving DecidableEq, Repr

/-- The fields of libav's `AVStream` that `ScanStream` reads: the id, the
disposition bits, and the type, id and channel count of the stream's codec.
`language` is the value `TorcLanguage::From3CharCode` gives for the metadata
entry `language`, when the stream has that entry. -/
structure AVStream where
  id : Int
  disposition : Nat
  codec_type : AVMediaType
  codec_id : Int
  channels : Int
  language : Option Nat
deriving DecidableEq, Repr

/-- The constructor `TorcStreamData()`. -/
def TorcStreamData.new (c : HeaderConstants) : TorcStreamData :=
  { m_type := TorcStreamTypes.StreamTypeUnknown
    m_index := -1
    m_id := -1
    m_secondaryIndex := -1
    m_avDisposition := AV_DISPOSITION_DEFAULT
    m_language := c.DEFAULT_QT_LANGUAGE
    m_originalChannels := 0 }

/-- The conversion of a `uint` to `int` in the assignment `m_index = Index`:
the value modulo 2^32, read as a two's complement number. -/
def uintToInt (n : Nat) : Int :=
  if n % 2 ^ 32 < 2 ^ 31 then ((n % 2 ^ 32 : Nat) : Int) else ((n % 2 ^ 32 : Nat) : Int) - 2 ^ 32

/-- The block `Types...` of `ScanStream`: the stream with its type set, and for
an audio stream its original channel count. -/
def ScanStream.classify (avstream : AVStream) (stream : TorcStreamData) : TorcStreamData :=
  if (avstream.disposition &&& AV_DISPOSITION_ATTACHED_PIC) != 0 then
    { stream with m_type := TorcStreamTypes.StreamTypeAttachment }
  else
    match avstream.codec_type with
    | AVMediaType.AVMEDIA_TYPE_VIDEO => { stream with m_type := TorcStreamTypes.StreamTypeVideo }
    | AVMediaType.AVMEDIA_TYPE_AUDIO =>
      { stream with
        m_type := TorcStreamTypes.StreamTypeAudio
        m_originalChannels := avstream.channels }
    | AVMediaType.AVMEDIA_TYPE_SUBTITLE =>
      if avstream.codec_id == AV_CODEC_ID_TEXT || avstream.codec_id == AV_CODEC_ID_SRT then
        { stream with m_type := TorcStreamTypes.StreamTypeRawText }
      else { stream with m_type := TorcStreamTypes.StreamTypeSubtitle }
    | AVMediaType.AVMEDIA_TYPE_ATTACHMENT =>
      { stream with m_type := TorcStreamTypes.StreamTypeAttachment }
    | AVMediaType.AVMEDIA_TYPE_DATA => { stream with m_type := TorcStreamTypes.StreamTypeUnknown }
    | _ => { stream with m_type := TorcStreamTypes.StreamTypeUnknown }

/-- The method `AudioDecoder::ScanStream(Index)`. `streams` is `none` when
`m_avFormatContext` is `NULL` and otherwise the streams of the container, whose
number is `nb_streams`. The result is `none` for `NULL`. -/
def ScanStream (c : HeaderConstants) (streams : Option (List AVStream)) (Index : Nat) :
    Option TorcStreamData :=
  match streams with
  | none => none
  | some l =>
    if Index ≥ l.length then none
    else
      match l[Index]? with
      | none => none
      | some avstream =>
        let stream : TorcStreamData :=
          { TorcStreamData.new c with
            m_index := uintToInt Index
            m_id := avstream.id
            m_avDisposition := avstream.disposition }
        let stream : TorcStreamData :=
          match avstream.language with
          | some language => { stream with m_language := language }
          | none => stream
        let stream := ScanStream.classify avstream stream
        if !stream.IsValid then none else some stream

/-- A sample container: a video stream, an audio stream with six channels, an
SRT subtitle stream, a picture attached as a video stream, and a data stream. -/
def sampleStreams : List AVStream :=
  [{ id := 0, disposition := 0, codec_type := AVMediaType.AVMEDIA_TYPE_VIDEO, codec_id := 28
     channels := 0, language := none },
   { id := 1, disposition := 1, codec_type := AVMediaType.AVMEDIA_TYPE_AUDIO, codec_id := 0x15003
     channels := 6, language := some 31 },
   { id := 2, disposition := 0, codec_type := AVMediaType.AVMEDIA_TYPE_SUBTITLE
     codec_id := 0x17008, channels := 0, language := some 31 },
   { id := 3, disposition := 0x0400, codec_type := AVMediaType.AVMEDIA_TYPE_VIDEO, codec_id := 8
     channels := 0, language := none },
   { id := 4, disposition := 0, codec_type := AVMediaType.AVMEDIA_TYPE_DATA, codec_id := 0
     channels := 0, language := none }]

/-- What can happen to a player after its construction: a call of `PlayMedia`
with what it gets from outside, a refresh, the event of the start timer, a call
of `DestroyNextDecoder` or `Teardown`, a playback command, and a change of the
states the current, next and old decoder report, made by their own threads. -/
inductive PlayerOp where
  | PlayMedia (env : TorcPlayer.PlayMediaEnv) (URI : String) (StartPaused : Bool)
  | Refresh
  | startTimer
  | DestroyNextDecoder
  | Teardown
  | command (c : Command)
  | decoders (current next old : DecoderState)
deriving DecidableEq, Repr

/-- The player after one step, `none` when the step dereferences a `NULL`
decoder. -/
def PlayerOp.apply (p : TorcPlayer) : PlayerOp → Option TorcPlayer
  | PlayerOp.PlayMedia env URI StartPaused => some (p.PlayMedia env URI StartPaused).2
  | PlayerOp.Refresh =>
    match p.Refresh with
    | (none, _) => none
    | (some _, q) => some q
  | PlayerOp.startTimer =>
    match p.HandleEvent (PlayerEvent.timer TimerId.nextDecoderStart) with
    | (none, _) => none
    | (some _, q) => some q
  | PlayerOp.DestroyNextDecoder => some p.DestroyNextDecoder
  | PlayerOp.Teardown => some p.Teardown
  | PlayerOp.command c => some (p.invoke c).2
  | PlayerOp.decoders current next old =>
    some
      { p with
        m_decoder := p.m_decoder.map fun d => { d with state := current }
        m_nextDecoder := p.m_nextDecoder.map fun d => { d with state := next }
        m_oldDecoder := p.m_oldDecoder.map fun d => { d with state := old } }

/-- The player after a sequence of steps, `none` when one of them dereferences a
`NULL` decoder. -/
def runPlayer : List PlayerOp → TorcPlayer → Option TorcPlayer
  | [], p => some p
  | op :: ops, p => (op.apply p).bind (runPlayer ops)

/-- The switching flag is set exactly when there is a next decoder. -/
def TorcPlayer.SwitchingIffNext (p : TorcPlayer) : Prop :=
  p.m_switching = true ↔ p.m_nextDecoder ≠ none

/-! ## Theorems: packet queue -/

theorem flushLoop_spec (fuel : Nat) (q : TorcPacketQueue) (h : q.m_queue.length ≤ fuel) :
    TorcPacketQueue.flushLoop fuel q =
      { m_queue := []
        m_size := q.m_size - (q.m_queue.map accountedSize).sum
        m_length := q.m_length - q.m_queue.length } := by
  induction fuel generalizing q with
  | zero =>
    obtain ⟨len, sz, l⟩ := q
    have hl : l = [] := List.length_eq_zero.mp (Nat.le_zero.mp h)
    subst hl
    simp [TorcPacketQueue.flushLoop]
  | succ fuel ih =>
    obtain ⟨len, sz, l⟩ := q
    cases l with
    | nil => simp [TorcPacketQueue.flushLoop]
    | cons p rest =>
      have h1 : rest.length ≤ fuel := by simpa using h
      simp only [TorcPacketQueue.flushLoop, List.isEmpty_cons, Bool.false_eq_true, if_false,
        TorcPacketQueue.Pop]
      rw [ih _ h1]
      simp only [List.map_cons, List.sum_cons, List.length_cons, accountedSize,
        TorcPacketQueue.mk.injEq, and_true, true_and]
      constructor
      · push_cast; ring
      · ring

/-- The loop of `Flush` ends with an empty list: the bound used by `Flush` is
enough for the loop condition to become false. -/
theorem flushLoop_empties (q : TorcPacketQueue) :
    (TorcPacketQueue.flushLoop q.m_queue.length q).m_queue = [] := by
  rw [flushLoop_spec _ _ (le_refl _)]

theorem Flush_queue (b : Bool) (q : TorcPacketQueue) :
    (q.Flush b).m_queue = if b then [PacketPtr.flushCodec] else [] := by
  unfold TorcPacketQueue.Flush
  rw [flushLoop_spec _ _ (le_refl _)]
  cases b <;> simp

theorem Flush_consistent (b : Bool) (q : TorcPacketQueue) (h : q.Consistent) :
    q.Flush b =
      if b then { m_queue := [PacketPtr.flushCodec], m_size := sizeofPtr, m_length := 1 }
      else TorcPacketQueue.new := by
  obtain ⟨h1, h2⟩ := h
  unfold TorcPacketQueue.Flush
  rw [flushLoop_spec _ _ (le_refl _)]
  cases b <;> simp [h1, h2, gFlushCodec, TorcPacketQueue.new]

theorem Push_consistent (q : TorcPacketQueue) (p : AVPacket) (h : q.Consistent) :
    (q.Push p).Consistent := by
  obtain ⟨h1, h2⟩ := h
  constructor
  · simp [TorcPacketQueue.Push, h1]
  · simp [TorcPacketQueue.Push, h2, accountedSize, PacketPtr.deref]

theorem Pop_consistent (q : TorcPacketQueue) (h : q.Consistent) : q.Pop.2.Consistent := by
  obtain ⟨len, sz, l⟩ := q
  obtain ⟨h1, h2⟩ := h
  cases l with
  | nil => exact ⟨h1, h2⟩
  | cons p rest =>
    simp only [List.length_cons, List.map_cons, List.sum_cons] at h1 h2
    constructor
    · simp only [TorcPacketQueue.Pop]; rw [h1]; push_cast; ring
    · simp only [TorcPacketQueue.Pop]; rw [h2]; simp [accountedSize]

theorem new_consistent : TorcPacketQueue.new.Consistent := by
  simp [TorcPacketQueue.Consistent, TorcPacketQueue.new]

theorem apply_consistent (q : TorcPacketQueue) (op : QueueOp) (h : q.Consistent) :
    (op.apply q).Consistent := by
  cases op with
  | push p => exact Push_consistent q p h
  | pop => exact Pop_consistent q h
  | flush b =>
    simp only [QueueOp.apply]
    rw [Flush_consistent b q h]
    cases b
    · exact new_consistent
    · simp [TorcPacketQueue.Consistent, accountedSize, PacketPtr.deref, gFlushCodec]

theorem runOps_consistent (ops : List QueueOp) (q : TorcPacketQueue) (h : q.Consistent) :
    (runOps ops q).Consistent := by
  induction ops generalizing q with
  | nil => exact h
  | cons op ops ih => exact ih _ (apply_consistent q op h)

theorem runOps_append (ops : List QueueOp) (op : QueueOp) (q : TorcPacketQueue) :
    runOps (ops ++ [op]) q = op.apply (runOps ops q) := by
  simp [runOps, List.foldl_append]

theorem apply_sentinel_count (q : TorcPacketQueue) (op : QueueOp)
    (h : q.m_queue.count PacketPtr.flushCodec ≤ 1) :
    (op.apply q).m_queue.count PacketPtr.flushCodec ≤ 1 := by
  cases op with
  | push p =>
    simp only [QueueOp.apply, TorcPacketQueue.Push, List.count_append]
    have : List.count PacketPtr.flushCodec [PacketPtr.heap p] = 0 := by
      simp [List.count_cons]
    omega
  | pop =>
    obtain ⟨len, sz, l⟩ := q
    cases l with
    | nil => simp [QueueOp.apply, TorcPacketQueue.Pop]
    | cons a rest =>
      simp only [QueueOp.apply, TorcPacketQueue.Pop]
      have := List.count_le_count_cons (a := PacketPtr.flushCodec) (b := a) (l := rest)
      exact le_trans this h
  | flush b =>
    simp only [QueueOp.apply, Flush_queue]
    cases b <;> simp

theorem runOps_sentinel_count (ops : List QueueOp) (q : TorcPacketQueue)
    (h : q.m_queue.count PacketPtr.flushCodec ≤ 1) :
    (runOps ops q).m_queue.count PacketPtr.flushCodec ≤ 1 := by
  induction ops generalizing q with
  | nil => exact h
  | cons op ops ih => exact ih _ (apply_sentinel_count q op h)

theorem Flush_true_iterate (q : TorcPacketQueue) (h : q.Consistent) (n : Nat) :
    Nat.iterate (TorcPacketQueue.Flush true) (n + 1) q = q.Flush true := by
  induction n with
  | zero => rfl
  | succ n ih =>
    rw [Function.iterate_succ_apply', ih, Flush_consistent true q h]
    simp only [if_true]
    rw [Flush_consistent true]
    · simp
    · simp [TorcPacketQueue.Consistent, accountedSize, PacketPtr.deref, gFlushCodec]

/-- C1: in every state a queue can reach from construction, `Flush(true)` leaves
exactly one element, the flush sentinel, with `Length() = 1` and `Size()` the
accounted size of the sentinel; `n + 1` consecutive calls of `Flush(true)` leave
the same queue (contents, length and size) as one call; and no reachable queue
ever holds more than one sentinel. -/
theorem flush_true_one_sentinel (ops : List QueueOp) (n : Nat) :
    ((runOps ops TorcPacketQueue.new).Flush true).m_queue = [PacketPtr.flushCodec] ∧
    ((runOps ops TorcPacketQueue.new).Flush true).Length = 1 ∧
    ((runOps ops TorcPacketQueue.new).Flush true).Size = accountedSize PacketPtr.flushCodec ∧
    Nat.iterate (TorcPacketQueue.Flush true) (n + 1) (runOps ops TorcPacketQueue.new) =
      (runOps ops TorcPacketQueue.new).Flush true ∧
    (runOps ops TorcPacketQueue.new).m_queue.count PacketPtr.flushCodec ≤ 1 := by
  have hc := runOps_consistent ops _ new_consistent
  refine ⟨?_, ?_, ?_, Flush_true_iterate _ hc n, ?_⟩
  · simp [Flush_queue]
  · rw [Flush_consistent true _ hc]; rfl
  · rw [Flush_consistent true _ hc]
    simp [TorcPacketQueue.Size, accountedSize, PacketPtr.deref, gFlushCodec]
  · exact runOps_sentinel_count ops _ (by simp [TorcPacketQueue.new])

theorem popN_list (l : List PacketPtr) (len sz : Int) (k : Nat) :
    (popN (l.length + k) { m_length := len, m_size := sz, m_queue := l }).1 =
      l.map some ++ List.replicate k none := by
  induction l generalizing len sz with
  | nil =>
    induction k with
    | zero => rfl
    | succ k ih =>
      simp only [List.length_nil, Nat.zero_add, List.map_nil, List.nil_append] at ih ⊢
      simp only [popN, TorcPacketQueue.Pop, List.replicate_succ]
      rw [ih]
  | cons p rest ih =>
    have : (p :: rest).length + k = (rest.length + k) + 1 := by simp; omega
    rw [this]
    simp only [popN, TorcPacketQueue.Pop, List.map_cons, List.cons_append]
    rw [ih]

theorem specDeliveryOrder_push (ops : List ProducerOp) (p : AVPacket) :
    specDeliveryOrder (ops ++ [ProducerOp.push p]) =
      specDeliveryOrder ops ++ [PacketPtr.heap p] := by
  simp [specDeliveryOrder, List.takeWhile, ProducerOp.isPush, ProducerOp.packet?,
    List.filterMap_append]

theorem specDeliveryOrder_flush (ops : List ProducerOp) :
    specDeliveryOrder (ops ++ [ProducerOp.flush]) = [PacketPtr.flushCodec] := by
  simp [specDeliveryOrder, List.takeWhile, ProducerOp.isPush]

theorem producer_queue (ops : List ProducerOp) :
    (runOps (ops.map ProducerOp.toOp) TorcPacketQueue.new).m_queue = specDeliveryOrder ops := by
  induction ops using List.reverseRecOn with
  | nil => simp [runOps, specDeliveryOrder, TorcPacketQueue.new]
  | append_singleton ops op ih =>
    rw [List.map_append, List.map_singleton, runOps_append]
    cases op with
    | push p =>
      rw [specDeliveryOrder_push, ← ih]
      rfl
    | flush =>
      rw [specDeliveryOrder_flush]
      simp [ProducerOp.toOp, QueueOp.apply, Flush_queue]

/-- C2: after any sequence of `Push` and `Flush(true)` calls on a new queue,
successive calls of `Pop` return the sentinel of the most recent flush (if there
was one), then the packets pushed after it in push order, and `NULL` on every
further call. -/
theorem pop_delivers_in_order (ops : List ProducerOp) (k : Nat) :
    (popN ((specDeliveryOrder ops).length + k)
        (runOps (ops.map ProducerOp.toOp) TorcPacketQueue.new)).1 =
      (specDeliveryOrder ops).map some ++ List.replicate k none := by
  have h := producer_queue ops
  generalize runOps (ops.map ProducerOp.toOp) TorcPacketQueue.new = q at h
  obtain ⟨len, sz, l⟩ := q
  simp only at h
  subst h
  exact popN_list _ len sz k

/-- C3: after any sequence of `Push`, `Pop` and `Flush` calls on a new queue,
`Length()` is the number of queued items and `Size()` the sum of pointer size
plus packet size over the queued items; `Pop` on an empty queue returns `NULL`
and leaves the queue as it is; `Flush(false)` leaves both counters at 0. -/
theorem queue_counters_exact (ops : List QueueOp) :
    (runOps ops TorcPacketQueue.new).Length = (runOps ops TorcPacketQueue.new).m_queue.length ∧
    (runOps ops TorcPacketQueue.new).Size =
      ((runOps ops TorcPacketQueue.new).m_queue.map
        (fun p => sizeofPtr + p.deref.size)).sum ∧
    ((runOps ops TorcPacketQueue.new).m_queue = [] →
      (runOps ops TorcPacketQueue.new).Pop = (none, runOps ops TorcPacketQueue.new)) ∧
    ((runOps ops TorcPacketQueue.new).Flush false).Length = 0 ∧
    ((runOps ops TorcPacketQueue.new).Flush false).Size = 0 ∧
    ((runOps ops TorcPacketQueue.new).Flush false).m_queue = [] := by
  have hc := runOps_consistent ops _ new_consistent
  refine ⟨hc.1, hc.2, ?_, ?_, ?_, ?_⟩
  · intro h
    simp [TorcPacketQueue.Pop, h]
  · rw [Flush_consistent false _ hc]; rfl
  · rw [Flush_consistent false _ hc]; rfl
  · simp [Flush_queue]

/-- C3 at the newly constructed queue, which is empty: `Pop` returns `NULL` and
the queue is unchanged. -/
theorem queue_counters_exact_witness :
    TorcPacketQueue.new.m_queue = [] ∧
      TorcPacketQueue.new.Pop = (none, TorcPacketQueue.new) :=
  ⟨rfl, (queue_counters_exact []).2.2.1 rfl⟩

/-! ## Theorems: stream selection -/

theorem step_index (c : HeaderConstants) (language : Nat) (count : Int)
    (st : SelectStream.Loop) (it : TorcStreamData) :
    (SelectStream.step c language count st it).index = st.index + 1 := by
  simp only [SelectStream.step]
  split <;> rfl

theorem fold_step_index (c : HeaderConstants) (language : Nat) (count : Int)
    (l : List TorcStreamData) (st : SelectStream.Loop) :
    (l.foldl (SelectStream.step c language count) st).index = st.index + l.length := by
  induction l generalizing st with
  | nil => simp
  | cons a l ih =>
    rw [List.foldl_cons, ih, step_index]
    push_cast [List.length_cons]
    ring

/-- What the loop of `SelectStream` leaves behind: either no score was positive
and the variables are as initialised, or `selected` is the index of the first
stream whose score is the largest one, and that score is positive. -/
theorem fold_step_spec (c : HeaderConstants) (language : Nat) (count : Int)
    (l : List TorcStreamData) :
    ((l.foldl (SelectStream.step c language count) SelectStream.init).score = 0 ∧
      (l.foldl (SelectStream.step c language count) SelectStream.init).selected = -1 ∧
      ∀ (q : Nat) (t : TorcStreamData), l[q]? = some t →
        SelectStream.thisscore c language count q t ≤ 0) ∨
    (∃ (p : Nat) (s : TorcStreamData), l[p]? = some s ∧
      (l.foldl (SelectStream.step c language count) SelectStream.init).selected = s.m_index ∧
      (l.foldl (SelectStream.step c language count) SelectStream.init).score =
        SelectStream.thisscore c language count p s ∧
      0 < SelectStream.thisscore c language count p s ∧
      (∀ (q : Nat) (t : TorcStreamData), l[q]? = some t →
        SelectStream.thisscore c language count q t ≤
          SelectStream.thisscore c language count p s) ∧
      (∀ (q : Nat) (t : TorcStreamData), q < p → l[q]? = some t →
        SelectStream.thisscore c language count q t <
          SelectStream.thisscore c language count p s)) := by
  induction l using List.reverseRecOn with
  | nil =>
    left
    refine ⟨rfl, rfl, ?_⟩
    intro q t h
    simp at h
  | append_singleton l a ih =>
    have hidx := fold_step_index c language count l SelectStream.init
    have hget : ∀ (q : Nat) (t : TorcStreamData), (l ++ [a])[q]? = some t →
        (q < l.length ∧ l[q]? = some t) ∨ (q = l.length ∧ t = a) := by
      intro q t h
      rcases Nat.lt_or_ge q l.length with hq | hq
      · left
        rw [List.getElem?_append_left hq] at h
        exact ⟨hq, h⟩
      · right
        rw [List.getElem?_append_right hq] at h
        rcases Nat.eq_or_lt_of_le hq with hq2 | hq2
        · rw [← hq2] at h
          simp at h
          exact ⟨hq2.symm, h.symm⟩
        · have : 1 ≤ q - l.length := by omega
          rw [List.getElem?_eq_none (by simpa using this)] at h
          cases h
    have hlast : (l ++ [a])[l.length]? = some a := by simp
    have hleft : ∀ (q : Nat) (t : TorcStreamData), l[q]? = some t →
        (l ++ [a])[q]? = some t := by
      intro q t h
      have hq : q < l.length := by
        by_contra hn
        rw [List.getElem?_eq_none (by omega)] at h
        cases h
      rw [List.getElem?_append_left hq]
      exact h
    rw [List.foldl_append, List.foldl_cons, List.foldl_nil]
    generalize List.foldl (SelectStream.step c language count) SelectStream.init l = r at ih hidx
    have hri : r.index = (l.length : Int) := by
      rw [hidx]; simp [SelectStream.init]
    simp only [SelectStream.step]
    rw [hri]
    rcases ih with ⟨hs, hsel, hall⟩ | ⟨p, s, hp, hsel, hs, hpos, hall, hfirst⟩
    · by_cases hgt : SelectStream.thisscore c language count l.length a > r.score
      · right
        rw [if_pos hgt]
        refine ⟨l.length, a, hlast, rfl, rfl, by rw [hs] at hgt; exact hgt, ?_, ?_⟩
        · intro q t h
          rcases hget q t h with ⟨_, h1⟩ | ⟨h1, h2⟩
          · have := hall q t h1
            rw [hs] at hgt
            omega
          · subst h1; subst h2; exact le_refl _
        · intro q t hq h
          rcases hget q t h with ⟨_, h1⟩ | ⟨h1, _⟩
          · have := hall q t h1
            rw [hs] at hgt
            omega
          · omega
      · left
        rw [if_neg hgt]
        refine ⟨hs, hsel, ?_⟩
        intro q t h
        rcases hget q t h with ⟨_, h1⟩ | ⟨h1, h2⟩
        · exact hall q t h1
        · subst h1; subst h2
          rw [hs] at hgt
          omega
    · by_cases hgt : SelectStream.thisscore c language count l.length a > r.score
      · right
        rw [if_pos hgt]
        rw [hs] at hgt
        refine ⟨l.length, a, hlast, rfl, rfl, by omega, ?_, ?_⟩
        · intro q t h
          rcases hget q t h with ⟨_, h1⟩ | ⟨h1, h2⟩
          · have := hall q t h1
            omega
          · subst h1; subst h2; exact le_refl _
        · intro q t hq h
          rcases hget q t h with ⟨_, h1⟩ | ⟨h1, _⟩
          · have := hall q t h1
            omega
          · omega
      · right
        rw [if_neg hgt]
        rw [hs] at hgt
        refine ⟨p, s, hleft p s hp, hsel, hs, hpos, ?_, ?_⟩
        · intro q t h
          rcases hget q t h with ⟨_, h1⟩ | ⟨h1, h2⟩
          · exact hall q t h1
          · subst h1; subst h2
            omega
        · intro q t hq h
          rcases hget q t h with ⟨_, h1⟩ | ⟨h1, _⟩
          · exact hfirst q t hq h1
          · have hp2 : p < l.length := by
              by_contra hn
              rw [List.getElem?_eq_none (by omega)] at hp
              cases hp
            omega

/-- With a non-negative channel count the score of a stream at a position below
`count` is positive. -/
theorem thisscore_pos (c : HeaderConstants) (language : Nat) (count q : Nat)
    (t : TorcStreamData) (hq : q < count) (hch : 0 ≤ t.m_originalChannels) :
    0 < SelectStream.thisscore c language count q t := by
  unfold SelectStream.thisscore
  simp only
  have h1 : (0 : Int) ≤ (if ((language != c.DEFAULT_QT_LANGUAGE) &&
      (t.m_language == language)) = true then 500 else 0) := by split <;> omega
  have h2 : (0 : Int) ≤ (if ((t.m_avDisposition &&& AV_DISPOSITION_FORCED) != 0) = true
      then 1000 else 0) := by split <;> omega
  have h3 : (0 : Int) ≤ (if ((t.m_avDisposition &&& AV_DISPOSITION_DEFAULT) != 0) = true
      then 100 else 0) := by split <;> omega
  have h4 : (q : Int) < count := by exact_mod_cast hq
  have h5 : (0 : Int) ≤ count := by positivity
  omega

theorem SelectStream_many (c : HeaderConstants) (language m_flags : Nat)
    (streams : List TorcStreamData) (current : Int) (Typ : TorcStreamTypes)
    (hcount : 2 ≤ streams.length) (hen : SelectStream.ignore c m_flags Typ = false) :
    SelectStream c language m_flags streams current Typ =
      (current == (streams.foldl (SelectStream.step c language streams.length)
          SelectStream.init).selected,
        (streams.foldl (SelectStream.step c language streams.length)
          SelectStream.init).selected) := by
  match streams, hcount with
  | a :: b :: rest, _ =>
    have h1 : ¬ (((a :: b :: rest).length : Int) < 1) := by
      simp only [List.length_cons]; push_cast; omega
    simp only [SelectStream, hen, Bool.or_false, decide_eq_true_eq, h1, if_false]
    rfl

/-- For two or more streams of an enabled type: either no score is positive and
-1 is stored, or the index of the first stream with the largest score is stored
and that score is positive. -/
theorem SelectStream_many_cases (c : HeaderConstants) (language m_flags : Nat)
    (streams : List TorcStreamData) (current : Int) (Typ : TorcStreamTypes)
    (hcount : 2 ≤ streams.length) (hen : SelectStream.ignore c m_flags Typ = false) :
    ((SelectStream c language m_flags streams current Typ).2 = -1 ∧
      ∀ (q : Nat) (t : TorcStreamData), streams[q]? = some t →
        SelectStream.thisscore c language streams.length q t ≤ 0) ∨
    (∃ (p : Nat) (s : TorcStreamData), streams[p]? = some s ∧
      (SelectStream c language m_flags streams current Typ).2 = s.m_index ∧
      0 < SelectStream.thisscore c language streams.length p s ∧
      (∀ (q : Nat) (t : TorcStreamData), streams[q]? = some t →
        SelectStream.thisscore c language streams.length q t ≤
          SelectStream.thisscore c language streams.length p s) ∧
      (∀ (q : Nat) (t : TorcStreamData), q < p → streams[q]? = some t →
        SelectStream.thisscore c language streams.length q t <
          SelectStream.thisscore c language streams.length p s)) := by
  rw [SelectStream_many c language m_flags streams current Typ hcount hen]
  rcases fold_step_spec c language streams.length streams with
    ⟨_, hsel, hall⟩ | ⟨p, s, hp, hsel, _, hpos, hall, hfirst⟩
  · exact Or.inl ⟨hsel, hall⟩
  · exact Or.inr ⟨p, s, hp, hsel, hpos, hall, hfirst⟩

/-- C4 at the failing input: two audio streams whose codec contexts report the
channel count -10, with the audio flag set. Their scores are -14 and -15; the
largest score is that of the first stream, with container index 4, but the
code stores -1, because no score exceeds the initial `score = 0` of the loop
under the comment `pick one`. A list with the first stream alone stores its
index 4. -/
theorem SelectStream_negative_scores_select_none :
    SelectStream.ignore sampleConstants 1 TorcStreamTypes.StreamTypeAudio = false ∧
    SelectStream.thisscore sampleConstants 31 2 0 sampleStreamD = -14 ∧
    SelectStream.thisscore sampleConstants 31 2 1 sampleStreamE = -15 ∧
    sampleStreamD.m_index = 4 ∧
    (SelectStream sampleConstants 31 1 [sampleStreamD, sampleStreamE] (-1)
      TorcStreamTypes.StreamTypeAudio).2 = -1 ∧
    (SelectStream sampleConstants 31 1 [sampleStreamD] (-1)
      TorcStreamTypes.StreamTypeAudio).2 = 4 := by
  decide

/-- What the loop of `SelectStream` stores for two or more streams of an enabled
type. When at least one stream has a positive score, it is the container index
of a stream whose score is the largest, and of the first such stream when
several share that score; when no stream has a positive score it is -1. A
positive score exists whenever no stream has a negative channel count. The
stored selection does not depend on the stream selected before. -/
theorem SelectStream_selects_first_positive_max (c : HeaderConstants) (language m_flags : Nat)
    (streams : List TorcStreamData) (current current2 : Int) (Typ : TorcStreamTypes)
    (hcount : 2 ≤ streams.length) (hen : SelectStream.ignore c m_flags Typ = false) :
    ((∃ (q : Nat) (t : TorcStreamData), streams[q]? = some t ∧
        0 < SelectStream.thisscore c language streams.length q t) →
      ∃ (p : Nat) (s : TorcStreamData), streams[p]? = some s ∧
        (SelectStream c language m_flags streams current Typ).2 = s.m_index ∧
        (∀ (q : Nat) (t : TorcStreamData), streams[q]? = some t →
          SelectStream.thisscore c language streams.length q t ≤
            SelectStream.thisscore c language streams.length p s) ∧
        (∀ (q : Nat) (t : TorcStreamData), q < p → streams[q]? = some t →
          SelectStream.thisscore c language streams.length q t <
            SelectStream.thisscore c language streams.length p s)) ∧
    ((∀ (q : Nat) (t : TorcStreamData), streams[q]? = some t →
        SelectStream.thisscore c language streams.length q t ≤ 0) →
      (SelectStream c language m_flags streams current Typ).2 = -1) ∧
    ((∀ s ∈ streams, 0 ≤ s.m_originalChannels) →
      ∃ (q : Nat) (t : TorcStreamData), streams[q]? = some t ∧
        0 < SelectStream.thisscore c language streams.length q t) ∧
    (SelectStream c language m_flags streams current2 Typ).2 =
      (SelectStream c language m_flags streams current Typ).2 := by
  refine ⟨?_, ?_, ?_, ?_⟩
  · rintro ⟨q, t, hq, hpos⟩
    rcases SelectStream_many_cases c language m_flags streams current Typ hcount hen with
      ⟨_, hall⟩ | ⟨p, s, hp, hsel, _, hall, hfirst⟩
    · have := hall q t hq
      omega
    · exact ⟨p, s, hp, hsel, hall, hfirst⟩
  · intro hnone
    rcases SelectStream_many_cases c language m_flags streams current Typ hcount hen with
      ⟨hsel, _⟩ | ⟨p, s, hp, _, hpos, _, _⟩
    · exact hsel
    · have := hnone p s hp
      omega
  · intro hch
    have h0 : 0 < streams.length := by omega
    exact ⟨0, streams[0], List.getElem?_eq_getElem h0,
      thisscore_pos c language streams.length 0 _ h0 (hch _ (List.getElem_mem h0))⟩
  · rw [SelectStream_many c language m_flags streams current Typ hcount hen,
      SelectStream_many c language m_flags streams current2 Typ hcount hen]

/-- On two sample audio streams with the audio flag set and the user language
42: stream B (six channels, language 42) has the largest score and
its container index 2 is stored, whether stream 7 or no stream was selected
before. -/
theorem SelectStream_selects_first_positive_max_witness :
    (∃ (p : Nat) (s : TorcStreamData), [sampleStreamA, sampleStreamB][p]? = some s ∧
      (SelectStream sampleConstants 42 1 [sampleStreamA, sampleStreamB] 7
        TorcStreamTypes.StreamTypeAudio).2 = s.m_index ∧
      (∀ (q : Nat) (t : TorcStreamData), [sampleStreamA, sampleStreamB][q]? = some t →
        SelectStream.thisscore sampleConstants 42
            [sampleStreamA, sampleStreamB].length q t ≤
          SelectStream.thisscore sampleConstants 42
            [sampleStreamA, sampleStreamB].length p s) ∧
      (∀ (q : Nat) (t : TorcStreamData), q < p →
        [sampleStreamA, sampleStreamB][q]? = some t →
        SelectStream.thisscore sampleConstants 42
            [sampleStreamA, sampleStreamB].length q t <
          SelectStream.thisscore sampleConstants 42
            [sampleStreamA, sampleStreamB].length p s)) ∧
    (SelectStream sampleConstants 42 1 [sampleStreamA, sampleStreamB] (-1)
        TorcStreamTypes.StreamTypeAudio).2 =
      (SelectStream sampleConstants 42 1 [sampleStreamA, sampleStreamB] 7
        TorcStreamTypes.StreamTypeAudio).2 ∧
    (SelectStream sampleConstants 42 1 [sampleStreamA, sampleStreamB] 7
      TorcStreamTypes.StreamTypeAudio).2 = 2 :=
  have h := SelectStream_selects_first_positive_max sampleConstants 42 1
    [sampleStreamA, sampleStreamB] 7 (-1) TorcStreamTypes.StreamTypeAudio (by decide) (by decide)
  ⟨h.1 ⟨1, sampleStreamB, rfl, by decide⟩, h.2.2.2, by decide⟩

/-- The score of the code and the specification's formula with the guarded
language bonus agree. -/
theorem thisscore_eq_specScoreGuarded (c : HeaderConstants) (language : Nat) (count p : Nat)
    (s : TorcStreamData) :
    SelectStream.thisscore c language count p s = specScoreGuarded c language count p s := by
  simp only [SelectStream.thisscore, specScoreGuarded, hasDisposition, Bool.and_eq_true,
    bne_iff_ne, ne_eq, beq_iff_eq]
  ring

/-- Whatever the value of `DEFAULT_QT_LANGUAGE`: when the user language is that
value and the stream's language equals it, the code's score is 500 below the
specification's formula. -/
theorem thisscore_default_language (c : HeaderConstants) (count p : Nat) (s : TorcStreamData)
    (hs : s.m_language = c.DEFAULT_QT_LANGUAGE) :
    SelectStream.thisscore c c.DEFAULT_QT_LANGUAGE count p s + 500 =
      specScore c.DEFAULT_QT_LANGUAGE count p s := by
  simp only [SelectStream.thisscore, specScore, hasDisposition, hs, bne_self_eq_false,
    Bool.false_and, Bool.false_eq_true, if_false, if_true]
  ring

/-- C5 as stated fails: with the user language equal to the default language
and a stream in that language, the code gives no language bonus, so its score for
the first of two streams is 110 while the specification's formula gives 610; and
for the streams B (language 42, six channels) and C (language 31, two channels)
with user language 31 the code selects B, whose score by the specification's
formula is below that of C. -/
theorem thisscore_ne_specScore :
    SelectStream.thisscore sampleConstants 31 2 0 sampleStreamA ≠
      specScore 31 2 0 sampleStreamA ∧
    SelectStream.thisscore sampleConstants 31 2 0 sampleStreamA = 110 ∧
    specScore 31 2 0 sampleStreamA = 610 ∧
    (SelectStream sampleConstants 31 1 [sampleStreamB, sampleStreamC] (-1)
      TorcStreamTypes.StreamTypeAudio).2 = sampleStreamB.m_index ∧
    specScore 31 2 0 sampleStreamB < specScore 31 2 1 sampleStreamC := by
  decide

/-- C5, amended: for the stream `s` at 0-based position `p` in a list of `count`
streams, the score computed in the loop of `SelectStream` (with the loop's
own `index` after `p` iterations) is `(count - p)`, plus 500 if the user language
is not the default language and equals the stream's language, plus 1000 for the
Forced disposition, plus 100 for the Default disposition, plus
`2 * (original_channels + count)`. -/
theorem thisscore_formula (c : HeaderConstants) (language : Nat)
    (streams : List TorcStreamData) (p : Nat) (s : TorcStreamData)
    (hp : streams[p]? = some s) :
    SelectStream.thisscore c language streams.length
        ((streams.take p).foldl (SelectStream.step c language streams.length)
          SelectStream.init).index s =
      specScoreGuarded c language streams.length p s := by
  have hlt : p < streams.length := by
    by_contra hn
    rw [List.getElem?_eq_none (by omega)] at hp
    cases hp
  rw [fold_step_index, List.length_take, Nat.min_eq_left (le_of_lt hlt)]
  simp only [SelectStream.init, zero_add]
  exact thisscore_eq_specScoreGuarded c language streams.length p s

/-- C5, amended, on two sample streams: the score of the second one. -/
theorem thisscore_formula_witness :
    SelectStream.thisscore sampleConstants 42 2
        (([sampleStreamA, sampleStreamB].take 1).foldl
          (SelectStream.step sampleConstants 42 2) SelectStream.init).index sampleStreamB =
      specScoreGuarded sampleConstants 42 2 1 sampleStreamB :=
  thisscore_formula sampleConstants 42 [sampleStreamA, sampleStreamB] 1 sampleStreamB
    (by decide)

/-- C6 at the failing input: a program with two valid audio streams whose codec
contexts report the channel count -10, the audio flag being set and the user
language being 7. The list is not empty and the type is not disabled, yet the
code stores -1, which is the index of neither stream. -/
theorem SelectStream_stores_none_with_streams :
    [sampleStreamD, sampleStreamE] ≠ [] ∧
    SelectStream.ignore sampleConstants 1 TorcStreamTypes.StreamTypeAudio = false ∧
    (∀ s ∈ [sampleStreamD, sampleStreamE], s.IsValid = true) ∧
    (SelectStream sampleConstants 7 1 [sampleStreamD, sampleStreamE] 4
      TorcStreamTypes.StreamTypeAudio).2 = -1 ∧
    (∀ s ∈ [sampleStreamD, sampleStreamE],
      (SelectStream sampleConstants 7 1 [sampleStreamD, sampleStreamE] 4
        TorcStreamTypes.StreamTypeAudio).2 ≠ s.m_index) := by
  decide

/-- When `SelectStream` stores -1, for valid streams: exactly when there is no
stream of the type, or the type is disabled by the flags, or there are two or
more streams none of which has a positive score; otherwise it stores the
container index of one of the streams, and with exactly one stream that stream's
index. -/
theorem SelectStream_none_iff_no_candidate (c : HeaderConstants) (language m_flags : Nat)
    (streams : List TorcStreamData) (current : Int) (Typ : TorcStreamTypes)
    (hvalid : ∀ s ∈ streams, s.IsValid = true) :
    ((SelectStream c language m_flags streams current Typ).2 = -1 ↔
      (streams = [] ∨ SelectStream.ignore c m_flags Typ = true ∨
        (2 ≤ streams.length ∧ ∀ (q : Nat) (t : TorcStreamData), streams[q]? = some t →
          SelectStream.thisscore c language streams.length q t ≤ 0))) ∧
    (¬ (streams = [] ∨ SelectStream.ignore c m_flags Typ = true ∨
        (2 ≤ streams.length ∧ ∀ (q : Nat) (t : TorcStreamData), streams[q]? = some t →
          SelectStream.thisscore c language streams.length q t ≤ 0)) →
      ∃ s ∈ streams, (SelectStream c language m_flags streams current Typ).2 = s.m_index) ∧
    (∀ s : TorcStreamData, streams = [s] → SelectStream.ignore c m_flags Typ = false →
      (SelectStream c language m_flags streams current Typ).2 = s.m_index) := by
  have hidx : ∀ s ∈ streams, s.m_index ≠ -1 := by
    intro s hs
    have := hvalid s hs
    simp only [TorcStreamData.IsValid, Bool.and_eq_true, decide_eq_true_eq] at this
    omega
  have hsome : ¬ (streams = [] ∨ SelectStream.ignore c m_flags Typ = true ∨
        (2 ≤ streams.length ∧ ∀ (q : Nat) (t : TorcStreamData), streams[q]? = some t →
          SelectStream.thisscore c language streams.length q t ≤ 0)) →
      ∃ s ∈ streams, (SelectStream c language m_flags streams current Typ).2 = s.m_index := by
    intro hn
    push_neg at hn
    obtain ⟨hne, hen, hpos⟩ := hn
    have hen2 : SelectStream.ignore c m_flags Typ = false := by simpa using hen
    match streams, hne, hpos with
    | [a], _, _ =>
      refine ⟨a, by simp, ?_⟩
      simp [SelectStream, hen2]
    | a :: b :: rest, _, hpos =>
      rcases SelectStream_many_cases c language m_flags (a :: b :: rest) current Typ (by simp)
        hen2 with ⟨_, hall⟩ | ⟨p, s, hp, hsel, _⟩
      · obtain ⟨q, t, hq, hlt⟩ := hpos (by simp)
        have := hall q t hq
        omega
      · exact ⟨s, List.getElem?_mem hp, hsel⟩
  refine ⟨⟨?_, ?_⟩, hsome, ?_⟩
  · intro h
    by_contra hn
    obtain ⟨s, hs, hsel⟩ := hsome hn
    rw [hsel] at h
    exact hidx s hs h
  · rintro (h | h | ⟨hcount, hall⟩)
    · subst h
      simp [SelectStream]
    · simp [SelectStream, h]
    · cases hen : SelectStream.ignore c m_flags Typ with
      | true => simp [SelectStream, hen]
      | false =>
        rcases SelectStream_many_cases c language m_flags streams current Typ hcount hen with
          ⟨hsel, _⟩ | ⟨p, s, hp, _, hpos, _⟩
        · exact hsel
        · have := hall p s hp
          omega
  · intro s hs hen
    subst hs
    simp [SelectStream, hen]

/-- On a single sample stream with the audio flag set: its index is stored. -/
theorem SelectStream_none_iff_no_candidate_witness :
    (∀ s ∈ [sampleStreamB], s.IsValid = true) ∧
    (SelectStream sampleConstants 31 1 [sampleStreamB] (-1)
      TorcStreamTypes.StreamTypeAudio).2 = sampleStreamB.m_index :=
  ⟨by decide, (SelectStream_none_iff_no_candidate sampleConstants 31 1 [sampleStreamB] (-1)
    TorcStreamTypes.StreamTypeAudio (by decide)).2.2 sampleStreamB rfl (by decide)⟩

/-! ## Theorems: timestamp validation -/

/-- C7 as stated fails: right after a reset, with an unknown PTS and the DTS 5,
no fault is counted and the code returns the DTS 5, not the PTS; and with one
more PTS fault than DTS faults and an unknown DTS the code returns the PTS 10,
not the DTS. -/
theorem GetValidTimestamp_not_spec :
    (GetValidTimestamp ResetPTSTracker AV_NOPTS_VALUE 5).1 = 5 ∧
    (GetValidTimestamp ResetPTSTracker AV_NOPTS_VALUE 5).2.m_faultyPTSCount = 0 ∧
    (GetValidTimestamp ResetPTSTracker AV_NOPTS_VALUE 5).2.m_faultyDTSCount = 0 ∧
    specValidTimestamp 0 0 AV_NOPTS_VALUE 5 = AV_NOPTS_VALUE ∧
    (GetValidTimestamp sampleTrackerOneFault 10 AV_NOPTS_VALUE).1 = 10 ∧
    specValidTimestamp 1 0 10 AV_NOPTS_VALUE = AV_NOPTS_VALUE := by
  decide

/-- C7, amended: `GetValidTimestamp` returns `PTS` when `PTS` is known and, with
this call's faults counted, the PTS fault counter does not exceed the DTS fault
counter or `DTS` is unknown; in every other case it returns `DTS`. When both
timestamps are known this is the specification's rule. The counters after the
call are the old ones plus one for each known timestamp that is not above the
last one of its channel. -/
theorem GetValidTimestamp_spec (t : PTSTracker) (PTS DTS : Int) :
    (GetValidTimestamp t PTS DTS).1 =
      (if PTS ≠ AV_NOPTS_VALUE ∧
          ((GetValidTimestamp t PTS DTS).2.m_faultyPTSCount ≤
              (GetValidTimestamp t PTS DTS).2.m_faultyDTSCount ∨ DTS = AV_NOPTS_VALUE)
        then PTS else DTS) ∧
    (PTS ≠ AV_NOPTS_VALUE → DTS ≠ AV_NOPTS_VALUE →
      (GetValidTimestamp t PTS DTS).1 =
        specValidTimestamp (GetValidTimestamp t PTS DTS).2.m_faultyPTSCount
          (GetValidTimestamp t PTS DTS).2.m_faultyDTSCount PTS DTS) ∧
    (GetValidTimestamp t PTS DTS).2.m_faultyPTSCount =
      t.m_faultyPTSCount + (if PTS ≠ AV_NOPTS_VALUE ∧ PTS ≤ t.m_lastPTS then 1 else 0) ∧
    (GetValidTimestamp t PTS DTS).2.m_faultyDTSCount =
      t.m_faultyDTSCount + (if DTS ≠ AV_NOPTS_VALUE ∧ DTS ≤ t.m_lastDTS then 1 else 0) := by
  obtain ⟨lp, ld, pc, dc⟩ := t
  by_cases hP : PTS = AV_NOPTS_VALUE <;> by_cases hD : DTS = AV_NOPTS_VALUE <;>
    by_cases h1 : PTS ≤ lp <;> by_cases h2 : DTS ≤ ld <;>
    simp only [GetValidTimestamp, specValidTimestamp, hP, hD, h1, h2, bne_self_eq_false,
      Bool.false_eq_true, if_false, if_true, bne_iff_ne, ne_eq, not_false_eq_true,
      not_true_eq_false, beq_self_eq_true, Bool.or_true, Bool.and_true, Bool.and_false,
      Bool.or_false, decide_eq_true_eq, beq_iff_eq, and_true, true_and, and_false, false_and,
      add_zero, or_true, or_false, gt_iff_lt, false_implies, true_implies, implies_true,
      and_self, ite_self] <;>
    (try split_ifs) <;> (try simp_all) <;> (try omega)

/-- C7, amended, at a tracker with two PTS faults and one DTS fault and the
known timestamps 40 and 30: the DTS is returned. -/
theorem GetValidTimestamp_spec_witness :
    (GetValidTimestamp sampleTrackerTwoFaults 40 30).1 = 30 :=
  ((GetValidTimestamp_spec sampleTrackerTwoFaults 40 30).2.1 (by decide) (by decide)).trans
    (by decide)

/-! ## Theorems: audio worker -/

theorem raisedPts_ge (packet : AVPacket) (mark : Int) : mark ≤ raisedPts packet mark := by
  unfold raisedPts
  split_ifs with h
  · omega
  · exact le_refl _

theorem raisedPts_idem (packet : AVPacket) (mark : Int) :
    raisedPts packet (raisedPts packet mark) = raisedPts packet mark := by
  unfold raisedPts
  split_ifs <;> rfl

theorem firstDecode_w (e : ChunkEnv) (s : ChunkState) :
    (DecodeAudioFrames.firstDecode e s).w = s.w := by
  simp only [DecodeAudioFrames.firstDecode]
  split <;> rfl

theorem reselect_log (e : ChunkEnv) (s : ChunkState) :
    (DecodeAudioFrames.reselect e s).w.log = s.w.log ∧
    (DecodeAudioFrames.reselect e s).w.m_audioPts = s.w.m_audioPts := by
  simp only [DecodeAudioFrames.reselect]
  split_ifs <;> exact ⟨rfl, rfl⟩

theorem output_log (e : ChunkEnv) (s : ChunkState) :
    (DecodeAudioFrames.output e s).w.log = s.w.log ∧
    (DecodeAudioFrames.output e s).w.m_audioPts = s.w.m_audioPts := by
  simp only [DecodeAudioFrames.output]
  split_ifs <;> exact ⟨rfl, rfl⟩

/-- The effect of the end of the loop body on the record and on the audio PTS:
one `AddAudioData` call with the raised PTS exactly when the decoder reported no
error, the chunk has data and the frame count can be computed. -/
theorem deliver_log (packet : AVPacket) (s : ChunkState) :
    ∃ frames : Int,
      (DecodeAudioFrames.deliver packet s).2.w.log =
        s.w.log ++
          (if 0 ≤ s.used ∧ 0 < s.datasize ∧
              (DecodeAudioFrames.deliver packet s).1 ≠ Control.crash then
            [AudioEvent.AddAudioData s.datasize (raisedPts packet s.w.m_audioPts) frames]
          else []) ∧
      ((DecodeAudioFrames.deliver packet s).2.w.m_audioPts =
          (if 0 ≤ s.used ∧ 0 < s.datasize then raisedPts packet s.w.m_audioPts
            else s.w.m_audioPts)) := by
  have hr : (if (packet.pts != AV_NOPTS_VALUE && decide (packet.pts > s.w.m_audioPts)) = true
      then packet.pts else s.w.m_audioPts) = raisedPts packet s.w.m_audioPts := by
    unfold raisedPts
    simp only [Bool.and_eq_true, bne_iff_ne, ne_eq, decide_eq_true_eq]
  simp only [DecodeAudioFrames.deliver, hr]
  by_cases h1 : s.used < 0
  · refine ⟨0, ?_⟩
    have : ¬ (0 ≤ s.used) := by omega
    simp [h1, this]
  · have h1b : 0 ≤ s.used := by omega
    by_cases h2 : s.datasize ≤ 0
    · refine ⟨0, ?_⟩
      have : ¬ (0 < s.datasize) := by omega
      simp [h1, h2, this]
    · have h2b : 0 < s.datasize := by omega
      simp only [h1, h2, if_false, h1b, h2b, true_and]
      by_cases h3 : (decide (s.context.channels ≤ 0) || decide (s.decodedsize < 0)) = true
      · refine ⟨-1, ?_⟩
        simp [h3]
      · simp only [h3, Bool.false_eq_true, if_false]
        by_cases h4 : s.context.channels * av_get_bytes_per_sample s.context.sample_fmt = 0
        · refine ⟨0, ?_⟩
          simp [h4]
        · refine ⟨Int.tdiv s.decodedsize
            (s.context.channels * av_get_bytes_per_sample s.context.sample_fmt), ?_⟩
          simp only [h4, if_false, ne_eq, reduceCtorEq, not_false_eq_true, if_true, and_self]

theorem chunkBody_log (e : ChunkEnv) (packet : AVPacket) (s : ChunkState) :
    ∃ evs : List AudioEvent,
      (DecodeAudioFrames.chunkBody e packet s).2.w.log = s.w.log ++ evs ∧
      (∀ ev ∈ evs, ∃ d f, ev = AudioEvent.AddAudioData d (raisedPts packet s.w.m_audioPts) f) ∧
      ((DecodeAudioFrames.chunkBody e packet s).2.w.m_audioPts = s.w.m_audioPts ∨
        (DecodeAudioFrames.chunkBody e packet s).2.w.m_audioPts =
          raisedPts packet s.w.m_audioPts) ∧
      (evs ≠ [] → (DecodeAudioFrames.chunkBody e packet s).2.w.m_audioPts =
          raisedPts packet s.w.m_audioPts) := by
  unfold DecodeAudioFrames.chunkBody
  generalize hs1 : DecodeAudioFrames.output e
    (DecodeAudioFrames.reselect e (DecodeAudioFrames.firstDecode e s)) = s1
  have hlog : s1.w.log = s.w.log := by
    rw [← hs1, (output_log _ _).1, (reselect_log _ _).1, firstDecode_w]
  have hpts : s1.w.m_audioPts = s.w.m_audioPts := by
    rw [← hs1, (output_log _ _).2, (reselect_log _ _).2, firstDecode_w]
  obtain ⟨frames, h1, h2⟩ := deliver_log packet s1
  rw [hlog, hpts] at h1
  rw [hpts] at h2
  refine ⟨_, h1, ?_, ?_, ?_⟩
  · intro ev hev
    split_ifs at hev
    · simp only [List.mem_singleton] at hev
      exact ⟨_, _, hev⟩
    · simp at hev
  · rw [h2]
    split_ifs
    · right; rfl
    · left; rfl
  · intro hne
    rw [h2]
    split_ifs at hne with h3
    · rw [if_pos ⟨h3.1, h3.2.1⟩]
    · exact absurd rfl hne

/-- The effect of the chunk loop for one packet on the record and on the audio
PTS: every call it adds carries the mark raised by the packet's PTS. -/
theorem chunkLoop_log (packet : AVPacket) (M : Int) (chunks : List ChunkEnv)
    (s : ChunkState) (hs : raisedPts packet s.w.m_audioPts = M) :
    ∃ evs : List AudioEvent,
      (DecodeAudioFrames.chunkLoop packet chunks s).2.w.log = s.w.log ++ evs ∧
      (∀ ev ∈ evs, ∃ d f, ev = AudioEvent.AddAudioData d M f) ∧
      ((DecodeAudioFrames.chunkLoop packet chunks s).2.w.m_audioPts = s.w.m_audioPts ∨
        (DecodeAudioFrames.chunkLoop packet chunks s).2.w.m_audioPts = M) ∧
      (evs ≠ [] → (DecodeAudioFrames.chunkLoop packet chunks s).2.w.m_audioPts = M) := by
  induction chunks generalizing s with
  | nil =>
    refine ⟨[], ?_, by simp, ?_, by simp⟩
    · simp only [DecodeAudioFrames.chunkLoop]; split_ifs <;> simp
    · simp only [DecodeAudioFrames.chunkLoop]; split_ifs <;> simp
  | cons e es ih =>
    simp only [DecodeAudioFrames.chunkLoop]
    by_cases hsize : s.tempSize > 0
    · simp only [hsize, if_true]
      obtain ⟨evs1, hl1, hall1, hm1, hne1⟩ := chunkBody_log e packet s
      rw [hs] at hall1 hm1 hne1
      have hr1 : raisedPts packet (DecodeAudioFrames.chunkBody e packet s).2.w.m_audioPts
          = M := by
        rcases hm1 with h | h
        · rw [h, hs]
        · rw [h, ← hs, raisedPts_idem]
      generalize DecodeAudioFrames.chunkBody e packet s = b at hl1 hm1 hne1 hr1
      obtain ⟨c, s1⟩ := b
      simp only at hl1 hm1 hne1 hr1
      cases c with
      | next =>
        simp only
        obtain ⟨evs2, hl2, hall2, hm2, hne2⟩ := ih s1 hr1
        refine ⟨evs1 ++ evs2, ?_, ?_, ?_, ?_⟩
        · rw [hl2, hl1, List.append_assoc]
        · intro ev hev
          rcases List.mem_append.mp hev with h | h
          · exact hall1 ev h
          · exact hall2 ev h
        · rcases hm2 with h | h
          · rcases hm1 with h2 | h2
            · left; rw [h, h2]
            · right; rw [h, h2]
          · right; exact h
        · intro hne
          by_cases h2 : evs2 = []
          · subst h2
            simp only [List.append_nil] at hne
            have h3 := hne1 hne
            rcases hm2 with h | h
            · rw [h, h3]
            · exact h
          · exact hne2 h2
      | exit => exact ⟨evs1, hl1, hall1, hm1, hne1⟩
      | crash => exact ⟨evs1, hl1, hall1, hm1, hne1⟩
      | fuel => exact ⟨evs1, hl1, hall1, hm1, hne1⟩
    · rw [if_neg hsize]
      exact ⟨[], by simp, by simp, Or.inl rfl, by simp⟩

theorem decodePacket_log (chunks : List ChunkEnv) (index : Int) (context : AVCodecContext)
    (packet : AVPacket) (w : AudioWorker) :
    ∃ evs : List AudioEvent,
      (DecodeAudioFrames.decodePacket chunks index context packet w).2.log = w.log ++ evs ∧
      (∀ ev ∈ evs, ∃ d f,
        ev = AudioEvent.AddAudioData d (raisedPts packet w.m_audioPts) f) ∧
      ((DecodeAudioFrames.decodePacket chunks index context packet w).2.m_audioPts =
          w.m_audioPts ∨
        (DecodeAudioFrames.decodePacket chunks index context packet w).2.m_audioPts =
          raisedPts packet w.m_audioPts) ∧
      (evs ≠ [] →
        (DecodeAudioFrames.decodePacket chunks index context packet w).2.m_audioPts =
          raisedPts packet w.m_audioPts) := by
  simp only [DecodeAudioFrames.decodePacket]
  exact chunkLoop_log packet (raisedPts packet w.m_audioPts) chunks _ rfl

theorem boundAfter_append (b : Option Int) (l1 l2 : List AudioEvent) :
    boundAfter b (l1 ++ l2) = boundAfter (boundAfter b l1) l2 := by
  induction l1 generalizing b with
  | nil => rfl
  | cons ev l1 ih =>
    cases ev with
    | AddAudioData d p f => exact ih _
    | flush => exact ih _

theorem OrderedFrom_append (b : Option Int) (l1 l2 : List AudioEvent) :
    OrderedFrom b (l1 ++ l2) ↔ OrderedFrom b l1 ∧ OrderedFrom (boundAfter b l1) l2 := by
  induction l1 generalizing b with
  | nil => simp [OrderedFrom, boundAfter]
  | cons ev l1 ih =>
    cases ev with
    | AddAudioData d p f =>
      show ((∀ l, b = some l → l ≤ p) ∧ OrderedFrom (some p) (l1 ++ l2)) ↔
        ((∀ l, b = some l → l ≤ p) ∧ OrderedFrom (some p) l1) ∧
          OrderedFrom (boundAfter (some p) l1) l2
      rw [ih, and_assoc]
    | flush => exact ih _

theorem OrderedFrom_same (M : Int) (evs : List AudioEvent) (b : Option Int)
    (hall : ∀ ev ∈ evs, ∃ d f, ev = AudioEvent.AddAudioData d M f)
    (hb : ∀ l, b = some l → l ≤ M) :
    OrderedFrom b evs ∧ (evs ≠ [] → boundAfter b evs = some M) := by
  induction evs generalizing b with
  | nil => simp [OrderedFrom]
  | cons ev evs ih =>
    obtain ⟨d, f, hev⟩ := hall ev (List.mem_cons_self _ _)
    subst hev
    have ih2 := ih (some M) (fun ev h => hall ev (List.mem_cons_of_mem _ h))
      (fun l hl => by cases hl; exact le_refl _)
    refine ⟨⟨hb, ih2.1⟩, ?_⟩
    intro _
    simp only [boundAfter]
    by_cases h : evs = []
    · subst h; rfl
    · exact ih2.2 h

theorem Ordered_extend (log evs : List AudioEvent) (mark mark2 M : Int)
    (hinv : OrderedFrom none log ∧ ∀ l, boundAfter none log = some l → l ≤ mark)
    (hall : ∀ ev ∈ evs, ∃ d f, ev = AudioEvent.AddAudioData d M f)
    (hM : mark ≤ M) (hmark : mark2 = mark ∨ mark2 = M) (hne : evs ≠ [] → mark2 = M) :
    OrderedFrom none (log ++ evs) ∧
      ∀ l, boundAfter none (log ++ evs) = some l → l ≤ mark2 := by
  obtain ⟨h1, h2⟩ := hinv
  have h3 := OrderedFrom_same M evs (boundAfter none log) hall
    (fun l hl => le_trans (h2 l hl) hM)
  refine ⟨(OrderedFrom_append _ _ _).mpr ⟨h1, h3.1⟩, ?_⟩
  intro l hl
  rw [boundAfter_append] at hl
  by_cases he : evs = []
  · subst he
    simp only [boundAfter] at hl
    have := h2 l hl
    rcases hmark with h | h <;> omega
  · rw [h3.2 he] at hl
    cases hl
    rw [hne he]

theorem Ordered_flush (log : List AudioEvent) (mark : Int)
    (hinv : OrderedFrom none log) :
    OrderedFrom none (log ++ [AudioEvent.flush]) ∧
      ∀ l, boundAfter none (log ++ [AudioEvent.flush]) = some l → l ≤ mark := by
  refine ⟨(OrderedFrom_append _ _ _).mpr ⟨hinv, by simp [OrderedFrom]⟩, ?_⟩
  intro l hl
  rw [boundAfter_append] at hl
  simp [boundAfter] at hl

theorem decodePacket_ordered (chunks : List ChunkEnv) (index : Int)
    (context : AVCodecContext) (packet : AVPacket) (w : AudioWorker) (h : w.Ordered) :
    (DecodeAudioFrames.decodePacket chunks index context packet w).2.Ordered := by
  obtain ⟨evs, hl, hall, hm, hne⟩ := decodePacket_log chunks index context packet w
  unfold AudioWorker.Ordered
  rw [hl]
  exact Ordered_extend w.log evs w.m_audioPts _ _ h hall (raisedPts_ge _ _) hm hne

theorem applyRequest_record (w : AudioWorker) :
    (DecodeAudioFrames.applyRequest w).log = w.log ∧
    (DecodeAudioFrames.applyRequest w).m_audioPts = w.m_audioPts := by
  simp only [DecodeAudioFrames.applyRequest]
  split_ifs <;> exact ⟨rfl, rfl⟩

theorem process_ordered (env : AudioIterEnv) (w : AudioWorker) (h : w.Ordered) :
    (DecodeAudioFrames.process env w).2.Ordered := by
  simp only [DecodeAudioFrames.process]
  split
  · split
    · exact Ordered_flush w.log _ h.1
    · split
      · split
        · exact h
        · exact decodePacket_ordered _ _ _ _ _ h
      · exact h
    · split_ifs <;> exact h
  · exact h

theorem locked_ordered (env : AudioIterEnv) (w : AudioWorker) (h : w.Ordered) :
    (DecodeAudioFrames.locked env w).2.Ordered := by
  have h1 : (DecodeAudioFrames.applyRequest w).Ordered := by
    unfold AudioWorker.Ordered
    rw [(applyRequest_record w).1, (applyRequest_record w).2]
    exact h
  simp only [DecodeAudioFrames.locked]
  split_ifs
  · exact h1
  · exact h1
  · exact process_ordered env _ h1

theorem iteration_ordered (env : AudioIterEnv) (w : AudioWorker) (h : w.Ordered) :
    (DecodeAudioFrames.iteration env w).2.Ordered := by
  simp only [DecodeAudioFrames.iteration]
  split_ifs
  · exact h
  · exact h
  · exact locked_ordered env _ h

theorem mainLoop_ordered (envs : List AudioIterEnv) (w : AudioWorker) (h : w.Ordered) :
    (DecodeAudioFrames.mainLoop envs w).2.Ordered := by
  induction envs generalizing w with
  | nil => exact h
  | cons env envs ih =>
    simp only [DecodeAudioFrames.mainLoop]
    have h1 := iteration_ordered env w h
    generalize DecodeAudioFrames.iteration env w = r at h1
    obtain ⟨c, w1⟩ := r
    cases c <;> first | exact ih w1 h1 | exact h1

theorem DecodeAudioFrames_ordered (setup : AudioDescription) (envs : List AudioIterEnv)
    (w : AudioWorker) (hlog : w.log = []) :
    (DecodeAudioFrames setup envs w).2.Ordered := by
  have h0 : (DecodeAudioFrames.start setup w).Ordered := by
    simp [AudioWorker.Ordered, DecodeAudioFrames.start, hlog, OrderedFrom, boundAfter]
  have h1 := mainLoop_ordered envs _ h0
  simp only [DecodeAudioFrames]
  generalize DecodeAudioFrames.mainLoop envs (DecodeAudioFrames.start setup w) = r at h1
  obtain ⟨c, w1⟩ := r
  cases c <;> exact h1

theorem ptsSegments_sorted (b : Option Int) (evs : List AudioEvent) (h : OrderedFrom b evs) :
    (∀ seg ∈ ptsSegments evs, seg.Sorted (· ≤ ·)) ∧
    (∀ l, b = some l → ∀ seg, (ptsSegments evs).head? = some seg → ∀ x ∈ seg, l ≤ x) := by
  induction evs generalizing b with
  | nil =>
    constructor
    · intro seg hseg
      simp only [ptsSegments, List.mem_singleton] at hseg
      subst hseg
      exact List.sorted_nil
    · intro l _ seg hseg x hx
      simp only [ptsSegments, List.head?_cons, Option.some.injEq] at hseg
      subst hseg
      simp at hx
  | cons ev rest ih =>
    cases ev with
    | AddAudioData d p f =>
      obtain ⟨hb, hrest⟩ := h
      obtain ⟨ih1, ih2⟩ := ih (some p) hrest
      simp only [ptsSegments]
      cases hseg : ptsSegments rest with
      | nil =>
        constructor
        · intro seg hs
          simp only [List.mem_singleton] at hs
          subst hs
          exact List.sorted_singleton p
        · intro l hl seg hs x hx
          simp only [List.head?_cons, Option.some.injEq] at hs
          subst hs
          simp only [List.mem_singleton] at hx
          subst hx
          exact hb l hl
      | cons seg0 segs =>
        rw [hseg] at ih1 ih2
        have hge : ∀ x ∈ seg0, p ≤ x := ih2 p rfl seg0 rfl
        constructor
        · intro seg hs
          rcases List.mem_cons.mp hs with h1 | h1
          · subst h1
            exact List.sorted_cons.mpr ⟨hge, ih1 seg0 (List.mem_cons_self _ _)⟩
          · exact ih1 seg (List.mem_cons_of_mem _ h1)
        · intro l hl seg hs x hx
          simp only [List.head?_cons, Option.some.injEq] at hs
          subst hs
          rcases List.mem_cons.mp hx with h1 | h1
          · subst h1; exact hb l hl
          · exact le_trans (hb l hl) (hge x h1)
    | flush =>
      obtain ⟨ih1, _⟩ := ih none h
      simp only [ptsSegments]
      constructor
      · intro seg hs
        rcases List.mem_cons.mp hs with h1 | h1
        · subst h1; exact List.sorted_nil
        · exact ih1 seg h1
      · intro l _ seg hs x hx
        simp only [List.head?_cons, Option.some.injEq] at hs
        subst hs
        simp at hx

theorem ptsSegments_no_flush (evs : List AudioEvent) (h : AudioEvent.flush ∉ evs) :
    ptsSegments evs = [addedPts evs] := by
  induction evs with
  | nil => rfl
  | cons ev rest ih =>
    cases ev with
    | AddAudioData d p f =>
      have := ih (fun hm => h (List.mem_cons_of_mem _ hm))
      simp only [ptsSegments, addedPts, this]
    | flush => exact absurd (List.mem_cons_self _ _) h

/-- C8 as stated fails: the worker forwards a packet with PTS 100, the demuxer
then flushes the queue and pushes a packet with PTS 50 (a seek backwards), the
worker pops the sentinel and then forwards the second packet: the PTS values
passed to `AddAudioData` are 100 and then 50. -/
theorem audio_pts_drops_after_flush :
    addedPts (DecodeAudioFrames sampleAudioOut
        [sampleIter [], sampleIter [ProducerOp.flush, ProducerOp.push (samplePacket 50)],
          sampleIter []]
        (sampleWorker [ProducerOp.push (samplePacket 100)])).2.log = [100, 50] ∧
    ¬ (addedPts (DecodeAudioFrames sampleAudioOut
        [sampleIter [], sampleIter [ProducerOp.flush, ProducerOp.push (samplePacket 50)],
          sampleIter []]
        (sampleWorker [ProducerOp.push (samplePacket 100)])).2.log).Sorted (· ≤ ·) := by
  decide

/-- C8, amended: in every run of the audio worker, over any inputs and any
actions of the other threads, the PTS values passed to successive `AddAudioData`
calls between two pops of the flush sentinel (and before the first and after the
last one) form a non-decreasing sequence; in a run in which the worker pops no
sentinel the whole sequence is non-decreasing. -/
theorem audio_pts_sorted_between_flushes (setup : AudioDescription)
    (envs : List AudioIterEnv) (w : AudioWorker) (hlog : w.log = []) :
    (∀ seg ∈ ptsSegments (DecodeAudioFrames setup envs w).2.log, seg.Sorted (· ≤ ·)) ∧
    (AudioEvent.flush ∉ (DecodeAudioFrames setup envs w).2.log →
      (addedPts (DecodeAudioFrames setup envs w).2.log).Sorted (· ≤ ·)) := by
  have h := (DecodeAudioFrames_ordered setup envs w hlog).1
  have h1 := (ptsSegments_sorted none _ h).1
  refine ⟨h1, ?_⟩
  intro hno
  have h2 := ptsSegments_no_flush _ hno
  exact h1 _ (by rw [h2]; exact List.mem_singleton_self _)

/-- C8, amended, on a sample run of three packets without a flush: the sequence
of PTS values is non-decreasing. -/
theorem audio_pts_sorted_between_flushes_witness :
    (sampleWorker [ProducerOp.push (samplePacket 100)]).log = [] ∧
    (addedPts (DecodeAudioFrames sampleAudioOut
        [sampleIter [], sampleIter [ProducerOp.push (samplePacket 50)],
          sampleIter [ProducerOp.push (samplePacket 120)]]
        (sampleWorker [ProducerOp.push (samplePacket 100)])).2.log).Sorted (· ≤ ·) :=
  ⟨rfl, (audio_pts_sorted_between_flushes sampleAudioOut
      [sampleIter [], sampleIter [ProducerOp.push (samplePacket 50)],
        sampleIter [ProducerOp.push (samplePacket 120)]]
      (sampleWorker [ProducerOp.push (samplePacket 100)]) rfl).2 (by decide!)⟩

/-- C9 as stated fails: after a packet with PTS 100 the worker also forwards a
packet with PTS 50 and a packet with an unknown PTS, each with one call of
`AddAudioData` that carries the unchanged mark 100. -/
theorem audio_forwards_without_pts_advance :
    (DecodeAudioFrames sampleAudioOut
        [sampleIter [], sampleIter [ProducerOp.push (samplePacket 50)],
          sampleIter [ProducerOp.push (samplePacket AV_NOPTS_VALUE)]]
        (sampleWorker [ProducerOp.push (samplePacket 100)])).2.log =
      [AudioEvent.AddAudioData 16 100 4, AudioEvent.AddAudioData 16 100 4,
        AudioEvent.AddAudioData 16 100 4] := by
  decide!

/-- C9, amended: a chunk is forwarded to the sink exactly when the decoder
reported no error for it, it has data and the frame count can be computed,
whatever the packet's PTS; the PTS comparison only decides the value passed: the
call carries the mark raised to the packet's PTS when that is known and strictly
greater than the mark, and the unchanged mark otherwise. Every call made for one
packet carries that same value, computed from the mark held before the packet. -/
theorem audio_forwards_every_chunk (e : ChunkEnv) (packet : AVPacket) (s : ChunkState)
    (chunks : List ChunkEnv) (index : Int) (context : AVCodecContext) (w : AudioWorker) :
    (∃ frames : Int,
      (DecodeAudioFrames.chunkBody e packet s).2.w.log =
        s.w.log ++
          (if 0 ≤ (DecodeAudioFrames.output e (DecodeAudioFrames.reselect e
                (DecodeAudioFrames.firstDecode e s))).used ∧
              0 < (DecodeAudioFrames.output e (DecodeAudioFrames.reselect e
                (DecodeAudioFrames.firstDecode e s))).datasize ∧
              (DecodeAudioFrames.chunkBody e packet s).1 ≠ Control.crash then
            [AudioEvent.AddAudioData
              (DecodeAudioFrames.output e (DecodeAudioFrames.reselect e
                (DecodeAudioFrames.firstDecode e s))).datasize
              (raisedPts packet s.w.m_audioPts) frames]
          else [])) ∧
    (∃ evs : List AudioEvent,
      (DecodeAudioFrames.decodePacket chunks index context packet w).2.log = w.log ++ evs ∧
      ∀ ev ∈ evs, ∃ d f,
        ev = AudioEvent.AddAudioData d (raisedPts packet w.m_audioPts) f) := by
  constructor
  · have hcb : DecodeAudioFrames.chunkBody e packet s =
        DecodeAudioFrames.deliver packet (DecodeAudioFrames.output e
          (DecodeAudioFrames.reselect e (DecodeAudioFrames.firstDecode e s))) := rfl
    rw [hcb]
    generalize hs1 : DecodeAudioFrames.output e
      (DecodeAudioFrames.reselect e (DecodeAudioFrames.firstDecode e s)) = s1
    have hlog : s1.w.log = s.w.log := by
      rw [← hs1, (output_log _ _).1, (reselect_log _ _).1, firstDecode_w]
    have hpts : s1.w.m_audioPts = s.w.m_audioPts := by
      rw [← hs1, (output_log _ _).2, (reselect_log _ _).2, firstDecode_w]
    obtain ⟨frames, h1, _⟩ := deliver_log packet s1
    rw [hlog, hpts] at h1
    exact ⟨frames, h1⟩
  · obtain ⟨evs, h1, h2, _⟩ := decodePacket_log chunks index context packet w
    exact ⟨evs, h1, h2⟩

/-! ## Theorems: demuxer loop -/

theorem QueueExtends_refl (q : TorcPacketQueue) : QueueExtends q q :=
  ⟨[], by simp⟩

theorem QueueExtends_push (q : TorcPacketQueue) (p : AVPacket) : QueueExtends q (q.Push p) :=
  ⟨[p], by simp [TorcPacketQueue.Push]⟩

theorem QueueExtends_trans (q1 q2 q3 : TorcPacketQueue) (h1 : QueueExtends q1 q2)
    (h2 : QueueExtends q2 q3) : QueueExtends q1 q3 := by
  obtain ⟨l1, h1⟩ := h1
  obtain ⟨l2, h2⟩ := h2
  exact ⟨l1 ++ l2, by rw [h2, h1, List.map_append, List.append_assoc]⟩

theorem Extends_refl (d : Demuxer) : d.Extends d :=
  ⟨rfl, QueueExtends_refl _, QueueExtends_refl _, QueueExtends_refl _⟩

theorem Extends_trans (d1 d2 d3 : Demuxer) (h1 : d1.Extends d2) (h2 : d2.Extends d3) :
    d1.Extends d3 :=
  ⟨h2.1.trans h1.1, QueueExtends_trans _ _ _ h1.2.1 h2.2.1,
    QueueExtends_trans _ _ _ h1.2.2.1 h2.2.2.1, QueueExtends_trans _ _ _ h1.2.2.2 h2.2.2.2⟩

theorem eofVideo_extends (d : Demuxer) : d.Extends (DemuxPackets.eofVideo d).2 := by
  simp only [DemuxPackets.eofVideo]
  split_ifs
  · cases d.packet with
    | none => exact Extends_refl d
    | some p => exact ⟨rfl, QueueExtends_push _ _, QueueExtends_refl _, QueueExtends_refl _⟩
  · exact Extends_refl d

theorem eofAudio_extends (env : DemuxEnv) (d : Demuxer) :
    d.Extends (DemuxPackets.eofAudio env d).2 := by
  simp only [DemuxPackets.eofAudio]
  split_ifs
  · cases d.packet with
    | none => exact Extends_refl d
    | some p => exact ⟨rfl, QueueExtends_refl _, QueueExtends_push _ _, QueueExtends_refl _⟩
  · exact Extends_refl d
  · exact Extends_refl d

theorem eofPushes_extends (env : DemuxEnv) (d : Demuxer) :
    d.Extends (DemuxPackets.eofPushes env d).2 := by
  simp only [DemuxPackets.eofPushes]
  split_ifs
  · have h1 : d.Extends (DemuxPackets.eofVideo { d with waseof := true }).2 :=
      eofVideo_extends { d with waseof := true }
    generalize DemuxPackets.eofVideo { d with waseof := true } = r at h1
    obtain ⟨c, d1⟩ := r
    cases c
    · exact Extends_trans _ _ _ h1 (eofAudio_extends env d1)
    · exact h1
    · exact h1
    · exact h1
  · exact Extends_refl d

theorem eofWait_extends (env : DemuxEnv) (d : Demuxer) :
    d.Extends (DemuxPackets.eofWait env d).2 := by
  simp only [DemuxPackets.eofWait]
  split_ifs <;> exact Extends_refl d

theorem readAndRoute_extends (env : DemuxEnv) (d : Demuxer) :
    d.Extends (DemuxPackets.readAndRoute env d).2 := by
  simp only [DemuxPackets.readAndRoute]
  split_ifs
  · exact Extends_refl d
  · exact Extends_refl d
  · exact Extends_refl d
  · exact ⟨rfl, QueueExtends_push _ _, QueueExtends_refl _, QueueExtends_refl _⟩
  · exact ⟨rfl, QueueExtends_refl _, QueueExtends_push _ _, QueueExtends_refl _⟩
  · exact ⟨rfl, QueueExtends_refl _, QueueExtends_refl _, QueueExtends_push _ _⟩
  · exact Extends_refl d

theorem afterSeek_extends (env : DemuxEnv) (d : Demuxer) :
    d.Extends (DemuxPackets.afterSeek env d).2 := by
  simp only [DemuxPackets.afterSeek]
  split_ifs with h1 h2 h3 h4 h5
  · exact Extends_refl d
  · exact Extends_refl d
  · have h6 : d.Extends (DemuxPackets.eofPushes env { d with packet := some newPacket }).2 :=
      eofPushes_extends env { d with packet := some newPacket }
    generalize DemuxPackets.eofPushes env { d with packet := some newPacket } = r at h6
    obtain ⟨c, d1⟩ := r
    cases c
    · exact Extends_trans _ _ _ h6 (eofWait_extends env d1)
    · exact h6
    · exact h6
    · exact h6
  · exact readAndRoute_extends env { d with packet := some newPacket }
  · have h6 := eofPushes_extends env d
    generalize DemuxPackets.eofPushes env d = r at h6
    obtain ⟨c, d1⟩ := r
    cases c
    · exact Extends_trans _ _ _ h6 (eofWait_extends env d1)
    · exact h6
    · exact h6
    · exact h6
  · exact readAndRoute_extends env d

theorem Seek_iterate (d : Demuxer) (n : Nat) :
    Nat.iterate Demuxer.Seek (n + 1) d = d.Seek := by
  induction n with
  | zero => rfl
  | succ n ih =>
    rw [Function.iterate_succ_apply', ih]
    simp only [Demuxer.Seek]
    cases h : d.m_seek <;> simp [h]

theorem iteration_reaches (env : DemuxEnv) (d : Demuxer) (h : d.reachesSeek = true) :
    DemuxPackets.iteration env d =
      DemuxPackets.afterSeek env (DemuxPackets.seekStep env.av_seek_frame d) := by
  simp only [Demuxer.reachesSeek, Bool.and_eq_true, bne_iff_ne, ne_eq] at h
  obtain ⟨⟨⟨⟨h1, h2⟩, h3⟩, h4⟩, h5⟩ := h
  have ht : DemuxPackets.transition env d = none := by
    simp [DemuxPackets.transition, h2, h3, h4, h5]
  simp only [DemuxPackets.iteration, h1, Bool.not_true, Bool.false_eq_true, if_false, ht]

theorem iteration_skips (env : DemuxEnv) (d : Demuxer) (h : d.reachesSeek = false) :
    (DemuxPackets.iteration env d).2.m_seek = d.m_seek ∧
    (DemuxPackets.iteration env d).2.m_videoThread.m_queue = d.m_videoThread.m_queue ∧
    (DemuxPackets.iteration env d).2.m_audioThread.m_queue = d.m_audioThread.m_queue ∧
    (DemuxPackets.iteration env d).2.m_subtitleThread.m_queue = d.m_subtitleThread.m_queue := by
  by_cases hl : DemuxPackets.loopCondition d = true
  · cases ht : DemuxPackets.transition env d with
    | some d1 =>
      have hit : DemuxPackets.iteration env d = (Control.next, d1) := by
        simp [DemuxPackets.iteration, hl, ht]
      rw [hit]
      simp only [DemuxPackets.transition] at ht
      split_ifs at ht <;> cases ht <;> exact ⟨rfl, rfl, rfl, rfl⟩
    | none =>
      exfalso
      simp only [DemuxPackets.transition] at ht
      split_ifs at ht with h1 h2 h3 h4 h5 h6
      simp only [beq_iff_eq] at h1 h3 h5 h6
      simp [Demuxer.reachesSeek, hl, h1, h3, h5, h6] at h
  · have hit : DemuxPackets.iteration env d = (Control.exit, d) := by
      simp [DemuxPackets.iteration, hl]
    rw [hit]
    exact ⟨rfl, rfl, rfl, rfl⟩

theorem seekStep_spec (x : Int) (d : Demuxer) (hseek : d.m_seek = true) :
    (DemuxPackets.seekStep x d).m_seek = false ∧
    (0 ≤ x →
      (DemuxPackets.seekStep x d).m_videoThread.m_queue.m_queue = [PacketPtr.flushCodec] ∧
      (DemuxPackets.seekStep x d).m_audioThread.m_queue.m_queue = [PacketPtr.flushCodec] ∧
      (DemuxPackets.seekStep x d).m_subtitleThread.m_queue.m_queue = [PacketPtr.flushCodec]) ∧
    (x < 0 →
      (DemuxPackets.seekStep x d).m_videoThread = d.m_videoThread ∧
      (DemuxPackets.seekStep x d).m_audioThread = d.m_audioThread ∧
      (DemuxPackets.seekStep x d).m_subtitleThread = d.m_subtitleThread) := by
  refine ⟨?_, ?_, ?_⟩
  · simp [DemuxPackets.seekStep, hseek]
  · intro hx
    have : ¬ x < 0 := by omega
    simp [DemuxPackets.seekStep, hseek, this, TorcDecoderThread.flush, Flush_queue]
  · intro hx
    simp [DemuxPackets.seekStep, hseek, hx]

/-- C10 as stated fails: a pass of the demuxer loop in state `Pausing` with a
seek pending ends before the seek block, so the latch is still set and the video
queue still holds its old packet; and a pass in state `Running` whose seek
succeeds goes on to read a packet, so at its end the video queue holds the
sentinel followed by that packet. -/
theorem seek_pending_not_cleared :
    (DemuxPackets.iteration sampleDemuxEnv (sampleDemuxer DecoderState.Pausing)).2.m_seek
      = true ∧
    (DemuxPackets.iteration sampleDemuxEnv
        (sampleDemuxer DecoderState.Pausing)).2.m_videoThread.m_queue.m_queue =
      [PacketPtr.heap { samplePacket 10 with stream_index := 0 }] ∧
    (DemuxPackets.iteration sampleDemuxEnv
        (sampleDemuxer DecoderState.Running)).2.m_videoThread.m_queue.m_queue =
      [PacketPtr.flushCodec, PacketPtr.heap { samplePacket 20 with stream_index := 0 }] := by
  decide

/-- C10, amended: in a pass of the demuxer loop that has a seek pending and
gets as far as the seek block, the latch is clear at the end of the pass; if the
seek succeeds, each of the three queues holds exactly the flush sentinel right
after the seek block, and at the end of the pass each still starts with the
sentinel, followed only by packets pushed in this pass; if the seek fails, the
seek block leaves the three queues as they were. A pass that does not get as far
as the seek block leaves the latch and the three queues as they were. Calling
`Seek` `n + 1` times has the same effect as calling it once. -/
theorem seek_flushes_all_queues (env : DemuxEnv) (d : Demuxer) (n : Nat) :
    (d.m_seek = true → d.reachesSeek = true →
      (DemuxPackets.iteration env d).2.m_seek = false ∧
      (0 ≤ env.av_seek_frame →
        ((DemuxPackets.seekStep env.av_seek_frame d).m_videoThread.m_queue.m_queue =
            [PacketPtr.flushCodec] ∧
          (DemuxPackets.seekStep env.av_seek_frame d).m_audioThread.m_queue.m_queue =
            [PacketPtr.flushCodec] ∧
          (DemuxPackets.seekStep env.av_seek_frame d).m_subtitleThread.m_queue.m_queue =
            [PacketPtr.flushCodec]) ∧
        (∃ pushed : List AVPacket,
          (DemuxPackets.iteration env d).2.m_videoThread.m_queue.m_queue =
            PacketPtr.flushCodec :: pushed.map PacketPtr.heap) ∧
        (∃ pushed : List AVPacket,
          (DemuxPackets.iteration env d).2.m_audioThread.m_queue.m_queue =
            PacketPtr.flushCodec :: pushed.map PacketPtr.heap) ∧
        (∃ pushed : List AVPacket,
          (DemuxPackets.iteration env d).2.m_subtitleThread.m_queue.m_queue =
            PacketPtr.flushCodec :: pushed.map PacketPtr.heap)) ∧
      (env.av_seek_frame < 0 →
        (DemuxPackets.seekStep env.av_seek_frame d).m_videoThread = d.m_videoThread ∧
        (DemuxPackets.seekStep env.av_seek_frame d).m_audioThread = d.m_audioThread ∧
        (DemuxPackets.seekStep env.av_seek_frame d).m_subtitleThread = d.m_subtitleThread)) ∧
    (d.reachesSeek = false →
      (DemuxPackets.iteration env d).2.m_seek = d.m_seek ∧
      (DemuxPackets.iteration env d).2.m_videoThread.m_queue = d.m_videoThread.m_queue ∧
      (DemuxPackets.iteration env d).2.m_audioThread.m_queue = d.m_audioThread.m_queue ∧
      (DemuxPackets.iteration env d).2.m_subtitleThread.m_queue =
        d.m_subtitleThread.m_queue) ∧
    (Nat.iterate Demuxer.Seek (n + 1) d = d.Seek ∧
      DemuxPackets.iteration env (Nat.iterate Demuxer.Seek (n + 1) d) =
        DemuxPackets.iteration env d.Seek) := by
  refine ⟨?_, iteration_skips env d, Seek_iterate d n, by rw [Seek_iterate]⟩
  intro hseek hreach
  obtain ⟨h1, h2, h3⟩ := seekStep_spec env.av_seek_frame d hseek
  have hext := afterSeek_extends env (DemuxPackets.seekStep env.av_seek_frame d)
  rw [← iteration_reaches env d hreach] at hext
  obtain ⟨e1, e2, e3, e4⟩ := hext
  refine ⟨by rw [e1, h1], ?_, h3⟩
  intro hx
  obtain ⟨q1, q2, q3⟩ := h2 hx
  refine ⟨⟨q1, q2, q3⟩, ?_, ?_, ?_⟩
  · obtain ⟨l, hl⟩ := e2
    exact ⟨l, by rw [hl, q1]; rfl⟩
  · obtain ⟨l, hl⟩ := e3
    exact ⟨l, by rw [hl, q2]; rfl⟩
  · obtain ⟨l, hl⟩ := e4
    exact ⟨l, by rw [hl, q3]; rfl⟩

/-- C10, amended, on the sample demuxer in state `Running` with a seek that
succeeds: the latch is clear at the end of the pass. -/
theorem seek_flushes_all_queues_witness :
    (sampleDemuxer DecoderState.Running).m_seek = true ∧
    (sampleDemuxer DecoderState.Running).reachesSeek = true ∧
    (DemuxPackets.iteration sampleDemuxEnv (sampleDemuxer DecoderState.Running)).2.m_seek
      = false :=
  ⟨rfl, by decide,
    ((seek_flushes_all_queues sampleDemuxEnv (sampleDemuxer DecoderState.Running) 0).1 rfl
      (by decide)).1⟩

/-! ## Theorems: audio backlog -/

theorem eofVideo_audio (d : Demuxer) :
    (DemuxPackets.eofVideo d).2.m_audioThread = d.m_audioThread := by
  simp only [DemuxPackets.eofVideo]
  split_ifs
  · cases d.packet <;> rfl
  · rfl

theorem eofAudio_audio (env : DemuxEnv) (d : Demuxer) :
    (DemuxPackets.eofAudio env d).2.m_audioThread.m_queue = d.m_audioThread.m_queue ∨
    ∃ p : AVPacket, p.size = 0 ∧
      (DemuxPackets.eofAudio env d).2.m_audioThread.m_queue = d.m_audioThread.m_queue.Push p := by
  simp only [DemuxPackets.eofAudio]
  split_ifs
  · cases d.packet with
    | none => exact Or.inl rfl
    | some pk => exact Or.inr ⟨DemuxPackets.emptyPacket pk d.videoStream, rfl, rfl⟩
  · exact Or.inl rfl
  · exact Or.inl rfl

theorem eofPushes_audio (env : DemuxEnv) (d : Demuxer) :
    (DemuxPackets.eofPushes env d).2.m_audioThread.m_queue = d.m_audioThread.m_queue ∨
    ∃ p : AVPacket, p.size = 0 ∧
      (DemuxPackets.eofPushes env d).2.m_audioThread.m_queue =
        d.m_audioThread.m_queue.Push p := by
  simp only [DemuxPackets.eofPushes]
  split_ifs
  · have h1 : (DemuxPackets.eofVideo { d with waseof := true }).2.m_audioThread =
        d.m_audioThread := eofVideo_audio { d with waseof := true }
    generalize DemuxPackets.eofVideo { d with waseof := true } = r at h1
    obtain ⟨c, d1⟩ := r
    simp only at h1
    cases c
    · have h2 := eofAudio_audio env d1
      rw [h1] at h2
      exact h2
    · exact Or.inl (by rw [h1])
    · exact Or.inl (by rw [h1])
    · exact Or.inl (by rw [h1])
  · exact Or.inl rfl

theorem eofWait_same (env : DemuxEnv) (d : Demuxer) : (DemuxPackets.eofWait env d).2 = d := by
  simp only [DemuxPackets.eofWait]
  split_ifs <;> rfl

theorem readAndRoute_audio (env : DemuxEnv) (d : Demuxer) :
    (DemuxPackets.readAndRoute env d).2.m_audioThread.m_queue = d.m_audioThread.m_queue ∨
    (DemuxPackets.readAndRoute env d).2.m_audioThread.m_queue =
      d.m_audioThread.m_queue.Push env.frame := by
  simp only [DemuxPackets.readAndRoute]
  split_ifs
  · exact Or.inl rfl
  · exact Or.inl rfl
  · exact Or.inl rfl
  · exact Or.inl rfl
  · exact Or.inr rfl
  · exact Or.inl rfl
  · exact Or.inl rfl

theorem eofBranch_audio (env : DemuxEnv) (d : Demuxer) :
    (match DemuxPackets.eofPushes env d with
      | (Control.next, d1) => DemuxPackets.eofWait env d1
      | (c, d1) => (c, d1)).2.m_audioThread.m_queue = d.m_audioThread.m_queue ∨
    ∃ p : AVPacket, p.size = 0 ∧
      (match DemuxPackets.eofPushes env d with
        | (Control.next, d1) => DemuxPackets.eofWait env d1
        | (c, d1) => (c, d1)).2.m_audioThread.m_queue = d.m_audioThread.m_queue.Push p := by
  have h := eofPushes_audio env d
  generalize DemuxPackets.eofPushes env d = r at h
  obtain ⟨c, d1⟩ := r
  cases c
  · simp only [eofWait_same]
    exact h
  · exact h
  · exact h
  · exact h

/-- What a pass does to the audio queue after the seek block: nothing, or one
`Push` of the packet read or of an empty packet, made while the byte size is at
most `MAX_QUEUE_SIZE_AUDIO`. -/
theorem afterSeek_audio (env : DemuxEnv) (d : Demuxer) :
    (DemuxPackets.afterSeek env d).2.m_audioThread.m_queue = d.m_audioThread.m_queue ∨
    (d.m_audioThread.m_queue.Size ≤ MAX_QUEUE_SIZE_AUDIO ∧
      ∃ p : AVPacket, (p = env.frame ∨ p.size = 0) ∧
        (DemuxPackets.afterSeek env d).2.m_audioThread.m_queue =
          d.m_audioThread.m_queue.Push p) := by
  simp only [DemuxPackets.afterSeek]
  split_ifs with h1 h2 h3 h4 h5
  · exact Or.inl rfl
  · exact Or.inl rfl
  · have hs : d.m_audioThread.m_queue.Size ≤ MAX_QUEUE_SIZE_AUDIO := by omega
    rcases eofBranch_audio env { d with packet := some newPacket } with h | ⟨p, hp, h⟩
    · exact Or.inl h
    · exact Or.inr ⟨hs, p, Or.inr hp, h⟩
  · have hs : d.m_audioThread.m_queue.Size ≤ MAX_QUEUE_SIZE_AUDIO := by omega
    rcases readAndRoute_audio env { d with packet := some newPacket } with h | h
    · exact Or.inl h
    · exact Or.inr ⟨hs, env.frame, Or.inl rfl, h⟩
  · have hs : d.m_audioThread.m_queue.Size ≤ MAX_QUEUE_SIZE_AUDIO := by omega
    rcases eofBranch_audio env d with h | ⟨p, hp, h⟩
    · exact Or.inl h
    · exact Or.inr ⟨hs, p, Or.inr hp, h⟩
  · have hs : d.m_audioThread.m_queue.Size ≤ MAX_QUEUE_SIZE_AUDIO := by omega
    rcases readAndRoute_audio env d with h | h
    · exact Or.inl h
    · exact Or.inr ⟨hs, env.frame, Or.inl rfl, h⟩

/-- What a pass of the demuxer loop does to the audio queue: nothing beyond the
flush of the seek block, or one `Push` made while the byte size is at most
`MAX_QUEUE_SIZE_AUDIO`. -/
theorem iteration_audio (env : DemuxEnv) (d : Demuxer) :
    (DemuxPackets.iteration env d).2.m_audioThread.m_queue = audioQueueBeforePush env d ∨
    ((audioQueueBeforePush env d).Size ≤ MAX_QUEUE_SIZE_AUDIO ∧
      ∃ p : AVPacket, (p = env.frame ∨ p.size = 0) ∧
        (DemuxPackets.iteration env d).2.m_audioThread.m_queue =
          (audioQueueBeforePush env d).Push p) := by
  unfold audioQueueBeforePush
  cases hr : d.reachesSeek
  · simp only [Bool.false_eq_true, if_false]
    exact Or.inl (iteration_skips env d hr).2.2.1
  · simp only [if_true]
    rw [iteration_reaches env d hr]
    exact afterSeek_audio env _

theorem Backlog_flush (B : Int) (q : TorcPacketQueue) (hB : 0 ≤ B) (h : q.Backlog B) :
    (q.Flush true).Backlog B := by
  rw [Flush_consistent true q h.1]
  refine ⟨?_, ?_, ?_⟩
  · simp [TorcPacketQueue.Consistent, accountedSize, PacketPtr.deref, gFlushCodec]
  · intro p hp
    simp only [if_true, List.mem_singleton] at hp
    subst hp
    simp [PacketPtr.deref, gFlushCodec]
  · simp only [if_true, TorcPacketQueue.Size, sizeofPtr, MAX_QUEUE_SIZE_AUDIO]
    omega

theorem Backlog_pop (B : Int) (q : TorcPacketQueue) (h : q.Backlog B) : q.Pop.2.Backlog B := by
  obtain ⟨hc, hs, hb⟩ := h
  refine ⟨Pop_consistent q hc, ?_, ?_⟩
  · obtain ⟨len, sz, l⟩ := q
    cases l with
    | nil => exact hs
    | cons a rest => exact fun p hp => hs p (List.mem_cons_of_mem _ hp)
  · obtain ⟨len, sz, l⟩ := q
    cases l with
    | nil => exact hb
    | cons a rest =>
      have ha := hs a (List.mem_cons_self _ _)
      simp only [TorcPacketQueue.Pop, TorcPacketQueue.Size, sizeofPtr] at hb ⊢
      omega

theorem Backlog_push (B : Int) (q : TorcPacketQueue) (p : AVPacket) (h : q.Backlog B)
    (hq : q.Size ≤ MAX_QUEUE_SIZE_AUDIO) (hp0 : 0 ≤ p.size)
    (hpB : accountedSize (PacketPtr.heap p) ≤ B) : (q.Push p).Backlog B := by
  obtain ⟨hc, hs, _⟩ := h
  refine ⟨Push_consistent q p hc, ?_, ?_⟩
  · intro x hx
    simp only [TorcPacketQueue.Push, List.mem_append, List.mem_singleton] at hx
    rcases hx with hx | hx
    · exact hs x hx
    · subst hx; exact hp0
  · simp only [TorcPacketQueue.Push, TorcPacketQueue.Size, accountedSize,
      PacketPtr.deref] at hq hpB ⊢
    omega

theorem Backlog_beforePush (B : Int) (env : DemuxEnv) (d : Demuxer) (hB : 0 ≤ B)
    (h : d.m_audioThread.m_queue.Backlog B) : (audioQueueBeforePush env d).Backlog B := by
  unfold audioQueueBeforePush
  split_ifs
  · simp only [DemuxPackets.seekStep]
    split_ifs
    · exact h
    · exact Backlog_flush B _ hB h
    · exact h
  · exact h

theorem Backlog_iteration (B : Int) (env : DemuxEnv) (d : Demuxer) (hB : 0 ≤ B)
    (henv : 0 ≤ env.frame.size ∧ accountedSize (PacketPtr.heap env.frame) ≤ B)
    (h : d.m_audioThread.m_queue.Backlog B) :
    (DemuxPackets.iteration env d).2.m_audioThread.m_queue.Backlog B := by
  have h0 := Backlog_beforePush B env d hB h
  rcases iteration_audio env d with h1 | ⟨hs, p, hp, h1⟩
  · rw [h1]; exact h0
  · rw [h1]
    rcases hp with hp | hp
    · subst hp
      exact Backlog_push B _ _ h0 hs henv.1 henv.2
    · refine Backlog_push B _ _ h0 hs (by omega) ?_
      have h8 : sizeofPtr ≤ B := by
        have := henv.1
        have := henv.2
        simp only [accountedSize, PacketPtr.deref] at this
        omega
      simp only [accountedSize, PacketPtr.deref, hp]
      omega

theorem Backlog_step (B : Int) (step : DemuxStep) (s : Control × Demuxer) (hB : 0 ≤ B)
    (hstep : ∀ env ∈ demuxEnvs [step],
      0 ≤ env.frame.size ∧ accountedSize (PacketPtr.heap env.frame) ≤ B)
    (h : s.2.m_audioThread.m_queue.Backlog B) :
    (step.apply s).2.m_audioThread.m_queue.Backlog B := by
  cases step with
  | demux env =>
    simp only [DemuxStep.apply]
    split_ifs
    · exact Backlog_iteration B env s.2 hB (hstep env (by simp [demuxEnvs])) h
    · exact h
  | audioPop => exact Backlog_pop B _ h
  | audioFlush => exact Backlog_flush B _ hB h

theorem Backlog_run (B : Int) (steps : List DemuxStep) (s : Control × Demuxer) (hB : 0 ≤ B)
    (hsteps : ∀ env ∈ demuxEnvs steps,
      0 ≤ env.frame.size ∧ accountedSize (PacketPtr.heap env.frame) ≤ B)
    (h : s.2.m_audioThread.m_queue.Backlog B) :
    (steps.foldl DemuxStep.apply s).2.m_audioThread.m_queue.Backlog B := by
  induction steps generalizing s with
  | nil => exact h
  | cons step rest ih =>
    rw [List.foldl_cons]
    apply ih
    · intro env henv
      apply hsteps env
      cases step <;> simp [demuxEnvs, henv]
    · apply Backlog_step B step s hB _ h
      intro env henv
      apply hsteps env
      cases step <;> simp_all [demuxEnvs]

/-- C11: in every pass of the demuxer loop the audio queue is left as it was
before the push (after the flush of the seek block, if any) or gets exactly one
`Push`, and a `Push` is made only while the byte size is at most
`MAX_QUEUE_SIZE_AUDIO` = 327680, so the size after it is at most that plus the
accounted size of the pushed packet. Hence in every run of demuxer passes,
worker pops and worker flushes that starts within the bound and reads only
packets whose size is not negative and whose accounted size is at most `B`, the
byte size of the audio queue never exceeds `MAX_QUEUE_SIZE_AUDIO + B`. -/
theorem audio_queue_bounded (env : DemuxEnv) (d : Demuxer) (B : Int)
    (steps : List DemuxStep) :
    MAX_QUEUE_SIZE_AUDIO = 327680 ∧
    ((DemuxPackets.iteration env d).2.m_audioThread.m_queue = audioQueueBeforePush env d ∨
      ((audioQueueBeforePush env d).Size ≤ MAX_QUEUE_SIZE_AUDIO ∧
        ∃ p : AVPacket,
          (DemuxPackets.iteration env d).2.m_audioThread.m_queue =
            (audioQueueBeforePush env d).Push p ∧
          (DemuxPackets.iteration env d).2.m_audioThread.m_queue.Size ≤
            MAX_QUEUE_SIZE_AUDIO + accountedSize (PacketPtr.heap p))) ∧
    (0 ≤ B → d.m_audioThread.m_queue.Backlog B →
      (∀ e ∈ demuxEnvs steps,
        0 ≤ e.frame.size ∧ accountedSize (PacketPtr.heap e.frame) ≤ B) →
      (runDemux steps d).2.m_audioThread.m_queue.Size ≤ MAX_QUEUE_SIZE_AUDIO + B) := by
  refine ⟨by decide, ?_, ?_⟩
  · rcases iteration_audio env d with h1 | ⟨hs, p, _, h1⟩
    · exact Or.inl h1
    · refine Or.inr ⟨hs, p, h1, ?_⟩
      rw [h1]
      simp only [TorcPacketQueue.Push, TorcPacketQueue.Size, accountedSize,
        PacketPtr.deref] at hs ⊢
      omega
  · intro hB h hsteps
    exact (Backlog_run B steps (Control.next, d) hB hsteps h).2.2

/-- C11 on a sample run, a demuxer pass with a successful seek and a read
followed by a pop of the audio worker: the audio queue stays within 12 bytes
above `MAX_QUEUE_SIZE_AUDIO`. -/
theorem audio_queue_bounded_witness :
    (runDemux [DemuxStep.demux sampleDemuxEnv, DemuxStep.audioPop]
      (sampleDemuxer DecoderState.Running)).2.m_audioThread.m_queue.Size ≤
        MAX_QUEUE_SIZE_AUDIO + 12 :=
  (audio_queue_bounded sampleDemuxEnv (sampleDemuxer DecoderState.Running) 12
    [DemuxStep.demux sampleDemuxEnv, DemuxStep.audioPop]).2.2 (by decide)
    ⟨⟨by decide, by decide⟩, by decide, by decide⟩ (by decide)

/-! ## Theorems: workers at stop -/

theorem reselect_queue (e : ChunkEnv) (s : ChunkState) :
    (DecodeAudioFrames.reselect e s).w.m_queue = s.w.m_queue := by
  simp only [DecodeAudioFrames.reselect]
  split_ifs <;> rfl

theorem output_queue (e : ChunkEnv) (s : ChunkState) :
    (DecodeAudioFrames.output e s).w.m_queue = s.w.m_queue := by
  simp only [DecodeAudioFrames.output]
  split_ifs <;> rfl

theorem deliver_queue (packet : AVPacket) (s : ChunkState) :
    (DecodeAudioFrames.deliver packet s).2.w.m_queue = s.w.m_queue := by
  simp only [DecodeAudioFrames.deliver]
  by_cases h1 : s.used < 0
  · simp only [h1, if_true]
  · by_cases h2 : s.datasize ≤ 0
    · simp only [h1, h2, if_true, if_false]
    · by_cases h3 : (decide (s.context.channels ≤ 0) || decide (s.decodedsize < 0)) = true
      · simp only [h1, h2, h3, if_true, if_false]
      · by_cases h4 : s.context.channels * av_get_bytes_per_sample s.context.sample_fmt = 0
        · simp only [h1, h2, h3, h4, if_true, if_false, Bool.false_eq_true]
        · simp only [h1, h2, h3, h4, if_true, if_false, Bool.false_eq_true]

theorem chunkBody_queue (e : ChunkEnv) (packet : AVPacket) (s : ChunkState) :
    (DecodeAudioFrames.chunkBody e packet s).2.w.m_queue = s.w.m_queue := by
  unfold DecodeAudioFrames.chunkBody
  rw [deliver_queue, output_queue, reselect_queue, firstDecode_w]

theorem chunkLoop_queue (packet : AVPacket) (chunks : List ChunkEnv) (s : ChunkState) :
    (DecodeAudioFrames.chunkLoop packet chunks s).2.w.m_queue = s.w.m_queue := by
  induction chunks generalizing s with
  | nil =>
    simp only [DecodeAudioFrames.chunkLoop]
    split_ifs <;> rfl
  | cons e es ih =>
    simp only [DecodeAudioFrames.chunkLoop]
    split_ifs
    · have h1 := chunkBody_queue e packet s
      generalize DecodeAudioFrames.chunkBody e packet s = b at h1
      obtain ⟨c, s1⟩ := b
      cases c
      · simp only
        rw [ih s1]
        exact h1
      · exact h1
      · exact h1
      · exact h1
    · rfl

theorem decodePacket_queue (chunks : List ChunkEnv) (index : Int) (context : AVCodecContext)
    (packet : AVPacket) (w : AudioWorker) :
    (DecodeAudioFrames.decodePacket chunks index context packet w).2.m_queue = w.m_queue := by
  simp only [DecodeAudioFrames.decodePacket]
  exact chunkLoop_queue packet chunks _

theorem audio_process_consistent (env : AudioIterEnv) (w : AudioWorker)
    (h : w.m_queue.Consistent) : (DecodeAudioFrames.process env w).2.m_queue.Consistent := by
  have hp := Pop_consistent w.m_queue h
  simp only [DecodeAudioFrames.process]
  split
  · split
    · rename_i q heq
      rw [heq] at hp
      exact hp
    · rename_i packet q heq
      rw [heq] at hp
      split
      · split
        · exact hp
        · rw [decodePacket_queue]
          exact hp
      · exact hp
    · rename_i q heq
      rw [heq] at hp
      split_ifs <;> exact hp
  · exact h

theorem audio_locked_consistent (env : AudioIterEnv) (w : AudioWorker)
    (h : w.m_queue.Consistent) : (DecodeAudioFrames.locked env w).2.m_queue.Consistent := by
  have h1 : (DecodeAudioFrames.applyRequest w).m_queue = w.m_queue := by
    simp only [DecodeAudioFrames.applyRequest]
    split_ifs <;> rfl
  simp only [DecodeAudioFrames.locked]
  split_ifs
  · rw [h1]; exact h
  · show (DecodeAudioFrames.applyRequest w).m_queue.Consistent
    rw [h1]; exact h
  · exact audio_process_consistent env _ (by rw [h1]; exact h)

theorem audio_iteration_consistent (env : AudioIterEnv) (w : AudioWorker)
    (h : w.m_queue.Consistent) :
    (DecodeAudioFrames.iteration env w).2.m_queue.Consistent := by
  have h1 : (env.before.apply w).m_queue.Consistent := runOps_consistent _ _ h
  have h2 : (env.atWait.apply (env.before.apply w)).m_queue.Consistent :=
    runOps_consistent _ _ h1
  simp only [DecodeAudioFrames.iteration]
  split_ifs
  · exact h1
  · exact h2
  · exact audio_locked_consistent env _ h2

theorem audio_mainLoop_consistent (envs : List AudioIterEnv) (w : AudioWorker)
    (h : w.m_queue.Consistent) :
    (DecodeAudioFrames.mainLoop envs w).2.m_queue.Consistent := by
  induction envs generalizing w with
  | nil => exact h
  | cons env envs ih =>
    simp only [DecodeAudioFrames.mainLoop]
    have h1 := audio_iteration_consistent env w h
    generalize DecodeAudioFrames.iteration env w = r at h1
    obtain ⟨c, w1⟩ := r
    cases c <;> first | exact ih w1 h1 | exact h1

/-- When the audio worker function returns, its state is `Stopped` and its queue
holds exactly the flush sentinel. -/
theorem audio_returns_stopped (setup : AudioDescription) (envs : List AudioIterEnv)
    (w : AudioWorker) (hexit : (DecodeAudioFrames setup envs w).1 = Control.exit) :
    (DecodeAudioFrames setup envs w).2.m_state = DecoderState.Stopped ∧
    (DecodeAudioFrames setup envs w).2.m_queue.m_queue = [PacketPtr.flushCodec] ∧
    (w.m_queue.Consistent → (DecodeAudioFrames setup envs w).2.m_queue.Length = 1) := by
  have hc : w.m_queue.Consistent →
      (DecodeAudioFrames.mainLoop envs (DecodeAudioFrames.start setup w)).2.m_queue.Consistent :=
    fun h => audio_mainLoop_consistent envs _ h
  simp only [DecodeAudioFrames] at hexit ⊢
  generalize DecodeAudioFrames.mainLoop envs (DecodeAudioFrames.start setup w) = r at hexit hc
  obtain ⟨c, w1⟩ := r
  cases c
  · cases hexit
  · refine ⟨rfl, by simp [DecodeAudioFrames.finish, Flush_queue], ?_⟩
    intro h
    simp only [DecodeAudioFrames.finish]
    rw [Flush_consistent true _ (hc h)]
    rfl
  · cases hexit
  · cases hexit

/-- The audio worker function returns in the first pass when the stop has been
asked for by the time the loop condition is tested. -/
theorem audio_returns_on_stop (setup : AudioDescription) (env : AudioIterEnv)
    (envs : List AudioIterEnv) (w : AudioWorker)
    (hstop : stopAsked (env.before.apply (DecodeAudioFrames.start setup w)).m_interruptDecoder
      (env.before.apply (DecodeAudioFrames.start setup w)).m_requestedState = true) :
    (DecodeAudioFrames setup (env :: envs) w).1 = Control.exit := by
  simp only [stopAsked] at hstop
  simp only [DecodeAudioFrames, DecodeAudioFrames.mainLoop, DecodeAudioFrames.iteration, hstop,
    if_true]

theorem applyThread_consistent (i : Interference) (t : TorcDecoderThread)
    (h : t.m_queue.Consistent) : (i.applyThread t).m_queue.Consistent :=
  runOps_consistent _ _ h

theorem applyRequest_queue (t : TorcDecoderThread) : t.applyRequest.m_queue = t.m_queue := by
  simp only [TorcDecoderThread.applyRequest]
  split_ifs <;> rfl

theorem video_drain_consistent (fuel : Nat) (w : VideoWorker)
    (h : w.thread.m_queue.Consistent) :
    (DecodeVideoFrames.drain fuel w).2.thread.m_queue.Consistent := by
  induction fuel generalizing w with
  | zero =>
    simp only [DecodeVideoFrames.drain]
    split_ifs <;> exact h
  | succ fuel ih =>
    have hp := Pop_consistent w.thread.m_queue h
    simp only [DecodeVideoFrames.drain]
    split_ifs
    · split
      · rename_i q heq
        rw [heq] at hp
        exact ih _ hp
      · rename_i q heq
        rw [heq] at hp
        exact ih _ hp
    · exact h

theorem video_iteration_consistent (env : WorkerIterEnv) (w : VideoWorker)
    (h : w.thread.m_queue.Consistent) :
    (DecodeVideoFrames.iteration env w).2.thread.m_queue.Consistent := by
  have h1 := applyThread_consistent env.before w.thread h
  have h2 := applyThread_consistent env.atWait _ h1
  simp only [DecodeVideoFrames.iteration]
  split_ifs
  · exact h1
  · exact h2
  · apply video_drain_consistent
    show (env.atWait.applyThread (env.before.applyThread w.thread)).applyRequest.m_queue.Consistent
    rw [applyRequest_queue]
    exact h2

theorem video_mainLoop_consistent (envs : List WorkerIterEnv) (w : VideoWorker)
    (h : w.thread.m_queue.Consistent) :
    (DecodeVideoFrames.mainLoop envs w).2.thread.m_queue.Consistent := by
  induction envs generalizing w with
  | nil => exact h
  | cons env envs ih =>
    simp only [DecodeVideoFrames.mainLoop]
    have h1 := video_iteration_consistent env w h
    generalize DecodeVideoFrames.iteration env w = r at h1
    obtain ⟨c, w1⟩ := r
    cases c <;> first | exact ih w1 h1 | exact h1

/-- When the video worker function returns, its state is `Stopped` and its queue
holds exactly the flush sentinel. -/
theorem video_returns_stopped (envs : List WorkerIterEnv) (w : VideoWorker)
    (hexit : (DecodeVideoFrames envs w).1 = Control.exit) :
    (DecodeVideoFrames envs w).2.thread.m_state = DecoderState.Stopped ∧
    (DecodeVideoFrames envs w).2.thread.m_queue.m_queue = [PacketPtr.flushCodec] ∧
    (w.thread.m_queue.Consistent → (DecodeVideoFrames envs w).2.thread.m_queue.Length = 1) := by
  have hc : w.thread.m_queue.Consistent →
      (DecodeVideoFrames.mainLoop envs (DecodeVideoFrames.start w)).2.thread.m_queue.Consistent :=
    fun h => video_mainLoop_consistent envs _ h
  simp only [DecodeVideoFrames] at hexit ⊢
  generalize DecodeVideoFrames.mainLoop envs (DecodeVideoFrames.start w) = r at hexit hc
  obtain ⟨c, w1⟩ := r
  cases c
  · cases hexit
  · refine ⟨rfl, by simp [DecodeVideoFrames.finish, TorcDecoderThread.flush, Flush_queue], ?_⟩
    intro h
    simp only [DecodeVideoFrames.finish, TorcDecoderThread.flush]
    rw [Flush_consistent true _ (hc h)]
    rfl
  · cases hexit
  · cases hexit

/-- The video worker function returns in the first pass when the stop has been
asked for by the time the loop condition is tested. -/
theorem video_returns_on_stop (env : WorkerIterEnv) (envs : List WorkerIterEnv)
    (w : VideoWorker)
    (hstop : stopAsked (env.before.applyInterrupt w.m_interruptDecoder)
      (env.before.applyThread (DecodeVideoFrames.start w).thread).m_requestedState = true) :
    (DecodeVideoFrames (env :: envs) w).1 = Control.exit := by
  simp only [stopAsked] at hstop
  have hstop2 : (env.before.applyInterrupt (DecodeVideoFrames.start w).m_interruptDecoder != 0 ||
      (env.before.applyThread (DecodeVideoFrames.start w).thread).m_requestedState ==
        DecoderState.Stopped) = true := hstop
  simp only [DecodeVideoFrames, DecodeVideoFrames.mainLoop, DecodeVideoFrames.iteration]
  rw [if_pos hstop2]

theorem subtitle_drain_consistent (fuel : Nat) (w : SubtitleWorker)
    (h : w.thread.m_queue.Consistent) :
    (DecodeSubtitles.drain fuel w).2.thread.m_queue.Consistent := by
  induction fuel generalizing w with
  | zero =>
    simp only [DecodeSubtitles.drain]
    split_ifs <;> exact h
  | succ fuel ih =>
    simp only [DecodeSubtitles.drain]
    split_ifs
    · exact ih _ (Pop_consistent w.thread.m_queue h)
    · exact h

theorem subtitle_iteration_consistent (env : WorkerIterEnv) (w : SubtitleWorker)
    (h : w.thread.m_queue.Consistent) :
    (DecodeSubtitles.iteration env w).2.thread.m_queue.Consistent := by
  have h1 := applyThread_consistent env.before w.thread h
  have h2 := applyThread_consistent env.atWait _ h1
  simp only [DecodeSubtitles.iteration]
  split_ifs
  · exact h1
  · exact h2
  · apply subtitle_drain_consistent
    show (env.atWait.applyThread (env.before.applyThread w.thread)).applyRequest.m_queue.Consistent
    rw [applyRequest_queue]
    exact h2

theorem subtitle_mainLoop_consistent (envs : List WorkerIterEnv) (w : SubtitleWorker)
    (h : w.thread.m_queue.Consistent) :
    (DecodeSubtitles.mainLoop envs w).2.thread.m_queue.Consistent := by
  induction envs generalizing w with
  | nil => exact h
  | cons env envs ih =>
    simp only [DecodeSubtitles.mainLoop]
    have h1 := subtitle_iteration_consistent env w h
    generalize DecodeSubtitles.iteration env w = r at h1
    obtain ⟨c, w1⟩ := r
    cases c <;> first | exact ih w1 h1 | exact h1

/-- When the subtitle worker function returns, its state is `Stopped` and its
queue holds exactly the flush sentinel. -/
theorem subtitle_returns_stopped (envs : List WorkerIterEnv) (w : SubtitleWorker)
    (hexit : (DecodeSubtitles envs w).1 = Control.exit) :
    (DecodeSubtitles envs w).2.thread.m_state = DecoderState.Stopped ∧
    (DecodeSubtitles envs w).2.thread.m_queue.m_queue = [PacketPtr.flushCodec] ∧
    (w.thread.m_queue.Consistent → (DecodeSubtitles envs w).2.thread.m_queue.Length = 1) := by
  have hc : w.thread.m_queue.Consistent →
      (DecodeSubtitles.mainLoop envs (DecodeSubtitles.start w)).2.thread.m_queue.Consistent :=
    fun h => subtitle_mainLoop_consistent envs _ h
  simp only [DecodeSubtitles] at hexit ⊢
  generalize DecodeSubtitles.mainLoop envs (DecodeSubtitles.start w) = r at hexit hc
  obtain ⟨c, w1⟩ := r
  cases c
  · cases hexit
  · refine ⟨rfl, by simp [DecodeSubtitles.finish, TorcDecoderThread.flush, Flush_queue], ?_⟩
    intro h
    simp only [DecodeSubtitles.finish, TorcDecoderThread.flush]
    rw [Flush_consistent true _ (hc h)]
    rfl
  · cases hexit
  · cases hexit

/-- The subtitle worker function returns in the first pass when the stop has
been asked for by the time the loop condition is tested. -/
theorem subtitle_returns_on_stop (env : WorkerIterEnv) (envs : List WorkerIterEnv)
    (w : SubtitleWorker)
    (hstop : stopAsked (env.before.applyInterrupt w.m_interruptDecoder)
      (env.before.applyThread (DecodeSubtitles.start w).thread).m_requestedState = true) :
    (DecodeSubtitles (env :: envs) w).1 = Control.exit := by
  simp only [stopAsked] at hstop
  have hstop2 : (env.before.applyInterrupt (DecodeSubtitles.start w).m_interruptDecoder != 0 ||
      (env.before.applyThread (DecodeSubtitles.start w).thread).m_requestedState ==
        DecoderState.Stopped) = true := hstop
  simp only [DecodeSubtitles, DecodeSubtitles.mainLoop, DecodeSubtitles.iteration]
  rw [if_pos hstop2]

theorem audio_loop_exits_on_stop (env : AudioIterEnv) (envs : List AudioIterEnv)
    (w : AudioWorker)
    (hstop : stopAsked (env.before.apply w).m_interruptDecoder
      (env.before.apply w).m_requestedState = true) :
    (DecodeAudioFrames.mainLoop (env :: envs) w).1 = Control.exit := by
  simp only [stopAsked] at hstop
  simp only [DecodeAudioFrames.mainLoop, DecodeAudioFrames.iteration, hstop, if_true]

theorem video_loop_exits_on_stop (env : WorkerIterEnv) (envs : List WorkerIterEnv)
    (w : VideoWorker)
    (hstop : stopAsked (env.before.applyInterrupt w.m_interruptDecoder)
      (env.before.applyThread w.thread).m_requestedState = true) :
    (DecodeVideoFrames.mainLoop (env :: envs) w).1 = Control.exit := by
  simp only [stopAsked] at hstop
  simp only [DecodeVideoFrames.mainLoop, DecodeVideoFrames.iteration]
  rw [if_pos hstop]

theorem subtitle_loop_exits_on_stop (env : WorkerIterEnv) (envs : List WorkerIterEnv)
    (w : SubtitleWorker)
    (hstop : stopAsked (env.before.applyInterrupt w.m_interruptDecoder)
      (env.before.applyThread w.thread).m_requestedState = true) :
    (DecodeSubtitles.mainLoop (env :: envs) w).1 = Control.exit := by
  simp only [stopAsked] at hstop
  simp only [DecodeSubtitles.mainLoop, DecodeSubtitles.iteration]
  rw [if_pos hstop]

/-- C12 as stated fails: the video worker with two queued packets and `Stopped`
requested, the subtitle worker with one queued packet and the interrupt flag
raised, and the audio worker with one queued packet and the interrupt flag
raised all return with state `Stopped`, but each queue then holds the flush
sentinel and `Length()` is 1, not 0. -/
theorem worker_queue_not_empty_after_stop :
    (DecodeVideoFrames [quietPass] sampleVideoWorker).1 = Control.exit ∧
    (DecodeVideoFrames [quietPass] sampleVideoWorker).2.thread.m_state = DecoderState.Stopped ∧
    (DecodeVideoFrames [quietPass] sampleVideoWorker).2.thread.m_queue.Length = 1 ∧
    (DecodeSubtitles [quietPass] sampleSubtitleWorker).2.thread.m_queue.Length = 1 ∧
    (DecodeAudioFrames sampleAudioOut [sampleStopIter]
      (sampleWorker [ProducerOp.push (samplePacket 100)])).2.m_queue.Length = 1 := by
  decide

/-- C12, amended: for each worker (audio, video, subtitle) and every queue
content, a worker function that finds the stop asked for (interrupt flag raised
or `Stopped` requested) when it tests its loop condition returns: this holds for
the first pass of the function and for the loop taken up from any worker state.
Whenever a worker function returns, the worker's state is `Stopped` and its
queue holds exactly the flush sentinel, every other item being gone, so that
`Length()` is 1 for a queue whose counters were right at the start. -/
theorem worker_returns_stopped_with_sentinel (setup : AudioDescription)
    (aenv : AudioIterEnv) (aenvs : List AudioIterEnv) (aw : AudioWorker)
    (venv senv : WorkerIterEnv) (venvs senvs : List WorkerIterEnv)
    (vw : VideoWorker) (sw : SubtitleWorker) :
    ((stopAsked (aenv.before.apply (DecodeAudioFrames.start setup aw)).m_interruptDecoder
        (aenv.before.apply (DecodeAudioFrames.start setup aw)).m_requestedState = true →
      (DecodeAudioFrames setup (aenv :: aenvs) aw).1 = Control.exit) ∧
     (stopAsked (aenv.before.apply aw).m_interruptDecoder
        (aenv.before.apply aw).m_requestedState = true →
      (DecodeAudioFrames.mainLoop (aenv :: aenvs) aw).1 = Control.exit) ∧
     ((DecodeAudioFrames setup aenvs aw).1 = Control.exit →
      (DecodeAudioFrames setup aenvs aw).2.m_state = DecoderState.Stopped ∧
      (DecodeAudioFrames setup aenvs aw).2.m_queue.m_queue = [PacketPtr.flushCodec] ∧
      (aw.m_queue.Consistent → (DecodeAudioFrames setup aenvs aw).2.m_queue.Length = 1))) ∧
    ((stopAsked (venv.before.applyInterrupt vw.m_interruptDecoder)
        (venv.before.applyThread (DecodeVideoFrames.start vw).thread).m_requestedState = true →
      (DecodeVideoFrames (venv :: venvs) vw).1 = Control.exit) ∧
     (stopAsked (venv.before.applyInterrupt vw.m_interruptDecoder)
        (venv.before.applyThread vw.thread).m_requestedState = true →
      (DecodeVideoFrames.mainLoop (venv :: venvs) vw).1 = Control.exit) ∧
     ((DecodeVideoFrames venvs vw).1 = Control.exit →
      (DecodeVideoFrames venvs vw).2.thread.m_state = DecoderState.Stopped ∧
      (DecodeVideoFrames venvs vw).2.thread.m_queue.m_queue = [PacketPtr.flushCodec] ∧
      (vw.thread.m_queue.Consistent →
        (DecodeVideoFrames venvs vw).2.thread.m_queue.Length = 1))) ∧
    ((stopAsked (senv.before.applyInterrupt sw.m_interruptDecoder)
        (senv.before.applyThread (DecodeSubtitles.start sw).thread).m_requestedState = true →
      (DecodeSubtitles (senv :: senvs) sw).1 = Control.exit) ∧
     (stopAsked (senv.before.applyInterrupt sw.m_interruptDecoder)
        (senv.before.applyThread sw.thread).m_requestedState = true →
      (DecodeSubtitles.mainLoop (senv :: senvs) sw).1 = Control.exit) ∧
     ((DecodeSubtitles senvs sw).1 = Control.exit →
      (DecodeSubtitles senvs sw).2.thread.m_state = DecoderState.Stopped ∧
      (DecodeSubtitles senvs sw).2.thread.m_queue.m_queue = [PacketPtr.flushCodec] ∧
      (sw.thread.m_queue.Consistent →
        (DecodeSubtitles senvs sw).2.thread.m_queue.Length = 1))) :=
  ⟨⟨audio_returns_on_stop setup aenv aenvs aw, audio_loop_exits_on_stop aenv aenvs aw,
      audio_returns_stopped setup aenvs aw⟩,
    ⟨video_returns_on_stop venv venvs vw, video_loop_exits_on_stop venv venvs vw,
      video_returns_stopped venvs vw⟩,
    ⟨subtitle_returns_on_stop senv senvs sw, subtitle_loop_exits_on_stop senv senvs sw,
      subtitle_returns_stopped senvs sw⟩⟩

/-- C12, amended, on the sample video worker with `Stopped` requested: the
function returns in the first pass. -/
theorem worker_returns_stopped_with_sentinel_witness :
    (DecodeVideoFrames [quietPass] sampleVideoWorker).1 = Control.exit :=
  (worker_returns_stopped_with_sentinel sampleAudioOut sampleStopIter []
    (sampleWorker []) quietPass quietPass [] [] sampleVideoWorker
    sampleSubtitleWorker).2.1.1 (by decide)

/-! ## Theorems: program and stream selection on the decoder -/

theorem decoder_SelectStream_some (c : HeaderConstants) (language : Nat) (a : AudioDecoder)
    (Typ : TorcStreamTypes) (program : TorcProgramData)
    (h : a.currentProgram? = some program) :
    ∃ (r : Bool) (a1 : AudioDecoder), a.SelectStream c language Typ = some (r, a1) ∧
      a1.currentProgram? = some program ∧ a1.demuxerState = a.demuxerState ∧
      a1.m_currentProgram = a.m_currentProgram := by
  simp only [AudioDecoder.SelectStream, h]
  exact ⟨_, _, rfl, h, rfl, rfl⟩

/-- The part of the selection rules that holds of every decoder. In a demuxer
state other than `Opening` and `Paused`, `SelectProgram` and `SelectStreams`
return `false` and leave the decoder, with its current program and all current
streams, as it was. In state `Opening` or `Paused`, `SelectStreams` returns
`true` when the current program is one of the programs, and `SelectProgram(i)`
returns `false` and leaves the decoder as it was when `i` is negative or not
less than the number of programs. -/
theorem selection_only_when_opening_or_paused (c : HeaderConstants) (language : Nat)
    (a : AudioDecoder) (i : Int) :
    ((a.demuxerState ≠ DecoderState.Opening ∧ a.demuxerState ≠ DecoderState.Paused) →
      a.SelectProgram i = (false, a) ∧ a.SelectStreams c language = some (false, a)) ∧
    ((a.demuxerState = DecoderState.Opening ∨ a.demuxerState = DecoderState.Paused) →
      (a.currentProgram?.isSome = true →
        ∃ a1 : AudioDecoder, a.SelectStreams c language = some (true, a1) ∧
          a1.m_currentProgram = a.m_currentProgram) ∧
      ((i < 0 ∨ (a.m_programs.length : Int) ≤ i) → a.SelectProgram i = (false, a))) := by
  constructor
  · rintro ⟨h1, h2⟩
    have hs : a.selectable = false := by
      simp [AudioDecoder.selectable, h1, h2]
    simp [AudioDecoder.SelectProgram, AudioDecoder.SelectStreams, hs]
  · intro h
    have hs : a.selectable = true := by
      rcases h with h | h <;> simp [AudioDecoder.selectable, h]
    constructor
    · intro hp
      obtain ⟨program, hprog⟩ := Option.isSome_iff_exists.mp hp
      obtain ⟨r1, a1, e1, p1, _, c1⟩ :=
        decoder_SelectStream_some c language a TorcStreamTypes.StreamTypeAudio program hprog
      obtain ⟨r2, a2, e2, p2, _, c2⟩ :=
        decoder_SelectStream_some c language a1 TorcStreamTypes.StreamTypeVideo program p1
      obtain ⟨r3, a3, e3, p3, _, c3⟩ :=
        decoder_SelectStream_some c language a2 TorcStreamTypes.StreamTypeSubtitle program p2
      obtain ⟨r4, a4, e4, _, _, c4⟩ :=
        decoder_SelectStream_some c language a3 TorcStreamTypes.StreamTypeRawText program p3
      refine ⟨a4, ?_, by rw [c4, c3, c2, c1]⟩
      simp only [AudioDecoder.SelectStreams, hs, if_true, e1, e2, e3, e4]
    · intro hi
      simp only [AudioDecoder.SelectProgram, hs, Bool.not_true, Bool.false_eq_true, if_false]
      cases a.m_avFormatContext with
      | none => rfl
      | some context =>
        have : (decide (i ≥ (a.m_programs.length : Int)) || decide (i < 0)) = true := by
          rcases hi with hi | hi <;> simp [hi]
        simp only [this, if_true]

/-- On the sample decoder in state `Running` both calls are refused and change
nothing. -/
theorem selection_only_when_opening_or_paused_witness :
    (sampleDecoder DecoderState.Running).SelectProgram 0 =
      (false, sampleDecoder DecoderState.Running) ∧
    (sampleDecoder DecoderState.Running).SelectStreams sampleConstants 31 =
      some (false, sampleDecoder DecoderState.Running) :=
  (selection_only_when_opening_or_paused sampleConstants 31
    (sampleDecoder DecoderState.Running) 0).1 ⟨by decide, by decide⟩


/-! ## Theorems: the player's commands -/

theorem SetState_state (p : TorcPlayer) (s : PlayerState) : (p.SetState s).m_state = s := rfl

theorem invoke_errored (p : TorcPlayer) (c : Command) (h : p.m_state = PlayerState.Errored) :
    p.invoke c = (false, p) := by
  cases c <;>
    simp [TorcPlayer.invoke, TorcPlayer.Play, TorcPlayer.Pause, TorcPlayer.Unpause,
      TorcPlayer.TogglePause, TorcPlayer.Stop, h]

/-- C17: each of the commands Play, Pause, Unpause, TogglePause and Stop is
idempotent. Invoked a second time on the player the first invocation left, the
command returns the same value and leaves the same player (in particular the same
state, pending state and play-on-switch flag) as the first invocation. -/
theorem command_idempotent (p : TorcPlayer) (c : Command) :
    ((p.invoke c).2.invoke c).1 = (p.invoke c).1 ∧
    ((p.invoke c).2.invoke c).2 = (p.invoke c).2 ∧
    ((p.invoke c).2.invoke c).2.m_state = (p.invoke c).2.m_state ∧
    ((p.invoke c).2.invoke c).2.m_nextState = (p.invoke c).2.m_nextState ∧
    ((p.invoke c).2.invoke c).2.m_nextDecoderPlay = (p.invoke c).2.m_nextDecoderPlay := by
  have h : (p.invoke c).2.invoke c = p.invoke c := by
    by_cases he : p.m_state = PlayerState.Errored
    · rw [invoke_errored p c he]
      exact invoke_errored p c he
    · cases c <;>
        simp [TorcPlayer.invoke, TorcPlayer.Play, TorcPlayer.Pause, TorcPlayer.Unpause,
          TorcPlayer.TogglePause, TorcPlayer.Stop, he]
  rw [h]
  exact ⟨rfl, rfl, rfl, rfl, rfl⟩


/-! ## Theorems: failure of the next decoder -/

theorem DestroyOldDecoder_keeps (p : TorcPlayer) :
    p.DestroyOldDecoder.m_nextDecoder = p.m_nextDecoder ∧
    p.DestroyOldDecoder.m_switching = p.m_switching ∧
    p.DestroyOldDecoder.m_decoder = p.m_decoder ∧
    p.DestroyOldDecoder.m_uri = p.m_uri ∧
    p.DestroyOldDecoder.m_nextUri = p.m_nextUri ∧
    p.DestroyOldDecoder.m_state = p.m_state ∧
    p.DestroyOldDecoder.m_oldDecoder = none := by
  unfold TorcPlayer.DestroyOldDecoder TorcPlayer.Play
  simp only []
  split_ifs <;> exact ⟨rfl, rfl, rfl, rfl, rfl, rfl, rfl⟩

theorem destroyOld_keeps (p : TorcPlayer) :
    (TorcPlayer.Refresh.destroyOld p).m_nextDecoder = p.m_nextDecoder ∧
    (TorcPlayer.Refresh.destroyOld p).m_switching = p.m_switching ∧
    (TorcPlayer.Refresh.destroyOld p).m_decoder = p.m_decoder ∧
    (TorcPlayer.Refresh.destroyOld p).m_uri = p.m_uri ∧
    (TorcPlayer.Refresh.destroyOld p).m_nextUri = p.m_nextUri ∧
    (TorcPlayer.Refresh.destroyOld p).m_state = p.m_state := by
  unfold TorcPlayer.Refresh.destroyOld
  have h := DestroyOldDecoder_keeps p
  cases p.m_oldDecoder with
  | none => exact ⟨rfl, rfl, rfl, rfl, rfl, rfl⟩
  | some old =>
    simp only []
    split_ifs
    · exact ⟨h.1, h.2.1, h.2.2.1, h.2.2.2.1, h.2.2.2.2.1, h.2.2.2.2.2.1⟩
    · exact ⟨rfl, rfl, rfl, rfl, rfl, rfl⟩

theorem DestroyNextDecoder_spec (p : TorcPlayer) :
    p.DestroyNextDecoder.m_nextDecoder = none ∧
    p.DestroyNextDecoder.m_switching = false ∧
    p.DestroyNextDecoder.m_decoder = p.m_decoder ∧
    p.DestroyNextDecoder.m_uri = p.m_uri ∧
    p.DestroyNextDecoder.m_oldDecoder = p.m_oldDecoder ∧
    (p.m_decoder = none → p.DestroyNextDecoder.m_state = PlayerState.Errored) ∧
    (p.m_decoder ≠ none → p.DestroyNextDecoder.m_state = p.m_state) := by
  unfold TorcPlayer.DestroyNextDecoder TorcPlayer.SetState TorcPlayer.SendUserMessage
  cases hd : p.m_decoder with
  | none =>
    by_cases hs : p.m_switching = true <;> simp [hs, hd]
  | some d =>
    by_cases hs : p.m_switching = true <;> simp [hs, hd]

theorem checkNext_failed (p : TorcPlayer) (next : Decoder) (h : p.m_nextDecoder = some next)
    (hf : next.state = DecoderState.Errored ∨ next.state = DecoderState.Stopped) :
    TorcPlayer.Refresh.checkNext p = p.DestroyNextDecoder := by
  unfold TorcPlayer.Refresh.checkNext
  rw [h]
  rcases hf with hf | hf <;> simp [hf]

/-- C14: a failing next decoder is destroyed and the current decoder is left
alone. After `DestroyNextDecoder` there is no next decoder, the switching flag is
false, the current decoder and the current URI are as before, and the state is
`Errored` when there is no current decoder and unchanged when there is one.
`Refresh` runs exactly this step when the next decoder reports `Errored` or
`Stopped` (the old-decoder step before it leaves all these members alone), and so
does `HandleEvent` when the start timer fires. -/
theorem next_failure_destroys_next (p : TorcPlayer) (next : Decoder)
    (h : p.m_nextDecoder = some next) :
    (p.DestroyNextDecoder.m_nextDecoder = none ∧
      p.DestroyNextDecoder.m_switching = false ∧
      p.DestroyNextDecoder.m_decoder = p.m_decoder ∧
      p.DestroyNextDecoder.m_uri = p.m_uri ∧
      (p.m_decoder = none → p.DestroyNextDecoder.m_state = PlayerState.Errored) ∧
      (p.m_decoder ≠ none → p.DestroyNextDecoder.m_state = p.m_state)) ∧
    ((next.state = DecoderState.Errored ∨ next.state = DecoderState.Stopped) →
      TorcPlayer.Refresh.checkNext (TorcPlayer.Refresh.destroyOld p) =
        (TorcPlayer.Refresh.destroyOld p).DestroyNextDecoder ∧
      (TorcPlayer.Refresh.destroyOld p).m_decoder = p.m_decoder ∧
      (TorcPlayer.Refresh.destroyOld p).m_uri = p.m_uri ∧
      (TorcPlayer.Refresh.destroyOld p).m_state = p.m_state ∧
      (TorcPlayer.Refresh.checkNext (TorcPlayer.Refresh.destroyOld p)).m_nextDecoder = none ∧
      (TorcPlayer.Refresh.checkNext (TorcPlayer.Refresh.destroyOld p)).m_switching = false ∧
      (TorcPlayer.Refresh.checkNext (TorcPlayer.Refresh.destroyOld p)).m_decoder = p.m_decoder ∧
      (TorcPlayer.Refresh.checkNext (TorcPlayer.Refresh.destroyOld p)).m_uri = p.m_uri ∧
      (p.m_decoder = none →
        (TorcPlayer.Refresh.checkNext (TorcPlayer.Refresh.destroyOld p)).m_state =
          PlayerState.Errored) ∧
      (p.m_decoder ≠ none →
        (TorcPlayer.Refresh.checkNext (TorcPlayer.Refresh.destroyOld p)).m_state = p.m_state)) ∧
    (p.m_nextDecoderStartTimer.isSome = true →
      p.HandleEvent (PlayerEvent.timer TimerId.nextDecoderStart) =
        (some true, p.DestroyNextDecoder)) := by
  have hd := DestroyNextDecoder_spec p
  have ho := destroyOld_keeps p
  refine ⟨⟨hd.1, hd.2.1, hd.2.2.1, hd.2.2.2.1, hd.2.2.2.2.2.1, hd.2.2.2.2.2.2⟩, ?_, ?_⟩
  · intro hf
    have hn : (TorcPlayer.Refresh.destroyOld p).m_nextDecoder = some next := by rw [ho.1, h]
    have hc := checkNext_failed _ next hn hf
    have hd2 := DestroyNextDecoder_spec (TorcPlayer.Refresh.destroyOld p)
    rw [hc]
    refine ⟨rfl, ho.2.2.1, ho.2.2.2.1, ho.2.2.2.2.2, hd2.1, hd2.2.1, ?_, ?_, ?_, ?_⟩
    · rw [hd2.2.2.1, ho.2.2.1]
    · rw [hd2.2.2.2.1, ho.2.2.2.1]
    · intro hnone
      exact hd2.2.2.2.2.2.1 (by rw [ho.2.2.1, hnone])
    · intro hsome
      rw [hd2.2.2.2.2.2.2 (by rw [ho.2.2.1]; exact hsome), ho.2.2.2.2.2]
  · intro ht
    simp [TorcPlayer.HandleEvent, ht]

/-- C14 on a sample player: the next decoder reports `Errored` while decoder 1
is current and playing; the refresh destroys the next decoder and the player
stays in `Playing` with decoder 1 and its URI. -/
theorem next_failure_destroys_next_witness :
    (TorcPlayer.Refresh.checkNext (TorcPlayer.Refresh.destroyOld
        (samplePlayer PlayerState.Playing (some (sampleEngine 1 DecoderState.Running))
          (some (sampleEngine 2 DecoderState.Errored)) none))).m_nextDecoder = none ∧
    (TorcPlayer.Refresh.checkNext (TorcPlayer.Refresh.destroyOld
        (samplePlayer PlayerState.Playing (some (sampleEngine 1 DecoderState.Running))
          (some (sampleEngine 2 DecoderState.Errored)) none))).m_state = PlayerState.Playing :=
  have h := next_failure_destroys_next
    (samplePlayer PlayerState.Playing (some (sampleEngine 1 DecoderState.Running))
      (some (sampleEngine 2 DecoderState.Errored)) none)
    (sampleEngine 2 DecoderState.Errored) rfl
  ⟨(h.2.1 (Or.inl rfl)).2.2.2.2.1, (h.2.1 (Or.inl rfl)).2.2.2.2.2.2.2.2.2 (by decide)⟩


/-! ## Theorems: commands in state `Errored` -/

/-- C16, counterexample: in state `Errored` the Play command is rejected like
the others. `Play()` returns false and leaves the player as it is, and
`HandlePlayerEvent` ignores the Play action without resetting the player. -/
theorem errored_rejects_play :
    (samplePlayer PlayerState.Errored none none none).m_state = PlayerState.Errored ∧
    (samplePlayer PlayerState.Errored none none none).Play =
      (false, samplePlayer PlayerState.Errored none none none) ∧
    TorcPlayerInterface.HandlePlayerEvent samplePlayMediaEnv false
        { m_uri := "b.mkv", m_player := some (samplePlayer PlayerState.Errored none none none) }
        Action.Play =
      (false,
        { m_uri := "b.mkv", m_player := some (samplePlayer PlayerState.Errored none none none) }) :=
  ⟨rfl, rfl, rfl⟩

/-- C16, amended: in state `Errored` every command is rejected. Each of Play,
Pause, Unpause, TogglePause and Stop returns false and leaves the player
unchanged (so the state and the pending state are unchanged), and
`HandlePlayerEvent` returns false for every action without touching the player.
The Play action is accepted and resets the player, running `Reset` (which tears
the player down) and then `PlayMedia`, when the state is `Stopped` or `None`. -/
theorem errored_rejects_every_command (p : TorcPlayer) (uri : String)
    (env : TorcPlayer.PlayMediaEnv) (decoderHandles : Bool) :
    (p.m_state = PlayerState.Errored →
      (∀ c : Command, p.invoke c = (false, p) ∧ (p.invoke c).2.m_state = p.m_state ∧
        (p.invoke c).2.m_nextState = p.m_nextState) ∧
      (∀ a : Action,
        TorcPlayerInterface.HandlePlayerEvent env decoderHandles
          { m_uri := uri, m_player := some p } a = (false, { m_uri := uri, m_player := some p }))) ∧
    ((p.m_state = PlayerState.Stopped ∨ p.m_state = PlayerState.None) →
      p.Reset = p.Teardown ∧
      TorcPlayerInterface.HandlePlayerEvent env decoderHandles
          { m_uri := uri, m_player := some p } Action.Play =
        (true, { m_uri := uri, m_player := some (p.Teardown.PlayMedia env uri false).2 })) := by
  constructor
  · intro h
    constructor
    · intro c
      rw [invoke_errored p c h]
      exact ⟨rfl, rfl, rfl⟩
    · intro a
      simp [TorcPlayerInterface.HandlePlayerEvent, h]
  · intro h
    have hr : p.Reset = p.Teardown := by
      unfold TorcPlayer.Reset
      rcases h with h | h <;> simp [h]
    refine ⟨hr, ?_⟩
    unfold TorcPlayerInterface.HandlePlayerEvent
    rcases h with h | h <;>
      simp [h, hr, TorcPlayerInterface.PlayMedia]

/-- C16, amended, on sample players: the errored player rejects Stop, and the
stopped player accepts the Play action. -/
theorem errored_rejects_every_command_witness :
    (samplePlayer PlayerState.Errored none none none).invoke Command.Stop =
      (false, samplePlayer PlayerState.Errored none none none) ∧
    (TorcPlayerInterface.HandlePlayerEvent samplePlayMediaEnv false
        { m_uri := "b.mkv", m_player := some (samplePlayer PlayerState.Stopped none none none) }
        Action.Play).1 = true :=
  ⟨(((errored_rejects_every_command (samplePlayer PlayerState.Errored none none none) "b.mkv"
      samplePlayMediaEnv false).1 rfl).1 Command.Stop).1,
    by
      rw [((errored_rejects_every_command (samplePlayer PlayerState.Stopped none none none) "b.mkv"
        samplePlayMediaEnv false).2 (Or.inl rfl)).2]⟩


/-! ## Theorems: the decoder swap -/

theorem SameSlots_refl (p : TorcPlayer) : p.SameSlots p := ⟨rfl, rfl, rfl, rfl, rfl, rfl, rfl⟩

theorem SameSlots_trans {p q r : TorcPlayer} (h1 : p.SameSlots q) (h2 : q.SameSlots r) :
    p.SameSlots r := by
  obtain ⟨a1, a2, a3, a4, a5, a6, a7⟩ := h1
  obtain ⟨b1, b2, b3, b4, b5, b6, b7⟩ := h2
  exact ⟨b1.trans a1, b2.trans a2, b3.trans a3, b4.trans a4, b5.trans a5, b6.trans a6,
    b7.trans a7⟩

theorem updateState_slots (p : TorcPlayer) :
    p.SameSlots (TorcPlayer.Refresh.updateState p).2 ∧
    (TorcPlayer.Refresh.updateState p).2.m_decoder = p.m_decoder := by
  unfold TorcPlayer.Refresh.updateState TorcPlayer.SetState
  split_ifs <;> exact ⟨⟨rfl, rfl, rfl, rfl, rfl, rfl, rfl⟩, rfl⟩

theorem follow_slots (p q : TorcPlayer) (s1 s2 : PlayerState) (d1 d2 : DecoderState)
    (c : DecoderCall) (h : TorcPlayer.Refresh.follow p s1 s2 d1 d2 c = some q) :
    p.SameSlots q ∧ q.currentId = p.currentId := by
  unfold TorcPlayer.Refresh.follow at h
  by_cases hs : p.m_state = s1
  · rw [if_pos (by simpa using hs)] at h
    cases hd : p.m_decoder with
    | none => rw [hd] at h; exact absurd h (by simp)
    | some d =>
      rw [hd] at h
      simp only [] at h
      by_cases h1 : d.state = d1
      · rw [if_pos (by simpa using h1)] at h
        cases h
        exact ⟨⟨rfl, rfl, rfl, rfl, rfl, rfl, rfl⟩, by simp [TorcPlayer.currentId, TorcPlayer.SetState]⟩
      · rw [if_neg (by simpa using h1)] at h
        by_cases h2 : d.state = d2
        · rw [if_neg (by simpa using h2)] at h
          cases h
          exact ⟨SameSlots_refl p, rfl⟩
        · rw [if_pos (by simpa using h2)] at h
          cases h
          exact ⟨⟨rfl, rfl, rfl, rfl, rfl, rfl, rfl⟩,
            by simp [TorcPlayer.currentId, hd, Decoder.call]⟩
  · rw [if_neg (by simpa using hs)] at h
    cases h
    exact ⟨SameSlots_refl p, rfl⟩

theorem follow_some (p : TorcPlayer) (s1 s2 : PlayerState) (d1 d2 : DecoderState)
    (c : DecoderCall) (h : p.m_decoder ≠ none) :
    ∃ q, TorcPlayer.Refresh.follow p s1 s2 d1 d2 c = some q := by
  unfold TorcPlayer.Refresh.follow
  cases hd : p.m_decoder with
  | none => exact absurd hd h
  | some d =>
    simp only []
    split_ifs <;> exact ⟨_, rfl⟩

theorem currentId_ne_none {p q : TorcPlayer} (h : q.currentId = p.currentId)
    (hp : p.m_decoder ≠ none) : q.m_decoder ≠ none := by
  unfold TorcPlayer.currentId at h
  intro hq
  rw [hq] at h
  cases hd : p.m_decoder with
  | none => exact hp hd
  | some d => rw [hd] at h; simp at h

theorem drive_slots (p q : TorcPlayer) (h : TorcPlayer.Refresh.drive p = some q) :
    p.SameSlots q ∧ q.currentId = p.currentId := by
  unfold TorcPlayer.Refresh.drive at h
  cases h1 : TorcPlayer.Refresh.follow p PlayerState.Pausing PlayerState.Paused
      DecoderState.Paused DecoderState.Pausing DecoderCall.Pause with
  | none => rw [h1] at h; simp at h
  | some p1 =>
    rw [h1] at h
    simp only [Option.some_bind] at h
    cases h2 : TorcPlayer.Refresh.follow p1 PlayerState.Starting PlayerState.Playing
        DecoderState.Running DecoderState.Starting DecoderCall.Start with
    | none => rw [h2] at h; simp at h
    | some p2 =>
      rw [h2] at h
      simp only [Option.some_bind] at h
      have a1 := follow_slots _ _ _ _ _ _ _ h1
      have a2 := follow_slots _ _ _ _ _ _ _ h2
      have a3 := follow_slots _ _ _ _ _ _ _ h
      exact ⟨SameSlots_trans (SameSlots_trans a1.1 a2.1) a3.1,
        a3.2.trans (a2.2.trans a1.2)⟩

theorem drive_some (p : TorcPlayer) (h : p.m_decoder ≠ none) :
    ∃ q, TorcPlayer.Refresh.drive p = some q := by
  unfold TorcPlayer.Refresh.drive
  obtain ⟨p1, h1⟩ := follow_some p PlayerState.Pausing PlayerState.Paused
      DecoderState.Paused DecoderState.Pausing DecoderCall.Pause h
  have a1 := follow_slots _ _ _ _ _ _ _ h1
  obtain ⟨p2, h2⟩ := follow_some p1 PlayerState.Starting PlayerState.Playing
      DecoderState.Running DecoderState.Starting DecoderCall.Start (currentId_ne_none a1.2 h)
  have a2 := follow_slots _ _ _ _ _ _ _ h2
  obtain ⟨p3, h3⟩ := follow_some p2 PlayerState.Stopping PlayerState.Stopped
      DecoderState.Stopped DecoderState.Stopping DecoderCall.Stop
      (currentId_ne_none a2.2 (currentId_ne_none a1.2 h))
  rw [h1, Option.some_bind, h2, Option.some_bind, h3]
  exact ⟨p3, rfl⟩

theorem transitions_slots (p : TorcPlayer) :
    p.SameSlots (TorcPlayer.Refresh.transitions p).2 := by
  unfold TorcPlayer.Refresh.transitions
  simp only []
  by_cases h : (TorcPlayer.Refresh.updateState p).1 = true
  · rw [if_neg (by simp [h])]
    cases hdr : TorcPlayer.Refresh.drive (TorcPlayer.Refresh.updateState p).2 with
    | none => exact (updateState_slots _).1
    | some q => exact SameSlots_trans (updateState_slots _).1 (drive_slots _ _ hdr).1
  · rw [if_pos (by simpa using h)]
    exact (updateState_slots _).1

theorem rest_slots (p : TorcPlayer) : p.SameSlots (TorcPlayer.Refresh.rest p).2 := by
  unfold TorcPlayer.Refresh.rest
  cases hd : p.m_decoder with
  | none =>
    simp only []
    split_ifs
    · exact SameSlots_refl p
    · exact SameSlots_refl p
    · exact ⟨rfl, rfl, rfl, rfl, rfl, rfl, rfl⟩
  | some d =>
    simp only []
    split_ifs
    · exact SameSlots_refl p
    · exact ⟨rfl, rfl, rfl, rfl, rfl, rfl, rfl⟩
    · exact SameSlots_trans ⟨rfl, rfl, rfl, rfl, rfl, rfl, rfl⟩ (transitions_slots _)
    · exact transitions_slots p


theorem transitions_current (p : TorcPlayer) (h : p.m_decoder ≠ none) :
    (TorcPlayer.Refresh.transitions p).1 ≠ none ∧
    (TorcPlayer.Refresh.transitions p).2.currentId = p.currentId := by
  have hu := updateState_slots p
  unfold TorcPlayer.Refresh.transitions
  simp only []
  by_cases hb : (TorcPlayer.Refresh.updateState p).1 = true
  · rw [if_neg (by simp [hb])]
    obtain ⟨q, hq⟩ := drive_some (TorcPlayer.Refresh.updateState p).2 (by rw [hu.2]; exact h)
    rw [hq]
    refine ⟨by simp, ?_⟩
    rw [(drive_slots _ _ hq).2]
    unfold TorcPlayer.currentId
    rw [hu.2]
  · rw [if_pos (by simpa using hb)]
    refine ⟨by simp, ?_⟩
    unfold TorcPlayer.currentId
    rw [hu.2]

theorem rest_current (p : TorcPlayer) (d : Decoder) (h : p.m_decoder = some d)
    (hs : d.state ≠ DecoderState.Stopped) :
    (TorcPlayer.Refresh.rest p).1 ≠ none ∧ (TorcPlayer.Refresh.rest p).2.currentId = some d.id := by
  have hid : p.currentId = some d.id := by simp [TorcPlayer.currentId, h]
  unfold TorcPlayer.Refresh.rest
  rw [h]
  simp only []
  split_ifs with h1 h2 h3
  · exact ⟨by simp, hid⟩
  · exact ⟨by simp, by simp [TorcPlayer.currentId, TorcPlayer.SetState,
      TorcPlayer.SendUserMessage, h]⟩
  · exact absurd (by simpa using h3) hs
  · have ht := transitions_current p (by rw [h]; simp)
    exact ⟨ht.1, ht.2.trans hid⟩

theorem destroyOld_old (p : TorcPlayer)
    (hold : ∀ old, p.m_oldDecoder = some old → old.state = DecoderState.Stopped) :
    (TorcPlayer.Refresh.destroyOld p).m_oldDecoder = none := by
  unfold TorcPlayer.Refresh.destroyOld
  cases ho : p.m_oldDecoder with
  | none => simp only []; exact ho
  | some old =>
    simp only []
    rw [if_pos (by simp [hold old ho])]
    exact (DestroyOldDecoder_keeps p).2.2.2.2.2.2

theorem checkNext_swaps (p : TorcPlayer) (next : Decoder) (h : p.m_nextDecoder = some next)
    (hpast : next.state.toInt > DecoderState.Opening.toInt)
    (he : next.state ≠ DecoderState.Errored) (hs : next.state ≠ DecoderState.Stopped)
    (hold : p.m_oldDecoder = none) :
    TorcPlayer.Refresh.checkNext p = TorcPlayer.Refresh.swap p next := by
  unfold TorcPlayer.Refresh.checkNext
  rw [h]
  simp only []
  rw [if_neg (by simp [he, hs]), if_pos (by simp [hpast, hold])]

theorem swapToPaused_spec (p : TorcPlayer) (next : Decoder) :
    (TorcPlayer.Refresh.swapToPaused p next).m_oldDecoder =
      p.m_decoder.map (fun d => d.call DecoderCall.Stop) ∧
    (p.m_decoder ≠ none →
      (TorcPlayer.Refresh.swapToPaused p next).m_oldDecoderStopTimer = some DECODER_STOP_TIMEOUT) ∧
    (TorcPlayer.Refresh.swapToPaused p next).m_decoder = some next ∧
    (TorcPlayer.Refresh.swapToPaused p next).m_nextDecoder = none ∧
    (TorcPlayer.Refresh.swapToPaused p next).m_switching = false ∧
    (TorcPlayer.Refresh.swapToPaused p next).m_uri = p.m_nextUri ∧
    (TorcPlayer.Refresh.swapToPaused p next).m_state = PlayerState.Paused := by
  unfold TorcPlayer.Refresh.swapToPaused TorcPlayer.SetState
  cases hd : p.m_decoder with
  | none => simp
  | some d => simp

theorem swap_spec (p : TorcPlayer) (next : Decoder) :
    (TorcPlayer.Refresh.swap p next).m_oldDecoder =
      (TorcPlayer.Refresh.swapToPaused p next).m_oldDecoder ∧
    (TorcPlayer.Refresh.swap p next).m_oldDecoderStopTimer =
      (TorcPlayer.Refresh.swapToPaused p next).m_oldDecoderStopTimer ∧
    (TorcPlayer.Refresh.swap p next).m_decoder =
      (TorcPlayer.Refresh.swapToPaused p next).m_decoder ∧
    (TorcPlayer.Refresh.swap p next).m_nextDecoder =
      (TorcPlayer.Refresh.swapToPaused p next).m_nextDecoder ∧
    (TorcPlayer.Refresh.swap p next).m_switching =
      (TorcPlayer.Refresh.swapToPaused p next).m_switching ∧
    (TorcPlayer.Refresh.swap p next).m_uri = (TorcPlayer.Refresh.swapToPaused p next).m_uri ∧
    (TorcPlayer.Refresh.swap p next).m_state = (TorcPlayer.Refresh.swapToPaused p next).m_state := by
  unfold TorcPlayer.Refresh.swap TorcPlayer.Play
  simp only []
  split_ifs <;> exact ⟨rfl, rfl, rfl, rfl, rfl, rfl, rfl⟩

/-- C15, counterexample: a next decoder that reports `Paused` (past `Opening`,
neither `Errored` nor `Stopped`) is not swapped in while an old decoder that has
not yet stopped is still there. After the refresh the next decoder, the current
decoder, the switching flag, the URI and the state are as before. With no old
decoder and play-on-switch set the swap is made, but the state the refresh
leaves is `Starting`, not `Paused`. -/
theorem swap_waits_for_old_decoder :
    ((samplePlayer PlayerState.Playing (some (sampleEngine 1 DecoderState.Running))
        (some (sampleEngine 2 DecoderState.Paused))
        (some (sampleEngine 0 DecoderState.Stopping))).Refresh.2.m_nextDecoder =
      some (sampleEngine 2 DecoderState.Paused) ∧
    (samplePlayer PlayerState.Playing (some (sampleEngine 1 DecoderState.Running))
        (some (sampleEngine 2 DecoderState.Paused))
        (some (sampleEngine 0 DecoderState.Stopping))).Refresh.2.m_decoder =
      some (sampleEngine 1 DecoderState.Running) ∧
    (samplePlayer PlayerState.Playing (some (sampleEngine 1 DecoderState.Running))
        (some (sampleEngine 2 DecoderState.Paused))
        (some (sampleEngine 0 DecoderState.Stopping))).Refresh.2.m_switching = true ∧
    (samplePlayer PlayerState.Playing (some (sampleEngine 1 DecoderState.Running))
        (some (sampleEngine 2 DecoderState.Paused))
        (some (sampleEngine 0 DecoderState.Stopping))).Refresh.2.m_uri = "a.mkv" ∧
    (samplePlayer PlayerState.Playing (some (sampleEngine 1 DecoderState.Running))
        (some (sampleEngine 2 DecoderState.Paused))
        (some (sampleEngine 0 DecoderState.Stopping))).Refresh.2.m_state =
      PlayerState.Playing) ∧
    ({ samplePlayer PlayerState.Opening none (some (sampleEngine 2 DecoderState.Paused)) none with
        m_nextDecoderPlay := true }.Refresh.2.m_decoder.map Decoder.id = some 2 ∧
    { samplePlayer PlayerState.Opening none (some (sampleEngine 2 DecoderState.Paused)) none with
        m_nextDecoderPlay := true }.Refresh.2.m_state = PlayerState.Starting) := by
  refine ⟨⟨?_, ?_, ?_, ?_, ?_⟩, ?_, ?_⟩ <;> rfl


/-- C15, amended: when a next decoder exists, reports a state past `Opening`
that is neither `Errored` nor `Stopped`, and no old decoder remains (there is
none, or it reports `Stopped` and is destroyed first), `Refresh` makes the swap
in that tick. The former current decoder becomes the old decoder (it is sent
`Stop` and the 3000 ms stop timer is started, if it exists), the former next
decoder becomes the current one, the next slot is cleared, the switching flag is
false, the current URI is the former next URI, and the swap sets the state to
`Paused`. At the close of the tick the slots are still so, the current decoder is
still the former next one, and the refresh has returned. -/
theorem refresh_swaps_when_no_old_decoder (p : TorcPlayer) (next : Decoder)
    (h : p.m_nextDecoder = some next)
    (hpast : next.state.toInt > DecoderState.Opening.toInt)
    (he : next.state ≠ DecoderState.Errored) (hs : next.state ≠ DecoderState.Stopped)
    (hold : ∀ old, p.m_oldDecoder = some old → old.state = DecoderState.Stopped) :
    DECODER_STOP_TIMEOUT = 3000 ∧
    TorcPlayer.Refresh.checkNext (TorcPlayer.Refresh.destroyOld p) =
      TorcPlayer.Refresh.swap (TorcPlayer.Refresh.destroyOld p) next ∧
    ((TorcPlayer.Refresh.checkNext (TorcPlayer.Refresh.destroyOld p)).m_oldDecoder =
        p.m_decoder.map (fun d => d.call DecoderCall.Stop) ∧
      (p.m_decoder ≠ none →
        (TorcPlayer.Refresh.checkNext (TorcPlayer.Refresh.destroyOld p)).m_oldDecoderStopTimer =
          some DECODER_STOP_TIMEOUT) ∧
      (TorcPlayer.Refresh.checkNext (TorcPlayer.Refresh.destroyOld p)).m_decoder = some next ∧
      (TorcPlayer.Refresh.checkNext (TorcPlayer.Refresh.destroyOld p)).m_nextDecoder = none ∧
      (TorcPlayer.Refresh.checkNext (TorcPlayer.Refresh.destroyOld p)).m_switching = false ∧
      (TorcPlayer.Refresh.checkNext (TorcPlayer.Refresh.destroyOld p)).m_uri = p.m_nextUri ∧
      (TorcPlayer.Refresh.checkNext (TorcPlayer.Refresh.destroyOld p)).m_state =
        PlayerState.Paused) ∧
    (p.Refresh.1 ≠ none ∧
      p.Refresh.2.m_oldDecoder = p.m_decoder.map (fun d => d.call DecoderCall.Stop) ∧
      (p.m_decoder ≠ none → p.Refresh.2.m_oldDecoderStopTimer = some DECODER_STOP_TIMEOUT) ∧
      p.Refresh.2.currentId = some next.id ∧
      p.Refresh.2.m_nextDecoder = none ∧
      p.Refresh.2.m_switching = false ∧
      p.Refresh.2.m_uri = p.m_nextUri) := by
  have ho := destroyOld_keeps p
  have hold2 := destroyOld_old p hold
  have hc := checkNext_swaps (TorcPlayer.Refresh.destroyOld p) next (by rw [ho.1, h]) hpast he hs
    hold2
  have hsw := swap_spec (TorcPlayer.Refresh.destroyOld p) next
  have hsp := swapToPaused_spec (TorcPlayer.Refresh.destroyOld p) next
  rw [ho.2.2.1, ho.2.2.2.2.1] at hsp
  have hmid :
      (TorcPlayer.Refresh.checkNext (TorcPlayer.Refresh.destroyOld p)).m_oldDecoder =
        p.m_decoder.map (fun d => d.call DecoderCall.Stop) ∧
      (p.m_decoder ≠ none →
        (TorcPlayer.Refresh.checkNext (TorcPlayer.Refresh.destroyOld p)).m_oldDecoderStopTimer =
          some DECODER_STOP_TIMEOUT) ∧
      (TorcPlayer.Refresh.checkNext (TorcPlayer.Refresh.destroyOld p)).m_decoder = some next ∧
      (TorcPlayer.Refresh.checkNext (TorcPlayer.Refresh.destroyOld p)).m_nextDecoder = none ∧
      (TorcPlayer.Refresh.checkNext (TorcPlayer.Refresh.destroyOld p)).m_switching = false ∧
      (TorcPlayer.Refresh.checkNext (TorcPlayer.Refresh.destroyOld p)).m_uri = p.m_nextUri ∧
      (TorcPlayer.Refresh.checkNext (TorcPlayer.Refresh.destroyOld p)).m_state =
        PlayerState.Paused := by
    rw [hc]
    refine ⟨hsw.1.trans hsp.1, fun hd => hsw.2.1.trans (hsp.2.1 hd), hsw.2.2.1.trans hsp.2.2.1,
      hsw.2.2.2.1.trans hsp.2.2.2.1, hsw.2.2.2.2.1.trans hsp.2.2.2.2.1,
      hsw.2.2.2.2.2.1.trans hsp.2.2.2.2.2.1, hsw.2.2.2.2.2.2.trans hsp.2.2.2.2.2.2⟩
  refine ⟨rfl, hc, hmid, ?_⟩
  have hr := rest_slots (TorcPlayer.Refresh.checkNext (TorcPlayer.Refresh.destroyOld p))
  have hcur := rest_current (TorcPlayer.Refresh.checkNext (TorcPlayer.Refresh.destroyOld p)) next
    hmid.2.2.1 hs
  obtain ⟨r1, r2, r3, r4, r5, r6, r7⟩ := hr
  unfold TorcPlayer.Refresh
  exact ⟨hcur.1, r5.trans hmid.1, fun hd => r6.trans (hmid.2.1 hd), hcur.2,
    r1.trans hmid.2.2.2.1, r2.trans hmid.2.2.2.2.1, r3.trans hmid.2.2.2.2.2.1⟩

/-- C15, amended, on a sample player: decoder 1 is playing, the next decoder 2
reports `Paused` and there is no old decoder. The refresh makes decoder 1 the old
decoder with a `Stop` call and decoder 2 the current one. -/
theorem refresh_swaps_when_no_old_decoder_witness :
    (samplePlayer PlayerState.Playing (some (sampleEngine 1 DecoderState.Running))
        (some (sampleEngine 2 DecoderState.Paused)) none).Refresh.2.m_oldDecoder =
      some { id := 1, state := DecoderState.Running, calls := [DecoderCall.Stop] } ∧
    (samplePlayer PlayerState.Playing (some (sampleEngine 1 DecoderState.Running))
        (some (sampleEngine 2 DecoderState.Paused)) none).Refresh.2.currentId = some 2 :=
  have h := refresh_swaps_when_no_old_decoder
    (samplePlayer PlayerState.Playing (some (sampleEngine 1 DecoderState.Running))
      (some (sampleEngine 2 DecoderState.Paused)) none)
    (sampleEngine 2 DecoderState.Paused) rfl (by decide) (by decide) (by decide)
    (fun _ ho => Option.noConfusion ho)
  ⟨h.2.2.2.2.1, h.2.2.2.2.2.2.1⟩


/-! ## Theorems: the master clock of the video refresh -/

theorem video_with_streams (env : SGRefreshEnv) (s : TorcSGVideoPlayer)
    (hd : s.base.m_decoder.isSome = true) (hv : env.videoStream ≠ -1) :
    TorcSGVideoPlayer.Refresh.video env s =
      (TorcSGVideoPlayer.Refresh.select
        (TorcSGVideoPlayer.Refresh.audioTime env (TorcSGVideoPlayer.Refresh.releaseCurrent s)
          (env.audioStream != -1))
        (env.audioStream != -1) (TorcSGVideoPlayer.Refresh.releaseCurrent s)).map
        (TorcSGVideoPlayer.Refresh.render env) := by
  have hb : (TorcSGVideoPlayer.Refresh.releaseCurrent s).base = s.base := by
    unfold TorcSGVideoPlayer.Refresh.releaseCurrent
    cases s.m_currentFrame <;> rfl
  unfold TorcSGVideoPlayer.Refresh.video
  simp only []
  rw [if_pos (by simp [hb, hd, hv])]

/-- C19, counterexample: with `TimeNow` = 1000 us, the last audio update at
5001000 us, audio time 7000 ms and no manual offset, the formula gives
7000 + (1000 - 5001000) / 1000 = 2000, but the refresh counts the elapsed time
as 0 and uses 7000. -/
theorem master_clock_not_spec_formula :
    TorcSGVideoPlayer.Refresh.audioTime
        { TimeNow := 1000, videoStream := 0, audioStream := 1, audioTime := 7000
          lastAudioUpdate := 5001000 }
        (sampleSGPlayer []) true = 7000 ∧
    specMasterClock 7000 1000 5001000 0 = 2000 ∧
    TorcSGVideoPlayer.Refresh.audioTime
        { TimeNow := 1000, videoStream := 0, audioStream := 1, audioTime := 7000
          lastAudioUpdate := 5001000 }
        (sampleSGPlayer []) true ≠ specMasterClock 7000 1000 5001000 0 := by
  refine ⟨by decide, by decide, by decide⟩

/-- C19, amended: with an audio stream selected and a known audio time, the
clock the refresh compares video against is
`audio_pts_ms + (time_now_us - last_audio_update_us) / 1000 + manual_av_sync_offset_ms`
when the last audio update is not later than `time_now`, and
`audio_pts_ms + manual_av_sync_offset_ms` when it is not earlier. With a decoder
and a video stream, this clock is the one the frame selection is run with. -/
theorem master_clock_formula (env : SGRefreshEnv) (s : TorcSGVideoPlayer)
    (hw : s.m_audioWrapper = true) (ha : env.audioStream ≠ -1)
    (hknown : env.audioTime ≠ AV_NOPTS_VALUE) :
    (env.lastAudioUpdate ≤ env.TimeNow →
      TorcSGVideoPlayer.Refresh.audioTime env s (env.audioStream != -1) =
        specMasterClock env.audioTime env.TimeNow env.lastAudioUpdate
          s.m_manualAVSyncAdjustment) ∧
    (env.TimeNow ≤ env.lastAudioUpdate →
      TorcSGVideoPlayer.Refresh.audioTime env s (env.audioStream != -1) =
        env.audioTime + s.m_manualAVSyncAdjustment) ∧
    (s.base.m_decoder.isSome = true → env.videoStream ≠ -1 →
      TorcSGVideoPlayer.Refresh.video env s =
        (TorcSGVideoPlayer.Refresh.select
          (TorcSGVideoPlayer.Refresh.audioTime env (TorcSGVideoPlayer.Refresh.releaseCurrent s)
            (env.audioStream != -1))
          (env.audioStream != -1) (TorcSGVideoPlayer.Refresh.releaseCurrent s)).map
          (TorcSGVideoPlayer.Refresh.render env)) := by
  have hab : (env.audioStream != -1) = true := by simpa using ha
  have hk : (env.audioTime != AV_NOPTS_VALUE) = true := by simpa using hknown
  refine ⟨?_, ?_, video_with_streams env s⟩
  · intro hle
    unfold TorcSGVideoPlayer.Refresh.audioTime specMasterClock
    rw [hab]
    simp only [hw, hk, Bool.and_self, if_true]
    by_cases hlt : env.lastAudioUpdate < env.TimeNow
    · rw [if_pos hlt]
      omega
    · rw [if_neg hlt]
      have : env.lastAudioUpdate = env.TimeNow := by omega
      rw [this]
      simp
  · intro hge
    unfold TorcSGVideoPlayer.Refresh.audioTime
    rw [hab]
    simp only [hw, hk, Bool.and_self, if_true]
    rw [if_neg (by omega)]
    simp

/-- C19, amended, on a sample tick: audio time 7000 ms last updated at
1000000 us, `TimeNow` = 1250000 us, manual offset 0, so the clock is 7250 ms. -/
theorem master_clock_formula_witness :
    TorcSGVideoPlayer.Refresh.audioTime
        { TimeNow := 1250000, videoStream := 0, audioStream := 1, audioTime := 7000
          lastAudioUpdate := 1000000 }
        (sampleSGPlayer []) true = specMasterClock 7000 1250000 1000000 0 ∧
    specMasterClock 7000 1250000 1000000 0 = 7250 :=
  ⟨(master_clock_formula
      { TimeNow := 1250000, videoStream := 0, audioStream := 1, audioTime := 7000
        lastAudioUpdate := 1000000 }
      (sampleSGPlayer []) rfl (by decide) (by decide)).1 (by decide), by decide⟩


/-! ## Theorems: the frame the video refresh shows -/

theorem releaseCurrent_spec (s : TorcSGVideoPlayer) :
    (TorcSGVideoPlayer.Refresh.releaseCurrent s).m_currentFrame = none ∧
    (TorcSGVideoPlayer.Refresh.releaseCurrent s).rendered = s.rendered ∧
    (TorcSGVideoPlayer.Refresh.releaseCurrent s).base = s.base ∧
    (TorcSGVideoPlayer.Refresh.releaseCurrent s).m_buffers.decoded = s.m_buffers.decoded ∧
    (TorcSGVideoPlayer.Refresh.releaseCurrent s).m_videoProvider = s.m_videoProvider := by
  unfold TorcSGVideoPlayer.Refresh.releaseCurrent
  cases s.m_currentFrame <;> exact ⟨rfl, rfl, rfl, rfl, rfl⟩

theorem render_none (env : SGRefreshEnv) (s : TorcSGVideoPlayer) (h : s.m_currentFrame = none) :
    TorcSGVideoPlayer.Refresh.render env s = s := by
  unfold TorcSGVideoPlayer.Refresh.render
  rw [h]

theorem render_spec (env : SGRefreshEnv) (s : TorcSGVideoPlayer) :
    (TorcSGVideoPlayer.Refresh.render env s).m_currentFrame = s.m_currentFrame ∧
    (TorcSGVideoPlayer.Refresh.render env s).m_buffers = s.m_buffers ∧
    ((TorcSGVideoPlayer.Refresh.render env s).rendered = s.rendered ∨
      ∃ f, s.m_currentFrame = some f ∧
        (TorcSGVideoPlayer.Refresh.render env s).rendered = s.rendered ++ [(f, env.TimeNow)]) := by
  unfold TorcSGVideoPlayer.Refresh.render
  cases hf : s.m_currentFrame with
  | none => exact ⟨hf, rfl, Or.inl rfl⟩
  | some f =>
    simp only []
    split_ifs
    · exact ⟨rfl, rfl, Or.inr ⟨f, rfl, rfl⟩⟩
    · exact ⟨hf, rfl, Or.inl rfl⟩
    · exact ⟨hf, rfl, Or.inl rfl⟩

/-- A difference that fits a `qint64` is the drift itself. -/
theorem drift_of_fits (audiotime videotime : Int)
    (h1 : -2 ^ 63 ≤ audiotime - videotime) (h2 : audiotime - videotime < 2 ^ 63) :
    TorcSGVideoPlayer.Refresh.drift audiotime videotime = audiotime - videotime := by
  unfold TorcSGVideoPlayer.Refresh.drift
  rw [Int.emod_eq_of_lt (by omega) (by omega)]
  omega

theorem catchUp_spec (audiotime : Int) :
    ∀ (fuel : Nat) (b : VideoBuffers) (frame : VideoFrame), b.decoded.length < fuel →
      ∃ r, TorcSGVideoPlayer.Refresh.catchUp audiotime fuel b frame = some r ∧
        (∀ f, r.1 = some f → TorcSGVideoPlayer.Refresh.drift audiotime f.m_pts ≤ 50) ∧
        (TorcSGVideoPlayer.Refresh.drift audiotime frame.m_pts ≤ 50 → r = (some frame, b)) := by
  intro fuel
  induction fuel with
  | zero => intro b frame h; exact absurd h (Nat.not_lt_zero _)
  | succ n ih =>
    intro b frame h
    unfold TorcSGVideoPlayer.Refresh.catchUp
    by_cases hd : TorcSGVideoPlayer.Refresh.drift audiotime frame.m_pts > 50
    · rw [if_pos hd]
      simp only []
      cases hdec : b.decoded with
      | nil =>
        have hg : (b.ReleaseFrameFromDisplaying frame).GetFrameForDisplaying.1 = none := by
          simp [VideoBuffers.GetFrameForDisplaying, VideoBuffers.ReleaseFrameFromDisplaying, hdec]
        rw [hg]
        exact ⟨_, rfl, fun f hf => by simp at hf, fun hle => absurd hd (not_lt.mpr hle)⟩
      | cons f1 rest =>
        have hg : (b.ReleaseFrameFromDisplaying frame).GetFrameForDisplaying.1 = some f1 := by
          simp [VideoBuffers.GetFrameForDisplaying, VideoBuffers.ReleaseFrameFromDisplaying, hdec]
        have hl : (b.ReleaseFrameFromDisplaying frame).GetFrameForDisplaying.2.decoded.length < n := by
          simp [VideoBuffers.GetFrameForDisplaying, VideoBuffers.ReleaseFrameFromDisplaying, hdec]
          rw [hdec] at h
          simp at h
          omega
        rw [hg]
        simp only []
        obtain ⟨r, hr, hr1, _⟩ := ih _ f1 hl
        exact ⟨r, hr, hr1, fun hle => absurd hd (not_lt.mpr hle)⟩
    · rw [if_neg hd]
      refine ⟨_, rfl, ?_, fun _ => rfl⟩
      intro f hf
      simp at hf
      rw [← hf]
      exact not_lt.mp hd

theorem select_spec (audiotime : Int) (hasaudiostream : Bool) (s : TorcSGVideoPlayer) :
    ∃ s1, TorcSGVideoPlayer.Refresh.select audiotime hasaudiostream s = some s1 ∧
      s1.base = s.base ∧ s1.rendered = s.rendered ∧ s1.m_videoProvider = s.m_videoProvider ∧
      (s.m_currentFrame = none → hasaudiostream = true → audiotime ≠ AV_NOPTS_VALUE →
        ∀ f, s1.m_currentFrame = some f →
          TorcSGVideoPlayer.Refresh.drift audiotime f.m_pts ≤ 50 ∧ (s.m_buffers.decoded.head? = some f → f.m_pts - audiotime ≤ 50)) := by
  unfold TorcSGVideoPlayer.Refresh.select
  simp only []
  by_cases h1 : (hasaudiostream && (audiotime != AV_NOPTS_VALUE) &&
      (s.m_buffers.GetNextVideoTimeStamp AV_NOPTS_VALUE != AV_NOPTS_VALUE) &&
      decide (s.m_buffers.GetNextVideoTimeStamp AV_NOPTS_VALUE - audiotime > 50)) = true
  · rw [if_pos h1]
    exact ⟨s, rfl, rfl, rfl, rfl, fun hn _ _ f hf => by rw [hn] at hf; simp at hf⟩
  · rw [if_neg h1]
    by_cases h2 : (hasaudiostream && !(audiotime != AV_NOPTS_VALUE)) = true
    · rw [if_pos h2]
      exact ⟨s, rfl, rfl, rfl, rfl, fun hn _ _ f hf => by rw [hn] at hf; simp at hf⟩
    · rw [if_neg h2]
      by_cases h3 : (hasaudiostream &&
          !(s.m_buffers.GetNextVideoTimeStamp AV_NOPTS_VALUE != AV_NOPTS_VALUE)) = true
      · rw [if_pos h3]
        exact ⟨s, rfl, rfl, rfl, rfl, fun hn _ _ f hf => by rw [hn] at hf; simp at hf⟩
      · rw [if_neg h3]
        cases hdec : s.m_buffers.decoded with
        | nil =>
          have hg : s.m_buffers.GetFrameForDisplaying = (none, s.m_buffers) := by
            simp [VideoBuffers.GetFrameForDisplaying, hdec]
          rw [hg]
          exact ⟨_, rfl, rfl, rfl, rfl, fun _ _ _ f hf => by simp at hf⟩
        | cons f1 rest =>
          have hg : s.m_buffers.GetFrameForDisplaying =
              (some f1, { s.m_buffers with decoded := rest,
                                           displaying := s.m_buffers.displaying ++ [f1] }) := by
            simp [VideoBuffers.GetFrameForDisplaying, hdec]
          have hts : s.m_buffers.GetNextVideoTimeStamp AV_NOPTS_VALUE = f1.m_pts := by
            simp [VideoBuffers.GetNextVideoTimeStamp, hdec]
          rw [hg]
          simp only []
          cases ha : hasaudiostream with
          | false =>
            simp only [Bool.false_eq_true, if_false]
            exact ⟨_, rfl, rfl, rfl, rfl, fun _ hc => by simp at hc⟩
          | true =>
            simp only [if_true]
            obtain ⟨r, hr, hr1, hr2⟩ := catchUp_spec audiotime (rest.length + 1)
              { s.m_buffers with decoded := rest, displaying := s.m_buffers.displaying ++ [f1] }
              f1 (Nat.lt_succ_self _)
            rw [hr]
            refine ⟨_, rfl, rfl, rfl, rfl, ?_⟩
            intro _ _ hva f hf
            simp only [Option.map_some'] at hf
            refine ⟨hr1 f hf, ?_⟩
            intro hhead
            simp only [List.head?_cons, Option.some.injEq] at hhead
            rw [← hhead]
            rw [ha, hts] at h1
            have hva2 : (audiotime != AV_NOPTS_VALUE) = true := by simpa using hva
            rw [ha, hts] at h3
            simp only [Bool.true_and, Bool.not_eq_true', bne_eq_false_iff_eq,
              Bool.not_eq_true] at h3
            have hvv : (f1.m_pts != AV_NOPTS_VALUE) = true := by
              cases hb : (f1.m_pts != AV_NOPTS_VALUE)
              · simp at hb
                simp [hb] at h3
              · rfl
            rw [hva2, hvv] at h1
            simpa using h1


theorem audioTime_release (env : SGRefreshEnv) (s : TorcSGVideoPlayer) (b : Bool) :
    TorcSGVideoPlayer.Refresh.audioTime env (TorcSGVideoPlayer.Refresh.releaseCurrent s) b =
      TorcSGVideoPlayer.Refresh.audioTime env s b := by
  unfold TorcSGVideoPlayer.Refresh.audioTime TorcSGVideoPlayer.Refresh.releaseCurrent
  cases s.m_currentFrame <;> rfl

theorem video_without_streams (env : SGRefreshEnv) (s : TorcSGVideoPlayer)
    (h : ¬ (s.base.m_decoder.isSome = true ∧ env.videoStream ≠ -1)) :
    TorcSGVideoPlayer.Refresh.video env s = some (TorcSGVideoPlayer.Refresh.releaseCurrent s) := by
  unfold TorcSGVideoPlayer.Refresh.video
  simp only []
  rw [if_neg]
  rw [(releaseCurrent_spec s).2.2.1]
  intro hc
  apply h
  simpa using hc

/-- C18, counterexample: the audio clock is 1000 ms and the decoded frames have
the times 900 ms and 1100 ms. The oldest frame does not lead, so video does not
wait; it lags by 100 ms and is released; the frame of 1100 ms is taken and
handed to the provider although it leads the clock by 100 ms. -/
theorem rendered_frame_leads_after_drop :
    TorcSGVideoPlayer.Refresh.audioTime (sampleTick 1000)
        (sampleSGPlayer [{ m_frameNumber := 1, m_pts := 900 }, { m_frameNumber := 2, m_pts := 1100 }])
        true = 1000 ∧
    (TorcSGVideoPlayer.Refresh (sampleTick 1000)
        (sampleSGPlayer [{ m_frameNumber := 1, m_pts := 900 },
          { m_frameNumber := 2, m_pts := 1100 }])).map (fun x => x.2.rendered) =
      some [({ m_frameNumber := 2, m_pts := 1100 }, 2000000)] ∧
    ¬ (|({ m_frameNumber := 2, m_pts := 1100 } : VideoFrame).m_pts -
        TorcSGVideoPlayer.Refresh.audioTime (sampleTick 1000)
          (sampleSGPlayer [{ m_frameNumber := 1, m_pts := 900 },
            { m_frameNumber := 2, m_pts := 1100 }]) true| ≤ 50) := by
  refine ⟨by decide, by decide, by decide⟩


/-- C18, amended: the refresh returns, and when it hands a frame to the
provider while an audio stream is selected and the audio clock is valid, the
drift of that frame (clock minus frame time as the `qint64` holds it) is at most
50 ms. When the clock exceeds the frame's time by less than `2^63`, so that the
difference does not wrap, the clock exceeds that frame's time by at most 50 ms;
and when that frame is moreover the oldest decoded frame of the tick (no frame
was released during catch-up), its time exceeds the clock by at most 50 ms as
well, so the absolute difference is at most 50 ms. -/
theorem rendered_frame_lag_bounded (env : SGRefreshEnv) (s : TorcSGVideoPlayer)
    (ha : env.audioStream ≠ -1)
    (hclock : TorcSGVideoPlayer.Refresh.audioTime env s (env.audioStream != -1) ≠ AV_NOPTS_VALUE) :
    ∃ r, TorcSGVideoPlayer.Refresh env s = some r ∧
      (r.2.rendered = s.rendered ∨
        ∃ f, r.2.rendered = s.rendered ++ [(f, env.TimeNow)] ∧
          TorcSGVideoPlayer.Refresh.drift
            (TorcSGVideoPlayer.Refresh.audioTime env s (env.audioStream != -1)) f.m_pts ≤ 50 ∧
          (TorcSGVideoPlayer.Refresh.audioTime env s (env.audioStream != -1) - f.m_pts < 2 ^ 63 →
            TorcSGVideoPlayer.Refresh.audioTime env s (env.audioStream != -1) - f.m_pts ≤ 50 ∧
            (s.m_buffers.decoded.head? = some f →
              |f.m_pts - TorcSGVideoPlayer.Refresh.audioTime env s (env.audioStream != -1)|
                ≤ 50))) := by
  have hrel := releaseCurrent_spec s
  by_cases hg : s.base.m_decoder.isSome = true ∧ env.videoStream ≠ -1
  · have hv := video_with_streams env s hg.1 hg.2
    rw [audioTime_release] at hv
    obtain ⟨s1, hs1, _, hr, _, hbound⟩ := select_spec
      (TorcSGVideoPlayer.Refresh.audioTime env s (env.audioStream != -1)) (env.audioStream != -1)
      (TorcSGVideoPlayer.Refresh.releaseCurrent s)
    rw [hs1, Option.map_some'] at hv
    have hren := render_spec env s1
    unfold TorcSGVideoPlayer.Refresh
    rw [hv, Option.map_some']
    refine ⟨_, rfl, ?_⟩
    simp only []
    rcases hren.2.2 with hsame | ⟨f, hf, hadd⟩
    · left
      rw [hsame, hr, hrel.2.1]
    · right
      have hb := hbound hrel.1 (by simpa using ha) hclock f hf
      refine ⟨f, by rw [hadd, hr, hrel.2.1], hb.1, ?_⟩
      intro hfits
      have hlag : TorcSGVideoPlayer.Refresh.audioTime env s (env.audioStream != -1) - f.m_pts
          ≤ 50 := by
        by_cases hlow : -2 ^ 63 ≤
            TorcSGVideoPlayer.Refresh.audioTime env s (env.audioStream != -1) - f.m_pts
        · rw [← drift_of_fits _ _ hlow hfits]
          exact hb.1
        · omega
      refine ⟨hlag, ?_⟩
      intro hhead
      rw [hrel.2.2.2.1] at hb
      have h2 := hb.2 hhead
      rw [abs_le]
      constructor
      · omega
      · exact h2
  · have hv := video_without_streams env s hg
    unfold TorcSGVideoPlayer.Refresh
    rw [hv, Option.map_some']
    exact ⟨_, rfl, Or.inl hrel.2.1⟩

/-- C18, amended, on a sample tick: the audio clock is 1000 ms and the oldest
decoded frame has the time 1020 ms; it is handed to the provider, and the clock
minus its time is below `2^63`. -/
theorem rendered_frame_lag_bounded_witness :
    (∃ r, TorcSGVideoPlayer.Refresh (sampleTick 1000)
        (sampleSGPlayer [{ m_frameNumber := 1, m_pts := 1020 }]) = some r ∧
      (r.2.rendered = [] ∨
        ∃ f, r.2.rendered = [] ++ [(f, 2000000)] ∧
          TorcSGVideoPlayer.Refresh.drift
            (TorcSGVideoPlayer.Refresh.audioTime (sampleTick 1000)
              (sampleSGPlayer [{ m_frameNumber := 1, m_pts := 1020 }]) (decide (1 ≠ -1)))
            f.m_pts ≤ 50 ∧
          (TorcSGVideoPlayer.Refresh.audioTime (sampleTick 1000)
              (sampleSGPlayer [{ m_frameNumber := 1, m_pts := 1020 }]) (decide (1 ≠ -1)) - f.m_pts
              < 2 ^ 63 →
            TorcSGVideoPlayer.Refresh.audioTime (sampleTick 1000)
              (sampleSGPlayer [{ m_frameNumber := 1, m_pts := 1020 }]) (decide (1 ≠ -1)) - f.m_pts
              ≤ 50 ∧
            ((sampleSGPlayer [{ m_frameNumber := 1, m_pts := 1020 }]).m_buffers.decoded.head? =
                some f →
              |f.m_pts - TorcSGVideoPlayer.Refresh.audioTime (sampleTick 1000)
                (sampleSGPlayer [{ m_frameNumber := 1, m_pts := 1020 }]) (decide (1 ≠ -1))|
                ≤ 50)))) ∧
    (TorcSGVideoPlayer.Refresh (sampleTick 1000)
        (sampleSGPlayer [{ m_frameNumber := 1, m_pts := 1020 }])).map (fun x => x.2.rendered) =
      some [({ m_frameNumber := 1, m_pts := 1020 }, 2000000)] ∧
    TorcSGVideoPlayer.Refresh.audioTime (sampleTick 1000)
        (sampleSGPlayer [{ m_frameNumber := 1, m_pts := 1020 }]) (decide (1 ≠ -1)) - 1020
      < 2 ^ 63 :=
  ⟨rendered_frame_lag_bounded (sampleTick 1000)
    (sampleSGPlayer [{ m_frameNumber := 1, m_pts := 1020 }]) (by decide) (by decide), by decide,
    by decide⟩


/-! ## Theorems: when the video refresh waits -/

theorem select_waits (audiotime : Int) (s : TorcSGVideoPlayer)
    (h : audiotime = AV_NOPTS_VALUE ∨ s.m_buffers.decoded = [] ∨
      ∃ f rest, s.m_buffers.decoded = f :: rest ∧ f.m_pts - audiotime > 50) :
    TorcSGVideoPlayer.Refresh.select audiotime true s = some s := by
  unfold TorcSGVideoPlayer.Refresh.select
  simp only []
  by_cases ha : audiotime = AV_NOPTS_VALUE
  · simp [ha]
  · by_cases hv : s.m_buffers.GetNextVideoTimeStamp AV_NOPTS_VALUE = AV_NOPTS_VALUE
    · simp [ha, hv]
    · rcases h with h | h | ⟨f, rest, hdec, hlead⟩
      · exact absurd h ha
      · exact absurd (by simp [VideoBuffers.GetNextVideoTimeStamp, h]) hv
      · have hts : s.m_buffers.GetNextVideoTimeStamp AV_NOPTS_VALUE = f.m_pts := by
          simp [VideoBuffers.GetNextVideoTimeStamp, hdec]
        rw [hts] at hv
        rw [hts]
        simp [ha, hv, hlead]

theorem select_takes_at_50 (audiotime : Int) (s : TorcSGVideoPlayer) (f : VideoFrame)
    (rest : List VideoFrame) (ha : audiotime ≠ AV_NOPTS_VALUE)
    (hdec : s.m_buffers.decoded = f :: rest) (hv : f.m_pts ≠ AV_NOPTS_VALUE)
    (hlead : f.m_pts - audiotime = 50) :
    TorcSGVideoPlayer.Refresh.select audiotime true s =
      some { s with m_currentFrame := some f, m_buffers := s.m_buffers.GetFrameForDisplaying.2 } := by
  have hts : s.m_buffers.GetNextVideoTimeStamp AV_NOPTS_VALUE = f.m_pts := by
    simp [VideoBuffers.GetNextVideoTimeStamp, hdec]
  have hg : s.m_buffers.GetFrameForDisplaying =
      (some f, { s.m_buffers with decoded := rest,
                                  displaying := s.m_buffers.displaying ++ [f] }) := by
    simp [VideoBuffers.GetFrameForDisplaying, hdec]
  obtain ⟨r, hr, _, hr2⟩ := catchUp_spec audiotime (rest.length + 1)
    { s.m_buffers with decoded := rest, displaying := s.m_buffers.displaying ++ [f] }
    f (Nat.lt_succ_self _)
  have hr3 := hr2 (by rw [drift_of_fits _ _ (by omega) (by omega)]; omega)
  rw [hr3] at hr
  unfold TorcSGVideoPlayer.Refresh.select
  simp only []
  rw [hts, hg]
  simp only []
  rw [hr]
  simp [ha, hv, hlead]

theorem select_no_audio (audiotime : Int) (s : TorcSGVideoPlayer) :
    TorcSGVideoPlayer.Refresh.select audiotime false s =
      some { s with m_currentFrame := s.m_buffers.GetFrameForDisplaying.1,
                    m_buffers := s.m_buffers.GetFrameForDisplaying.2 } := by
  unfold TorcSGVideoPlayer.Refresh.select
  simp only [Bool.false_and, Bool.false_eq_true, if_false]
  cases hdec : s.m_buffers.decoded with
  | nil => simp [VideoBuffers.GetFrameForDisplaying, hdec]
  | cons f rest => simp [VideoBuffers.GetFrameForDisplaying, hdec]

theorem GetFrameForDisplaying_spec (b : VideoBuffers) :
    b.GetFrameForDisplaying.1 = b.decoded.head? ∧
    b.GetFrameForDisplaying.2.decoded = b.decoded.tail ∧
    b.GetFrameForDisplaying.2.free = b.free := by
  unfold VideoBuffers.GetFrameForDisplaying
  cases hd : b.decoded with
  | nil => exact ⟨rfl, by simp [hd], rfl⟩
  | cons f rest => exact ⟨rfl, rfl, rfl⟩


/-- C20: when the video refresh waits and when it does not. With an audio
stream selected, if the audio clock is not known, or no frame is decoded, or the
oldest decoded frame leads the clock by more than 50 ms, the refresh takes no
frame from the pool (the pool is as the release of the frame shown last left it,
the decoded frames are untouched), leaves no current frame and hands nothing to
the provider. With a decoder that has a video stream selected: a lead of exactly
50 ms does not make video wait, the oldest decoded frame is taken; and with no
audio stream selected the oldest decoded frame, if any, is taken and no frame is
released. -/
theorem video_waits_or_takes (env : SGRefreshEnv) (s : TorcSGVideoPlayer) :
    (env.audioStream ≠ -1 →
      (TorcSGVideoPlayer.Refresh.audioTime env s (env.audioStream != -1) = AV_NOPTS_VALUE ∨
        s.m_buffers.decoded = [] ∨
        ∃ f rest, s.m_buffers.decoded = f :: rest ∧
          f.m_pts - TorcSGVideoPlayer.Refresh.audioTime env s (env.audioStream != -1) > 50) →
      ∃ r, TorcSGVideoPlayer.Refresh env s = some r ∧ r.2.m_currentFrame = none ∧
        r.2.m_buffers = (TorcSGVideoPlayer.Refresh.releaseCurrent s).m_buffers ∧
        r.2.m_buffers.decoded = s.m_buffers.decoded ∧ r.2.rendered = s.rendered) ∧
    (s.base.m_decoder.isSome = true → env.videoStream ≠ -1 → env.audioStream ≠ -1 →
      TorcSGVideoPlayer.Refresh.audioTime env s (env.audioStream != -1) ≠ AV_NOPTS_VALUE →
      ∀ f rest, s.m_buffers.decoded = f :: rest → f.m_pts ≠ AV_NOPTS_VALUE →
        f.m_pts - TorcSGVideoPlayer.Refresh.audioTime env s (env.audioStream != -1) = 50 →
        ∃ r, TorcSGVideoPlayer.Refresh env s = some r ∧ r.2.m_currentFrame = some f ∧
          r.2.m_buffers.decoded = rest ∧
          r.2.m_buffers.free = (TorcSGVideoPlayer.Refresh.releaseCurrent s).m_buffers.free) ∧
    (s.base.m_decoder.isSome = true → env.videoStream ≠ -1 → env.audioStream = -1 →
      ∃ r, TorcSGVideoPlayer.Refresh env s = some r ∧
        r.2.m_currentFrame = s.m_buffers.decoded.head? ∧
        r.2.m_buffers.decoded = s.m_buffers.decoded.tail ∧
        r.2.m_buffers.free = (TorcSGVideoPlayer.Refresh.releaseCurrent s).m_buffers.free) := by
  have hrel := releaseCurrent_spec s
  refine ⟨?_, ?_, ?_⟩
  · intro ha hwait
    have hab : (env.audioStream != -1) = true := by simpa using ha
    have hv : TorcSGVideoPlayer.Refresh.video env s =
        some (TorcSGVideoPlayer.Refresh.releaseCurrent s) := by
      by_cases hg : s.base.m_decoder.isSome = true ∧ env.videoStream ≠ -1
      · rw [video_with_streams env s hg.1 hg.2, audioTime_release]
        rw [hab] at hwait ⊢
        rw [select_waits _ _ (by rw [hrel.2.2.2.1]; exact hwait), Option.map_some',
          render_none env _ hrel.1]
      · exact video_without_streams env s hg
    unfold TorcSGVideoPlayer.Refresh
    rw [hv, Option.map_some']
    exact ⟨_, rfl, hrel.1, rfl, hrel.2.2.2.1, hrel.2.1⟩
  · intro hd hvs ha hclock f rest hdec hvalid hlead
    have hab : (env.audioStream != -1) = true := by simpa using ha
    rw [hab] at hclock hlead
    have hsel := select_takes_at_50 _ (TorcSGVideoPlayer.Refresh.releaseCurrent s) f rest hclock
      (by rw [hrel.2.2.2.1]; exact hdec) hvalid hlead
    have hg := GetFrameForDisplaying_spec (TorcSGVideoPlayer.Refresh.releaseCurrent s).m_buffers
    unfold TorcSGVideoPlayer.Refresh
    rw [video_with_streams env s hd hvs, audioTime_release, hab, hsel, Option.map_some',
      Option.map_some']
    refine ⟨_, rfl, ?_, ?_, ?_⟩
    · exact (render_spec env _).1
    · simp only []
      rw [(render_spec env _).2.1]
      simp only []
      rw [hg.2.1, hrel.2.2.2.1, hdec]
      rfl
    · simp only []
      rw [(render_spec env _).2.1]
      exact hg.2.2
  · intro hd hvs ha
    have hab : (env.audioStream != -1) = false := by simp [ha]
    have hg := GetFrameForDisplaying_spec (TorcSGVideoPlayer.Refresh.releaseCurrent s).m_buffers
    unfold TorcSGVideoPlayer.Refresh
    rw [video_with_streams env s hd hvs, hab, select_no_audio, Option.map_some',
      Option.map_some']
    refine ⟨_, rfl, ?_, ?_, ?_⟩
    · simp only []
      rw [(render_spec env _).1]
      simp only []
      rw [hg.1, hrel.2.2.2.1]
    · simp only []
      rw [(render_spec env _).2.1]
      simp only []
      rw [hg.2.1, hrel.2.2.2.1]
    · simp only []
      rw [(render_spec env _).2.1]
      exact hg.2.2

/-- C20 on sample ticks with the audio clock at 1000 ms: a frame of 1051 ms is
left in the pool and nothing is shown, and a frame of 1050 ms is taken. -/
theorem video_waits_or_takes_witness :
    (∃ r, TorcSGVideoPlayer.Refresh (sampleTick 1000)
        (sampleSGPlayer [{ m_frameNumber := 1, m_pts := 1051 }]) = some r ∧
      r.2.m_currentFrame = none ∧
      r.2.m_buffers = (TorcSGVideoPlayer.Refresh.releaseCurrent
        (sampleSGPlayer [{ m_frameNumber := 1, m_pts := 1051 }])).m_buffers ∧
      r.2.m_buffers.decoded =
        (sampleSGPlayer [{ m_frameNumber := 1, m_pts := 1051 }]).m_buffers.decoded ∧
      r.2.rendered = (sampleSGPlayer [{ m_frameNumber := 1, m_pts := 1051 }]).rendered) ∧
    (TorcSGVideoPlayer.Refresh (sampleTick 1000)
        (sampleSGPlayer [{ m_frameNumber := 1, m_pts := 1050 }])).map
        (fun x => x.2.m_currentFrame) = some (some { m_frameNumber := 1, m_pts := 1050 }) :=
  ⟨(video_waits_or_takes (sampleTick 1000)
      (sampleSGPlayer [{ m_frameNumber := 1, m_pts := 1051 }])).1 (by decide)
      (Or.inr (Or.inr ⟨{ m_frameNumber := 1, m_pts := 1051 }, [], rfl, by decide⟩)),
    by decide⟩


/-! ## Theorems: the catch-up loop of the video refresh -/

theorem catchUp_drops (audiotime : Int) :
    ∀ (fuel : Nat) (b : VideoBuffers) (frame : VideoFrame), b.decoded.length < fuel →
      ∃ r dropped, TorcSGVideoPlayer.Refresh.catchUp audiotime fuel b frame = some r ∧
        (∀ f ∈ dropped, TorcSGVideoPlayer.Refresh.drift audiotime f.m_pts > 50) ∧
        r.2.free = b.free ++ dropped ∧
        frame :: b.decoded = dropped ++ r.1.toList ++ r.2.decoded ∧
        (∀ f, r.1 = some f → TorcSGVideoPlayer.Refresh.drift audiotime f.m_pts ≤ 50) := by
  intro fuel
  induction fuel with
  | zero => intro b frame h; exact absurd h (Nat.not_lt_zero _)
  | succ n ih =>
    intro b frame h
    unfold TorcSGVideoPlayer.Refresh.catchUp
    by_cases hd : TorcSGVideoPlayer.Refresh.drift audiotime frame.m_pts > 50
    · rw [if_pos hd]
      simp only []
      cases hdec : b.decoded with
      | nil =>
        have hg : (b.ReleaseFrameFromDisplaying frame).GetFrameForDisplaying =
            (none, b.ReleaseFrameFromDisplaying frame) := by
          simp [VideoBuffers.GetFrameForDisplaying, VideoBuffers.ReleaseFrameFromDisplaying, hdec]
        rw [hg]
        refine ⟨_, [frame], rfl, ?_, rfl, ?_, fun f hf => by simp at hf⟩
        · intro f hf
          rw [List.mem_singleton] at hf
          rw [hf]
          exact hd
        · simp [VideoBuffers.ReleaseFrameFromDisplaying, hdec]
      | cons f1 rest =>
        have hg : (b.ReleaseFrameFromDisplaying frame).GetFrameForDisplaying =
            (some f1, { b.ReleaseFrameFromDisplaying frame with
                        decoded := rest
                        displaying := (b.ReleaseFrameFromDisplaying frame).displaying ++ [f1] }) := by
          simp [VideoBuffers.GetFrameForDisplaying, VideoBuffers.ReleaseFrameFromDisplaying, hdec]
        rw [hg]
        simp only []
        have hl : rest.length < n := by
          rw [hdec] at h
          simp at h
          omega
        obtain ⟨r, dropped, hr, hlag, hfree, htaken, hcur⟩ := ih
          { b.ReleaseFrameFromDisplaying frame with
            decoded := rest
            displaying := (b.ReleaseFrameFromDisplaying frame).displaying ++ [f1] } f1 hl
        refine ⟨r, frame :: dropped, hr, ?_, ?_, ?_, hcur⟩
        · intro f hf
          rcases List.mem_cons.mp hf with hf | hf
          · rw [hf]; exact hd
          · exact hlag f hf
        · rw [hfree]
          simp [VideoBuffers.ReleaseFrameFromDisplaying]
        · simp only [] at htaken
          rw [htaken]
          simp
    · rw [if_neg hd]
      refine ⟨_, [], rfl, fun f hf => by simp at hf, by simp, by simp, ?_⟩
      intro f hf
      simp at hf
      rw [← hf]
      exact not_lt.mp hd

theorem select_drops (audiotime : Int) (s : TorcSGVideoPlayer) (hcur : s.m_currentFrame = none) :
    ∃ s1 dropped, TorcSGVideoPlayer.Refresh.select audiotime true s = some s1 ∧
      s1.base = s.base ∧ s1.rendered = s.rendered ∧
      (∀ f ∈ dropped, TorcSGVideoPlayer.Refresh.drift audiotime f.m_pts > 50) ∧
      s1.m_buffers.free = s.m_buffers.free ++ dropped ∧
      s.m_buffers.decoded = dropped ++ s1.m_currentFrame.toList ++ s1.m_buffers.decoded ∧
      (∀ f, s1.m_currentFrame = some f → TorcSGVideoPlayer.Refresh.drift audiotime f.m_pts ≤ 50) := by
  have hwait : ∃ s1 dropped, some s = some s1 ∧
      s1.base = s.base ∧ s1.rendered = s.rendered ∧
      (∀ f ∈ dropped, TorcSGVideoPlayer.Refresh.drift audiotime f.m_pts > 50) ∧
      s1.m_buffers.free = s.m_buffers.free ++ dropped ∧
      s.m_buffers.decoded = dropped ++ s1.m_currentFrame.toList ++ s1.m_buffers.decoded ∧
      (∀ f, s1.m_currentFrame = some f → TorcSGVideoPlayer.Refresh.drift audiotime f.m_pts ≤ 50) :=
    ⟨s, [], rfl, rfl, rfl, fun f hf => by simp at hf, by simp, by simp [hcur],
      fun f hf => by rw [hcur] at hf; simp at hf⟩
  unfold TorcSGVideoPlayer.Refresh.select
  simp only []
  split_ifs
  · exact hwait
  · exact hwait
  · exact hwait
  · cases hdec : s.m_buffers.decoded with
    | nil =>
      have hg : s.m_buffers.GetFrameForDisplaying = (none, s.m_buffers) := by
        simp [VideoBuffers.GetFrameForDisplaying, hdec]
      rw [hg]
      exact ⟨_, [], rfl, rfl, rfl, fun f hf => by simp at hf, by simp, by simp [hdec],
        fun f hf => by simp at hf⟩
    | cons f1 rest =>
      have hg : s.m_buffers.GetFrameForDisplaying =
          (some f1, { s.m_buffers with decoded := rest,
                                       displaying := s.m_buffers.displaying ++ [f1] }) := by
        simp [VideoBuffers.GetFrameForDisplaying, hdec]
      rw [hg]
      simp only [if_true]
      obtain ⟨r, dropped, hr, hlag, hfree, htaken, hc⟩ := catchUp_drops audiotime (rest.length + 1)
        { s.m_buffers with decoded := rest, displaying := s.m_buffers.displaying ++ [f1] }
        f1 (Nat.lt_succ_self _)
      rw [hr]
      exact ⟨_, dropped, rfl, rfl, rfl, hlag, hfree, htaken, hc⟩


/-- C21 at the failing input: the audio clock is 1000 ms and the decoded frames
are a frame of 900 ms and a frame whose time is `AV_NOPTS_VALUE`. The first
frame is released. The second lags the clock by more than 50 ms (by
`1000 + 2^63` ms), but its drift in the `qint64` is negative, so the loop stops:
the frame is kept as current frame and handed to the provider. -/
theorem catch_up_keeps_frame_without_pts :
    TorcSGVideoPlayer.Refresh.audioTime (sampleTick 1000)
        (sampleSGPlayer [{ m_frameNumber := 1, m_pts := 900 },
          { m_frameNumber := 2, m_pts := AV_NOPTS_VALUE }]) true = 1000 ∧
    (1000 : Int) - AV_NOPTS_VALUE > 50 ∧
    TorcSGVideoPlayer.Refresh.drift 1000 AV_NOPTS_VALUE = -9223372036854774808 ∧
    (TorcSGVideoPlayer.Refresh (sampleTick 1000)
        (sampleSGPlayer [{ m_frameNumber := 1, m_pts := 900 },
          { m_frameNumber := 2, m_pts := AV_NOPTS_VALUE }])).map
        (fun x => (x.2.m_buffers.free, x.2.m_currentFrame, x.2.rendered)) =
      some ([{ m_frameNumber := 1, m_pts := 900 }],
        some { m_frameNumber := 2, m_pts := AV_NOPTS_VALUE },
        [({ m_frameNumber := 2, m_pts := AV_NOPTS_VALUE }, 2000000)]) := by
  refine ⟨by decide, by decide, by decide, by decide⟩

/-- The catch-up loop with an audio stream selected, in terms of the drift as
the `qint64` holds it. The refresh returns, and the decoded frames it takes from
the pool in the tick are the frames `dropped`, followed by the frame it keeps as
current frame, if any. Every frame in `dropped` has a drift above 50 ms and is
back in the free list of the pool; the current frame has a drift of at most
50 ms; and the only frame that can be handed to the provider is the current
frame. -/
theorem catch_up_releases_lagging (env : SGRefreshEnv) (s : TorcSGVideoPlayer)
    (ha : env.audioStream ≠ -1) :
    ∃ r dropped, TorcSGVideoPlayer.Refresh env s = some r ∧
      (∀ f ∈ dropped,
        TorcSGVideoPlayer.Refresh.drift
            (TorcSGVideoPlayer.Refresh.audioTime env s (env.audioStream != -1)) f.m_pts > 50) ∧
      r.2.m_buffers.free = (TorcSGVideoPlayer.Refresh.releaseCurrent s).m_buffers.free ++ dropped ∧
      s.m_buffers.decoded = dropped ++ r.2.m_currentFrame.toList ++ r.2.m_buffers.decoded ∧
      (∀ f, r.2.m_currentFrame = some f →
        TorcSGVideoPlayer.Refresh.drift
            (TorcSGVideoPlayer.Refresh.audioTime env s (env.audioStream != -1)) f.m_pts ≤ 50) ∧
      (r.2.rendered = s.rendered ∨
        ∃ f, r.2.m_currentFrame = some f ∧ r.2.rendered = s.rendered ++ [(f, env.TimeNow)] ∧
          TorcSGVideoPlayer.Refresh.drift
            (TorcSGVideoPlayer.Refresh.audioTime env s (env.audioStream != -1)) f.m_pts ≤ 50) := by
  have hrel := releaseCurrent_spec s
  have hab : (env.audioStream != -1) = true := by simpa using ha
  by_cases hg : s.base.m_decoder.isSome = true ∧ env.videoStream ≠ -1
  · have hv := video_with_streams env s hg.1 hg.2
    rw [audioTime_release, hab] at hv
    rw [hab]
    obtain ⟨s1, dropped, hs1, _, hr, hlag, hfree, htaken, hcur⟩ := select_drops
      (TorcSGVideoPlayer.Refresh.audioTime env s true)
      (TorcSGVideoPlayer.Refresh.releaseCurrent s) hrel.1
    rw [hs1, Option.map_some'] at hv
    have hren := render_spec env s1
    unfold TorcSGVideoPlayer.Refresh
    rw [hv, Option.map_some']
    refine ⟨_, dropped, rfl, hlag, ?_, ?_, ?_, ?_⟩
    · simp only []
      rw [hren.2.1]
      exact hfree
    · simp only []
      rw [hren.2.1, hren.1, ← hrel.2.2.2.1]
      exact htaken
    · intro f hf
      simp only [] at hf
      rw [hren.1] at hf
      exact hcur f hf
    · simp only []
      rcases hren.2.2 with hsame | ⟨f, hf, hadd⟩
      · left
        rw [hsame, hr, hrel.2.1]
      · right
        exact ⟨f, by rw [hren.1]; exact hf, by rw [hadd, hr, hrel.2.1], hcur f hf⟩
  · have hv := video_without_streams env s hg
    unfold TorcSGVideoPlayer.Refresh
    rw [hv, Option.map_some']
    refine ⟨_, [], rfl, fun f hf => by simp at hf, by simp, ?_, ?_, Or.inl hrel.2.1⟩
    · simp only []
      rw [hrel.1, hrel.2.2.2.1]
      simp
    · intro f hf
      simp only [] at hf
      rw [hrel.1] at hf
      simp at hf

/-- On a sample tick: the audio clock is 1000 ms and the decoded frames
have the times 900 ms, 940 ms and 960 ms. The first two lag by more than 50 ms
and end in the free list; the third is the current frame and is shown. -/
theorem catch_up_releases_lagging_witness :
    (∃ r dropped, TorcSGVideoPlayer.Refresh (sampleTick 1000)
        (sampleSGPlayer [{ m_frameNumber := 1, m_pts := 900 }, { m_frameNumber := 2, m_pts := 940 },
          { m_frameNumber := 3, m_pts := 960 }]) = some r ∧
      (∀ f ∈ dropped,
        TorcSGVideoPlayer.Refresh.drift (TorcSGVideoPlayer.Refresh.audioTime (sampleTick 1000)
          (sampleSGPlayer [{ m_frameNumber := 1, m_pts := 900 },
            { m_frameNumber := 2, m_pts := 940 }, { m_frameNumber := 3, m_pts := 960 }])
          (decide (1 ≠ -1))) f.m_pts > 50) ∧
      r.2.m_buffers.free = (TorcSGVideoPlayer.Refresh.releaseCurrent
        (sampleSGPlayer [{ m_frameNumber := 1, m_pts := 900 },
          { m_frameNumber := 2, m_pts := 940 },
          { m_frameNumber := 3, m_pts := 960 }])).m_buffers.free ++ dropped ∧
      (sampleSGPlayer [{ m_frameNumber := 1, m_pts := 900 }, { m_frameNumber := 2, m_pts := 940 },
          { m_frameNumber := 3, m_pts := 960 }]).m_buffers.decoded =
        dropped ++ r.2.m_currentFrame.toList ++ r.2.m_buffers.decoded ∧
      (∀ f, r.2.m_currentFrame = some f →
        TorcSGVideoPlayer.Refresh.drift (TorcSGVideoPlayer.Refresh.audioTime (sampleTick 1000)
          (sampleSGPlayer [{ m_frameNumber := 1, m_pts := 900 },
            { m_frameNumber := 2, m_pts := 940 }, { m_frameNumber := 3, m_pts := 960 }])
          (decide (1 ≠ -1))) f.m_pts ≤ 50) ∧
      (r.2.rendered = [] ∨
        ∃ f, r.2.m_currentFrame = some f ∧ r.2.rendered = [] ++ [(f, 2000000)] ∧
          TorcSGVideoPlayer.Refresh.drift (TorcSGVideoPlayer.Refresh.audioTime (sampleTick 1000)
            (sampleSGPlayer [{ m_frameNumber := 1, m_pts := 900 },
              { m_frameNumber := 2, m_pts := 940 }, { m_frameNumber := 3, m_pts := 960 }])
            (decide (1 ≠ -1))) f.m_pts ≤ 50)) ∧
    (TorcSGVideoPlayer.Refresh (sampleTick 1000)
        (sampleSGPlayer [{ m_frameNumber := 1, m_pts := 900 }, { m_frameNumber := 2, m_pts := 940 },
          { m_frameNumber := 3, m_pts := 960 }])).map
        (fun x => (x.2.m_buffers.free, x.2.m_currentFrame, x.2.rendered)) =
      some ([{ m_frameNumber := 1, m_pts := 900 }, { m_frameNumber := 2, m_pts := 940 }],
        some { m_frameNumber := 3, m_pts := 960 },
        [({ m_frameNumber := 3, m_pts := 960 }, 2000000)]) :=
  ⟨catch_up_releases_lagging (sampleTick 1000)
    (sampleSGPlayer [{ m_frameNumber := 1, m_pts := 900 }, { m_frameNumber := 2, m_pts := 940 },
      { m_frameNumber := 3, m_pts := 960 }]) (by decide), by decide⟩


/-! ## Theorems: the fault counters of the timestamp tracker -/

theorem GetValidTimestamp_counters (t : PTSTracker) (PTS DTS : Int) :
    (PTS ≠ AV_NOPTS_VALUE → PTS ≤ t.m_lastPTS →
      (GetValidTimestamp t PTS DTS).2.m_faultyPTSCount = t.m_faultyPTSCount + 1) ∧
    (PTS ≠ AV_NOPTS_VALUE → t.m_lastPTS < PTS →
      (GetValidTimestamp t PTS DTS).2.m_faultyPTSCount = t.m_faultyPTSCount) ∧
    (PTS ≠ AV_NOPTS_VALUE → (GetValidTimestamp t PTS DTS).2.m_lastPTS = PTS) ∧
    (PTS = AV_NOPTS_VALUE →
      (GetValidTimestamp t PTS DTS).2.m_faultyPTSCount = t.m_faultyPTSCount ∧
      (GetValidTimestamp t PTS DTS).2.m_lastPTS = t.m_lastPTS) ∧
    (DTS ≠ AV_NOPTS_VALUE → DTS ≤ t.m_lastDTS →
      (GetValidTimestamp t PTS DTS).2.m_faultyDTSCount = t.m_faultyDTSCount + 1) ∧
    (DTS ≠ AV_NOPTS_VALUE → t.m_lastDTS < DTS →
      (GetValidTimestamp t PTS DTS).2.m_faultyDTSCount = t.m_faultyDTSCount) ∧
    (DTS ≠ AV_NOPTS_VALUE → (GetValidTimestamp t PTS DTS).2.m_lastDTS = DTS) ∧
    (DTS = AV_NOPTS_VALUE →
      (GetValidTimestamp t PTS DTS).2.m_faultyDTSCount = t.m_faultyDTSCount ∧
      (GetValidTimestamp t PTS DTS).2.m_lastDTS = t.m_lastDTS) := by
  unfold GetValidTimestamp
  by_cases hp : PTS = AV_NOPTS_VALUE <;> by_cases hd : DTS = AV_NOPTS_VALUE <;>
    by_cases hpl : PTS ≤ t.m_lastPTS <;> by_cases hdl : DTS ≤ t.m_lastDTS <;>
    simp only [] <;> split_ifs <;> simp_all

theorem GetValidTimestamp_clean (t : PTSTracker) (PTS DTS : Int)
    (hp : AV_NOPTS_VALUE < PTS) (hd : AV_NOPTS_VALUE < DTS)
    (hpl : t.m_lastPTS < PTS) (hdl : t.m_lastDTS < DTS)
    (hcp : t.m_faultyPTSCount = 0) (hcd : t.m_faultyDTSCount = 0) :
    GetValidTimestamp t PTS DTS =
      (PTS, { m_lastPTS := PTS, m_lastDTS := DTS, m_faultyPTSCount := 0, m_faultyDTSCount := 0 }) := by
  unfold GetValidTimestamp
  have h1 : (DTS != AV_NOPTS_VALUE) = true := by simpa using ne_of_gt hd
  have h2 : (PTS != AV_NOPTS_VALUE) = true := by simpa using ne_of_gt hp
  simp only [h1, h2, if_true, if_neg (not_le.mpr hpl), if_neg (not_le.mpr hdl), hcp, hcd]
  simp

theorem GetValidTimestamps_clean :
    ∀ (calls : List (Int × Int)) (t : PTSTracker),
      t.m_faultyPTSCount = 0 → t.m_faultyDTSCount = 0 →
      (∀ c ∈ calls, AV_NOPTS_VALUE < c.1 ∧ AV_NOPTS_VALUE < c.2 ∧
        t.m_lastPTS < c.1 ∧ t.m_lastDTS < c.2) →
      (calls.map Prod.fst).Pairwise (· < ·) → (calls.map Prod.snd).Pairwise (· < ·) →
      (GetValidTimestamps calls t).1 = calls.map Prod.fst ∧
      (GetValidTimestamps calls t).2.m_faultyPTSCount = 0 ∧
      (GetValidTimestamps calls t).2.m_faultyDTSCount = 0 := by
  intro calls
  induction calls with
  | nil => intro t hcp hcd _ _ _; exact ⟨rfl, hcp, hcd⟩
  | cons c rest ih =>
    intro t hcp hcd hall hps hds
    have hc := hall c (List.mem_cons_self _ _)
    have hstep := GetValidTimestamp_clean t c.1 c.2 hc.1 hc.2.1 hc.2.2.1 hc.2.2.2 hcp hcd
    simp only [List.map_cons, List.pairwise_cons] at hps hds
    have hrest := ih
      { m_lastPTS := c.1, m_lastDTS := c.2, m_faultyPTSCount := 0, m_faultyDTSCount := 0 }
      rfl rfl
      (fun x hx => ⟨(hall x (List.mem_cons_of_mem _ hx)).1,
        (hall x (List.mem_cons_of_mem _ hx)).2.1,
        hps.1 x.1 (List.mem_map_of_mem _ hx), hds.1 x.2 (List.mem_map_of_mem _ hx)⟩)
      hps.2 hds.2
    simp only [GetValidTimestamps, hstep, List.map_cons]
    exact ⟨by rw [hrest.1], hrest.2.1, hrest.2.2⟩


/-- C22: the fault counters of the timestamp tracker. After `ResetPTSTracker`,
for every sequence of calls whose PTS values are known and strictly increasing
and whose DTS values are known and strictly increasing, both fault counters are
zero after the sequence and every call returns its PTS. For every tracker and
call, on each channel: a known timestamp not greater than the last one raises
the fault counter by exactly one, a known timestamp greater than the last one
leaves it, a known timestamp becomes the last one, and an unknown timestamp
changes neither the counter nor the last value. A known timestamp is an `int64`
other than `AV_NOPTS_VALUE`, the least `int64`, hence a value above it. -/
theorem tracker_counts_faults :
    (∀ calls : List (Int × Int),
      (∀ c ∈ calls, AV_NOPTS_VALUE < c.1 ∧ AV_NOPTS_VALUE < c.2) →
      (calls.map Prod.fst).Pairwise (· < ·) → (calls.map Prod.snd).Pairwise (· < ·) →
      (GetValidTimestamps calls ResetPTSTracker).1 = calls.map Prod.fst ∧
      (GetValidTimestamps calls ResetPTSTracker).2.m_faultyPTSCount = 0 ∧
      (GetValidTimestamps calls ResetPTSTracker).2.m_faultyDTSCount = 0) ∧
    (∀ (t : PTSTracker) (PTS DTS : Int),
      (PTS ≠ AV_NOPTS_VALUE → PTS ≤ t.m_lastPTS →
        (GetValidTimestamp t PTS DTS).2.m_faultyPTSCount = t.m_faultyPTSCount + 1) ∧
      (PTS ≠ AV_NOPTS_VALUE → t.m_lastPTS < PTS →
        (GetValidTimestamp t PTS DTS).2.m_faultyPTSCount = t.m_faultyPTSCount) ∧
      (PTS ≠ AV_NOPTS_VALUE → (GetValidTimestamp t PTS DTS).2.m_lastPTS = PTS) ∧
      (PTS = AV_NOPTS_VALUE →
        (GetValidTimestamp t PTS DTS).2.m_faultyPTSCount = t.m_faultyPTSCount ∧
        (GetValidTimestamp t PTS DTS).2.m_lastPTS = t.m_lastPTS) ∧
      (DTS ≠ AV_NOPTS_VALUE → DTS ≤ t.m_lastDTS →
        (GetValidTimestamp t PTS DTS).2.m_faultyDTSCount = t.m_faultyDTSCount + 1) ∧
      (DTS ≠ AV_NOPTS_VALUE → t.m_lastDTS < DTS →
        (GetValidTimestamp t PTS DTS).2.m_faultyDTSCount = t.m_faultyDTSCount) ∧
      (DTS ≠ AV_NOPTS_VALUE → (GetValidTimestamp t PTS DTS).2.m_lastDTS = DTS) ∧
      (DTS = AV_NOPTS_VALUE →
        (GetValidTimestamp t PTS DTS).2.m_faultyDTSCount = t.m_faultyDTSCount ∧
        (GetValidTimestamp t PTS DTS).2.m_lastDTS = t.m_lastDTS)) := by
  refine ⟨?_, GetValidTimestamp_counters⟩
  intro calls hknown hps hds
  exact GetValidTimestamps_clean calls ResetPTSTracker rfl rfl
    (fun c hc => ⟨(hknown c hc).1, (hknown c hc).2, (hknown c hc).1, (hknown c hc).2⟩) hps hds

/-- C22 on sample calls: three calls with increasing timestamps after a reset
return their PTS and count no fault; a fourth call that repeats the PTS 30 counts
one PTS fault. -/
theorem tracker_counts_faults_witness :
    ((GetValidTimestamps [(10, 5), (20, 15), (30, 25)] ResetPTSTracker).1 = [10, 20, 30] ∧
      (GetValidTimestamps [(10, 5), (20, 15), (30, 25)] ResetPTSTracker).2.m_faultyPTSCount = 0 ∧
      (GetValidTimestamps [(10, 5), (20, 15), (30, 25)] ResetPTSTracker).2.m_faultyDTSCount = 0) ∧
    (GetValidTimestamp (GetValidTimestamps [(10, 5), (20, 15), (30, 25)] ResetPTSTracker).2
        30 35).2.m_faultyPTSCount =
      (GetValidTimestamps [(10, 5), (20, 15), (30, 25)] ResetPTSTracker).2.m_faultyPTSCount + 1 :=
  ⟨tracker_counts_faults.1 [(10, 5), (20, 15), (30, 25)] (by decide) (by decide) (by decide),
    (tracker_counts_faults.2 (GetValidTimestamps [(10, 5), (20, 15), (30, 25)] ResetPTSTracker).2
      30 35).1 (by decide) (by decide)⟩


/-! ## Theorems: routing of the packets the demuxer reads -/

/-- C23: a packet that `av_read_frame` delivers is pushed onto the queue whose
selected stream index equals its `stream_index` and onto no other queue: the
video queue when it equals the video index, otherwise the audio queue when it
equals the audio index, otherwise the subtitle queue when it equals the subtitle
index. When it equals none of the three, no queue changes and the packet's data
is freed. The pass of the loop that is not paused, not held back by the audio
queue and not at the end of the file is such a read. -/
theorem packet_routed_by_stream_index (env : DemuxEnv) (d : Demuxer)
    (hread : 0 ≤ env.av_read_frame) :
    (DemuxPackets.readAndRoute env d).1 = Control.next ∧
    (env.frame.stream_index = d.videoStream →
      (DemuxPackets.readAndRoute env d).2.m_videoThread = d.m_videoThread.push env.frame ∧
      (DemuxPackets.readAndRoute env d).2.m_audioThread = d.m_audioThread ∧
      (DemuxPackets.readAndRoute env d).2.m_subtitleThread = d.m_subtitleThread) ∧
    (env.frame.stream_index ≠ d.videoStream → env.frame.stream_index = d.audioStream →
      (DemuxPackets.readAndRoute env d).2.m_videoThread = d.m_videoThread ∧
      (DemuxPackets.readAndRoute env d).2.m_audioThread = d.m_audioThread.push env.frame ∧
      (DemuxPackets.readAndRoute env d).2.m_subtitleThread = d.m_subtitleThread) ∧
    (env.frame.stream_index ≠ d.videoStream → env.frame.stream_index ≠ d.audioStream →
      env.frame.stream_index = d.subtitleStream →
      (DemuxPackets.readAndRoute env d).2.m_videoThread = d.m_videoThread ∧
      (DemuxPackets.readAndRoute env d).2.m_audioThread = d.m_audioThread ∧
      (DemuxPackets.readAndRoute env d).2.m_subtitleThread = d.m_subtitleThread.push env.frame) ∧
    (env.frame.stream_index ≠ d.videoStream → env.frame.stream_index ≠ d.audioStream →
      env.frame.stream_index ≠ d.subtitleStream →
      (DemuxPackets.readAndRoute env d).2.m_videoThread = d.m_videoThread ∧
      (DemuxPackets.readAndRoute env d).2.m_audioThread = d.m_audioThread ∧
      (DemuxPackets.readAndRoute env d).2.m_subtitleThread = d.m_subtitleThread ∧
      (DemuxPackets.readAndRoute env d).2.packet = some (av_free_packet env.frame)) ∧
    (d.m_state ≠ DecoderState.Paused → d.m_audioThread.m_queue.Size ≤ MAX_QUEUE_SIZE_AUDIO →
      d.eof = false →
      DemuxPackets.afterSeek env d =
        DemuxPackets.readAndRoute env
          (if d.packet.isNone then { d with packet := some newPacket } else d)) := by
  have hr : ¬ env.av_read_frame < 0 := not_lt.mpr hread
  unfold DemuxPackets.readAndRoute
  rw [if_neg hr]
  simp only []
  refine ⟨?_, ?_, ?_, ?_, ?_, ?_⟩
  · split_ifs <;> rfl
  · intro hv
    rw [if_pos (by simpa using hv)]
    exact ⟨rfl, rfl, rfl⟩
  · intro hv ha
    rw [if_neg (by simpa using hv), if_pos (by simpa using ha)]
    exact ⟨rfl, rfl, rfl⟩
  · intro hv ha hs
    rw [if_neg (by simpa using hv), if_neg (by simpa using ha), if_pos (by simpa using hs)]
    exact ⟨rfl, rfl, rfl⟩
  · intro hv ha hs
    rw [if_neg (by simpa using hv), if_neg (by simpa using ha), if_neg (by simpa using hs)]
    exact ⟨rfl, rfl, rfl, rfl⟩
  · intro hp hsize heof
    unfold DemuxPackets.afterSeek
    rw [if_neg (by simpa using hp), if_neg (not_lt.mpr hsize)]
    simp only []
    have he : (if d.packet.isNone = true then { d with packet := some newPacket } else d).eof =
        false := by
      split_ifs <;> exact heof
    rw [if_neg (by rw [he]; exact Bool.false_ne_true)]
    unfold DemuxPackets.readAndRoute
    rw [if_neg hr]

/-- C23 on the sample demuxer (video stream 0, audio stream 1, subtitle stream
2): a packet of stream 1 goes to the audio queue, which then holds two packets,
and the video queue keeps its one packet. -/
theorem packet_routed_by_stream_index_witness :
    (DemuxPackets.readAndRoute { sampleDemuxEnv with frame := samplePacket 20 }
        (sampleDemuxer DecoderState.Running)).2.m_audioThread =
      (sampleDemuxer DecoderState.Running).m_audioThread.push (samplePacket 20) ∧
    (DemuxPackets.readAndRoute { sampleDemuxEnv with frame := samplePacket 20 }
        (sampleDemuxer DecoderState.Running)).2.m_audioThread.m_queue.Length = 2 ∧
    (DemuxPackets.readAndRoute { sampleDemuxEnv with frame := samplePacket 20 }
        (sampleDemuxer DecoderState.Running)).2.m_videoThread.m_queue.Length = 1 :=
  ⟨((packet_routed_by_stream_index { sampleDemuxEnv with frame := samplePacket 20 }
      (sampleDemuxer DecoderState.Running) (by decide)).2.2.1 (by decide) (by decide)).2.1,
    by decide, by decide⟩


/-! ## Theorems: the empty packets sent at the end of the file -/

/-- C24, the code at the failing input: at the end of the file with video
stream 0 and audio stream 1 selected and an audio codec with `CODEC_CAP_DELAY`,
the pass pushes the empty packet onto the video queue, which sets the local
packet pointer to `NULL`, and then prepares the audio packet through that
pointer: the pass crashes and the audio queue stays empty. With only the video
stream, or only the audio stream, selected the one push is made and the pass
goes on. -/
theorem eof_second_push_through_null_packet :
    ((DemuxPackets.iteration sampleEofEnv (sampleEofDemuxer 0 1)).1 = Control.crash ∧
      (DemuxPackets.iteration sampleEofEnv (sampleEofDemuxer 0 1)).2.m_videoThread.m_queue.m_queue =
        [PacketPtr.heap { data := false, size := 0, stream_index := 0, pts := AV_NOPTS_VALUE
                          dts := AV_NOPTS_VALUE }] ∧
      (DemuxPackets.iteration sampleEofEnv (sampleEofDemuxer 0 1)).2.packet = none ∧
      (DemuxPackets.iteration sampleEofEnv (sampleEofDemuxer 0 1)).2.m_audioThread.m_queue.m_queue =
        []) ∧
    ((DemuxPackets.iteration sampleEofEnv (sampleEofDemuxer 0 (-1))).1 = Control.next ∧
      (DemuxPackets.iteration sampleEofEnv
          (sampleEofDemuxer 0 (-1))).2.m_videoThread.m_queue.m_queue =
        [PacketPtr.heap { data := false, size := 0, stream_index := 0, pts := AV_NOPTS_VALUE
                          dts := AV_NOPTS_VALUE }]) ∧
    ((DemuxPackets.iteration sampleEofEnv (sampleEofDemuxer (-1) 1)).1 = Control.next ∧
      (DemuxPackets.iteration sampleEofEnv
          (sampleEofDemuxer (-1) 1)).2.m_audioThread.m_queue.m_queue.length = 1) := by
  refine ⟨⟨?_, ?_, ?_, ?_⟩, ⟨?_, ?_⟩, ⟨?_, ?_⟩⟩ <;> decide

/-- C25, the code at the failing input: at the end of the file with no video
stream and audio stream 1 selected and an audio codec with `CODEC_CAP_DELAY`,
the empty packet pushed onto the audio queue has `stream_index` -1, the video
index, not 1. The audio worker, whose selected stream is 1, pops it and frees it
as a packet of another stream: the queue is empty afterwards, nothing has been
sent to the sink, and the local `yield` is still set, which the decoding block
would have cleared. -/
theorem eof_audio_packet_has_video_index :
    (DemuxPackets.iteration sampleEofEnv (sampleEofDemuxer (-1) 1)).2.m_audioThread.m_queue.m_queue =
      [PacketPtr.heap { data := false, size := 0, stream_index := -1, pts := AV_NOPTS_VALUE
                        dts := AV_NOPTS_VALUE }] ∧
    (sampleWorker [ProducerOp.push { data := false, size := 0, stream_index := -1
                                     pts := AV_NOPTS_VALUE, dts := AV_NOPTS_VALUE }]).m_queue =
      (DemuxPackets.iteration sampleEofEnv (sampleEofDemuxer (-1) 1)).2.m_audioThread.m_queue ∧
    (sampleWorker []).m_currentStream = 1 ∧
    (DecodeAudioFrames.process (sampleIter [])
      (sampleWorker [ProducerOp.push { data := false, size := 0, stream_index := -1
                                       pts := AV_NOPTS_VALUE, dts := AV_NOPTS_VALUE }])).1 =
      Control.next ∧
    (DecodeAudioFrames.process (sampleIter [])
      (sampleWorker [ProducerOp.push { data := false, size := 0, stream_index := -1
                                       pts := AV_NOPTS_VALUE, dts := AV_NOPTS_VALUE }])).2.m_queue.m_queue =
      [] ∧
    (DecodeAudioFrames.process (sampleIter [])
      (sampleWorker [ProducerOp.push { data := false, size := 0, stream_index := -1
                                       pts := AV_NOPTS_VALUE, dts := AV_NOPTS_VALUE }])).2.log = [] ∧
    (DecodeAudioFrames.process (sampleIter [])
      (sampleWorker [ProducerOp.push { data := false, size := 0, stream_index := -1
                                       pts := AV_NOPTS_VALUE, dts := AV_NOPTS_VALUE }])).2.yield =
      true := by
  refine ⟨?_, ?_, ?_, ?_, ?_, ?_, ?_⟩ <;> decide


/-! ## Theorems: the frame count passed to the sink -/

theorem deliver_frames (packet : AVPacket) (s : ChunkState)
    (hused : 0 ≤ s.used) (hdata : 0 < s.datasize) :
    ((s.context.channels ≤ 0 ∨ s.decodedsize < 0) →
      (DecodeAudioFrames.deliver packet s).1 = Control.next ∧
      (DecodeAudioFrames.deliver packet s).2.w.log =
        s.w.log ++ [AudioEvent.AddAudioData s.datasize (raisedPts packet s.w.m_audioPts) (-1)]) ∧
    (0 < s.context.channels → 0 ≤ s.decodedsize →
      s.context.channels * av_get_bytes_per_sample s.context.sample_fmt ≠ 0 →
      (DecodeAudioFrames.deliver packet s).1 = Control.next ∧
      (DecodeAudioFrames.deliver packet s).2.w.log =
        s.w.log ++ [AudioEvent.AddAudioData s.datasize (raisedPts packet s.w.m_audioPts)
          (Int.tdiv s.decodedsize
            (s.context.channels * av_get_bytes_per_sample s.context.sample_fmt))]) := by
  have hr : (if (packet.pts != AV_NOPTS_VALUE && decide (packet.pts > s.w.m_audioPts)) = true
      then packet.pts else s.w.m_audioPts) = raisedPts packet s.w.m_audioPts := by
    unfold raisedPts
    simp only [Bool.and_eq_true, bne_iff_ne, ne_eq, decide_eq_true_eq]
  have h1 : ¬ s.used < 0 := not_lt.mpr hused
  have h2 : ¬ s.datasize ≤ 0 := not_le.mpr hdata
  simp only [DecodeAudioFrames.deliver, hr, h1, h2, if_false]
  constructor
  · intro hg
    have h3 : (decide (s.context.channels ≤ 0) || decide (s.decodedsize < 0)) = true := by
      simpa using hg
    rw [if_pos h3]
    exact ⟨rfl, rfl⟩
  · intro hc hd hz
    have h3 : ¬ (decide (s.context.channels ≤ 0) || decide (s.decodedsize < 0)) = true := by
      simp only [Bool.or_eq_true, decide_eq_true_eq, not_or, not_le, not_lt]
      exact ⟨hc, hd⟩
    rw [if_neg h3, if_neg hz]
    exact ⟨rfl, rfl⟩

/-- C26, counterexample: two chunks forwarded to a passthrough sink with the
frame count -1, which is not the quotient of the claim. In the first the context
has no channel count and the decoding attempt produced nothing: the decoded size
is 0 and the divisor would be 0. In the second the context is stereo, 16 bit,
and the chunk is forwarded without decoding: the decoded size is the marker -1,
whose quotient by 4 is 0, and 1000 bytes are forwarded, whose quotient is 250. -/
theorem frame_count_minus_one :
    ((DecodeAudioFrames.chunkBody samplePassthroughChunk { samplePacket 100 with size := 1000 }
        (samplePassthroughState 0)).2.w.log = [AudioEvent.AddAudioData 1000 100 (-1)] ∧
      (DecodeAudioFrames.output samplePassthroughChunk (DecodeAudioFrames.reselect
        samplePassthroughChunk (DecodeAudioFrames.firstDecode samplePassthroughChunk
          (samplePassthroughState 0)))).decodedsize = 0 ∧
      (DecodeAudioFrames.output samplePassthroughChunk (DecodeAudioFrames.reselect
        samplePassthroughChunk (DecodeAudioFrames.firstDecode samplePassthroughChunk
          (samplePassthroughState 0)))).context.channels *
        av_get_bytes_per_sample (DecodeAudioFrames.output samplePassthroughChunk
          (DecodeAudioFrames.reselect samplePassthroughChunk
            (DecodeAudioFrames.firstDecode samplePassthroughChunk
              (samplePassthroughState 0)))).context.sample_fmt = 0) ∧
    ((DecodeAudioFrames.chunkBody samplePassthroughChunk { samplePacket 100 with size := 1000 }
        (samplePassthroughState 2)).2.w.log = [AudioEvent.AddAudioData 1000 100 (-1)] ∧
      (DecodeAudioFrames.output samplePassthroughChunk (DecodeAudioFrames.reselect
        samplePassthroughChunk (DecodeAudioFrames.firstDecode samplePassthroughChunk
          (samplePassthroughState 2)))).decodedsize = -1 ∧
      (DecodeAudioFrames.output samplePassthroughChunk (DecodeAudioFrames.reselect
        samplePassthroughChunk (DecodeAudioFrames.firstDecode samplePassthroughChunk
          (samplePassthroughState 2)))).context.channels *
        av_get_bytes_per_sample (DecodeAudioFrames.output samplePassthroughChunk
          (DecodeAudioFrames.reselect samplePassthroughChunk
            (DecodeAudioFrames.firstDecode samplePassthroughChunk
              (samplePassthroughState 2)))).context.sample_fmt = 4 ∧
      Int.tdiv (-1) 4 ≠ -1 ∧ Int.tdiv 1000 4 ≠ -1) := by
  refine ⟨⟨?_, ?_, ?_⟩, ⟨?_, ?_, ?_, ?_, ?_⟩⟩ <;> decide

/-- C26, amended: for every chunk the audio worker forwards to the sink (the
decoder reported no error and the chunk has data), the frame count passed to
`AddAudioData` is -1 when the context's channel count is not positive or the
decoded size is negative, and otherwise the integer quotient of the decoded size
by `channels * bytes_per_sample`; the division is evaluated only with a positive
channel count and a non-negative decoded size. The quotient is stated for a
non-zero divisor. -/
theorem frame_count_guarded (e : ChunkEnv) (packet : AVPacket) (s : ChunkState)
    (hused : 0 ≤ (DecodeAudioFrames.output e (DecodeAudioFrames.reselect e
      (DecodeAudioFrames.firstDecode e s))).used)
    (hdata : 0 < (DecodeAudioFrames.output e (DecodeAudioFrames.reselect e
      (DecodeAudioFrames.firstDecode e s))).datasize) :
    (((DecodeAudioFrames.output e (DecodeAudioFrames.reselect e
          (DecodeAudioFrames.firstDecode e s))).context.channels ≤ 0 ∨
        (DecodeAudioFrames.output e (DecodeAudioFrames.reselect e
          (DecodeAudioFrames.firstDecode e s))).decodedsize < 0) →
      (DecodeAudioFrames.chunkBody e packet s).1 = Control.next ∧
      (DecodeAudioFrames.chunkBody e packet s).2.w.log =
        s.w.log ++ [AudioEvent.AddAudioData
          (DecodeAudioFrames.output e (DecodeAudioFrames.reselect e
            (DecodeAudioFrames.firstDecode e s))).datasize
          (raisedPts packet s.w.m_audioPts) (-1)]) ∧
    (0 < (DecodeAudioFrames.output e (DecodeAudioFrames.reselect e
          (DecodeAudioFrames.firstDecode e s))).context.channels →
      0 ≤ (DecodeAudioFrames.output e (DecodeAudioFrames.reselect e
          (DecodeAudioFrames.firstDecode e s))).decodedsize →
      (DecodeAudioFrames.output e (DecodeAudioFrames.reselect e
          (DecodeAudioFrames.firstDecode e s))).context.channels *
        av_get_bytes_per_sample (DecodeAudioFrames.output e (DecodeAudioFrames.reselect e
          (DecodeAudioFrames.firstDecode e s))).context.sample_fmt ≠ 0 →
      (DecodeAudioFrames.chunkBody e packet s).1 = Control.next ∧
      (DecodeAudioFrames.chunkBody e packet s).2.w.log =
        s.w.log ++ [AudioEvent.AddAudioData
          (DecodeAudioFrames.output e (DecodeAudioFrames.reselect e
            (DecodeAudioFrames.firstDecode e s))).datasize
          (raisedPts packet s.w.m_audioPts)
          (Int.tdiv (DecodeAudioFrames.output e (DecodeAudioFrames.reselect e
              (DecodeAudioFrames.firstDecode e s))).decodedsize
            ((DecodeAudioFrames.output e (DecodeAudioFrames.reselect e
                (DecodeAudioFrames.firstDecode e s))).context.channels *
              av_get_bytes_per_sample (DecodeAudioFrames.output e (DecodeAudioFrames.reselect e
                (DecodeAudioFrames.firstDecode e s))).context.sample_fmt))]) := by
  have hcb : DecodeAudioFrames.chunkBody e packet s =
      DecodeAudioFrames.deliver packet (DecodeAudioFrames.output e
        (DecodeAudioFrames.reselect e (DecodeAudioFrames.firstDecode e s))) := rfl
  rw [hcb]
  have hlog : (DecodeAudioFrames.output e (DecodeAudioFrames.reselect e
      (DecodeAudioFrames.firstDecode e s))).w.log = s.w.log := by
    rw [(output_log _ _).1, (reselect_log _ _).1, firstDecode_w]
  have hpts : (DecodeAudioFrames.output e (DecodeAudioFrames.reselect e
      (DecodeAudioFrames.firstDecode e s))).w.m_audioPts = s.w.m_audioPts := by
    rw [(output_log _ _).2, (reselect_log _ _).2, firstDecode_w]
  have h := deliver_frames packet _ hused hdata
  rw [hlog, hpts] at h
  exact h

/-- C26, amended, on the sample chunk: the decoder produces 16 bytes for the
stereo, 16 bit context, and the chunk is forwarded with 16 / (2 * 2) = 4 frames. -/
theorem frame_count_guarded_witness :
    (DecodeAudioFrames.chunkBody sampleChunk (samplePacket 100)
        { samplePassthroughState 2 with w := sampleWorker [], tempSize := 4 }).2.w.log =
      [AudioEvent.AddAudioData 16 100 4] :=
  ((frame_count_guarded sampleChunk (samplePacket 100)
      { samplePassthroughState 2 with w := sampleWorker [], tempSize := 4 } (by decide) (by decide)).2
    (by decide) (by decide) (by decide)).2


/-! ## Theorems: classification of the container's streams -/

theorem uintToInt_small (n : Nat) (h : n < 2 ^ 31) : uintToInt n = (n : Int) := by
  unfold uintToInt
  have h1 : n % 2 ^ 32 = n := Nat.mod_eq_of_lt (by omega)
  rw [h1, if_pos h]

theorem classify_index (avstream : AVStream) (stream : TorcStreamData) :
    (ScanStream.classify avstream stream).m_index = stream.m_index := by
  unfold ScanStream.classify
  by_cases hd : ((avstream.disposition &&& AV_DISPOSITION_ATTACHED_PIC) != 0) = true
  · rw [if_pos hd]
  · rw [if_neg hd]
    cases hct : avstream.codec_type <;> first | rfl | (simp only []; split_ifs <;> rfl)

theorem ScanStream_some (c : HeaderConstants) (l : List AVStream) (Index : Nat) (av : AVStream)
    (hget : l[Index]? = some av) (hidx : Index < 2 ^ 31) (ty : TorcStreamTypes)
    (hty : ty ≠ TorcStreamTypes.StreamTypeUnknown)
    (hc : ∀ stream, (ScanStream.classify av stream).m_type = ty) :
    ∃ s, ScanStream c (some l) Index = some s ∧ s.m_type = ty ∧ s.m_index = (Index : Int) ∧
      s = ScanStream.classify av
        (match av.language with
          | some language =>
            { TorcStreamData.new c with
              m_index := (Index : Int), m_id := av.id, m_avDisposition := av.disposition
              m_language := language }
          | none =>
            { TorcStreamData.new c with
              m_index := (Index : Int), m_id := av.id, m_avDisposition := av.disposition }) := by
  have hlt : Index < l.length := by
    by_contra hge
    rw [List.getElem?_eq_none (not_lt.mp hge)] at hget
    exact Option.noConfusion hget
  unfold ScanStream
  simp only []
  rw [if_neg (by omega), hget]
  simp only [uintToInt_small Index hidx]
  have hvalid : ∀ stream : TorcStreamData, stream.m_index = (Index : Int) →
      (ScanStream.classify av stream).IsValid = true := by
    intro stream hi
    unfold TorcStreamData.IsValid
    rw [hc stream, classify_index, hi, Bool.and_eq_true]
    exact ⟨by simpa using hty, decide_eq_true (by omega)⟩
  cases hl : av.language with
  | none =>
    simp only []
    rw [if_neg (by rw [hvalid _ rfl]; simp)]
    exact ⟨_, rfl, hc _, by rw [classify_index], rfl⟩
  | some language =>
    simp only []
    rw [if_neg (by rw [hvalid _ rfl]; simp)]
    exact ⟨_, rfl, hc _, by rw [classify_index], rfl⟩

theorem ScanStream_none (c : HeaderConstants) (l : List AVStream) (Index : Nat) (av : AVStream)
    (hget : l[Index]? = some av)
    (hc : ∀ stream, (ScanStream.classify av stream).m_type = TorcStreamTypes.StreamTypeUnknown) :
    ScanStream c (some l) Index = none := by
  unfold ScanStream
  simp only []
  split_ifs
  · rfl
  · rw [hget]
    simp only []
    have hinv : ∀ stream : TorcStreamData, (ScanStream.classify av stream).IsValid = false := by
      intro stream
      unfold TorcStreamData.IsValid
      rw [hc stream]
      simp
    cases av.language <;> simp only [hinv] <;> rfl

theorem ScanStream_valid (c : HeaderConstants) (streams : Option (List AVStream)) (Index : Nat)
    (s : TorcStreamData) (h : ScanStream c streams Index = some s) :
    s.IsValid = true := by
  unfold ScanStream at h
  cases streams with
  | none => exact Option.noConfusion h
  | some l =>
    simp only [] at h
    split_ifs at h
    cases hg : l[Index]? with
    | none => rw [hg] at h; exact Option.noConfusion h
    | some av =>
      rw [hg] at h
      simp only [] at h
      split_ifs at h with hv
      cases h
      simpa using hv


theorem classify_type (av : AVStream) (stream : TorcStreamData) :
    ((av.disposition &&& AV_DISPOSITION_ATTACHED_PIC) ≠ 0 →
      (ScanStream.classify av stream).m_type = TorcStreamTypes.StreamTypeAttachment) ∧
    ((av.disposition &&& AV_DISPOSITION_ATTACHED_PIC) = 0 →
      (av.codec_type = AVMediaType.AVMEDIA_TYPE_VIDEO →
        (ScanStream.classify av stream).m_type = TorcStreamTypes.StreamTypeVideo) ∧
      (av.codec_type = AVMediaType.AVMEDIA_TYPE_AUDIO →
        (ScanStream.classify av stream).m_type = TorcStreamTypes.StreamTypeAudio ∧
        (ScanStream.classify av stream).m_originalChannels = av.channels) ∧
      (av.codec_type = AVMediaType.AVMEDIA_TYPE_SUBTITLE →
        (av.codec_id = AV_CODEC_ID_TEXT ∨ av.codec_id = AV_CODEC_ID_SRT) →
        (ScanStream.classify av stream).m_type = TorcStreamTypes.StreamTypeRawText) ∧
      (av.codec_type = AVMediaType.AVMEDIA_TYPE_SUBTITLE →
        av.codec_id ≠ AV_CODEC_ID_TEXT → av.codec_id ≠ AV_CODEC_ID_SRT →
        (ScanStream.classify av stream).m_type = TorcStreamTypes.StreamTypeSubtitle) ∧
      (av.codec_type = AVMediaType.AVMEDIA_TYPE_ATTACHMENT →
        (ScanStream.classify av stream).m_type = TorcStreamTypes.StreamTypeAttachment) ∧
      (av.codec_type = AVMediaType.AVMEDIA_TYPE_DATA ∨
          av.codec_type = AVMediaType.AVMEDIA_TYPE_UNKNOWN ∨
          av.codec_type = AVMediaType.AVMEDIA_TYPE_NB →
        (ScanStream.classify av stream).m_type = TorcStreamTypes.StreamTypeUnknown)) := by
  unfold ScanStream.classify
  constructor
  · intro hd
    rw [if_pos (by simpa using hd)]
  · intro hd
    rw [if_neg (by simp [hd])]
    refine ⟨?_, ?_, ?_, ?_, ?_, ?_⟩
    · intro h; rw [h]
    · intro h; rw [h]; exact ⟨rfl, rfl⟩
    · intro h hid
      rw [h]
      simp only []
      rw [if_pos (by simpa using hid)]
    · intro h h1 h2
      rw [h]
      simp only []
      rw [if_neg (by simp [h1, h2])]
    · intro h; rw [h]
    · intro h
      rcases h with h | h | h <;> rw [h]


/-- C27: the classification of a container stream by `ScanStream`. A stream
with the attached-picture disposition becomes an `Attachment`, whatever its codec
type. Otherwise a video stream becomes `Video`, an audio stream `Audio` with the
codec's channel count as original channels, a subtitle stream `RawText` when its
codec is TEXT or SRT and `Subtitle` when it is not, an attachment stream
`Attachment`, and for a data stream or a stream of another type `ScanStream`
returns `NULL`. Every stream `ScanStream` returns, for any container and index,
is valid: its type is known and its index is not negative. The classification is
stated for an index below 2^31, which the `int` member holds unchanged. -/
theorem ScanStream_classifies (c : HeaderConstants) (l : List AVStream) (Index : Nat)
    (av : AVStream) (hget : l[Index]? = some av) (hidx : Index < 2 ^ 31) :
    ((av.disposition &&& AV_DISPOSITION_ATTACHED_PIC) ≠ 0 →
      (ScanStream c (some l) Index).map (fun s => (s.m_type, s.m_index)) =
        some (TorcStreamTypes.StreamTypeAttachment, (Index : Int))) ∧
    ((av.disposition &&& AV_DISPOSITION_ATTACHED_PIC) = 0 →
      (av.codec_type = AVMediaType.AVMEDIA_TYPE_VIDEO →
        (ScanStream c (some l) Index).map (fun s => (s.m_type, s.m_index)) =
          some (TorcStreamTypes.StreamTypeVideo, (Index : Int))) ∧
      (av.codec_type = AVMediaType.AVMEDIA_TYPE_AUDIO →
        (ScanStream c (some l) Index).map (fun s => (s.m_type, s.m_index, s.m_originalChannels)) =
          some (TorcStreamTypes.StreamTypeAudio, (Index : Int), av.channels)) ∧
      (av.codec_type = AVMediaType.AVMEDIA_TYPE_SUBTITLE →
        (av.codec_id = AV_CODEC_ID_TEXT ∨ av.codec_id = AV_CODEC_ID_SRT) →
        (ScanStream c (some l) Index).map (fun s => (s.m_type, s.m_index)) =
          some (TorcStreamTypes.StreamTypeRawText, (Index : Int))) ∧
      (av.codec_type = AVMediaType.AVMEDIA_TYPE_SUBTITLE →
        av.codec_id ≠ AV_CODEC_ID_TEXT → av.codec_id ≠ AV_CODEC_ID_SRT →
        (ScanStream c (some l) Index).map (fun s => (s.m_type, s.m_index)) =
          some (TorcStreamTypes.StreamTypeSubtitle, (Index : Int))) ∧
      (av.codec_type = AVMediaType.AVMEDIA_TYPE_ATTACHMENT →
        (ScanStream c (some l) Index).map (fun s => (s.m_type, s.m_index)) =
          some (TorcStreamTypes.StreamTypeAttachment, (Index : Int))) ∧
      (av.codec_type = AVMediaType.AVMEDIA_TYPE_DATA ∨
          av.codec_type = AVMediaType.AVMEDIA_TYPE_UNKNOWN ∨
          av.codec_type = AVMediaType.AVMEDIA_TYPE_NB →
        ScanStream c (some l) Index = none)) ∧
    (∀ (streams : Option (List AVStream)) (i : Nat) (s : TorcStreamData),
      ScanStream c streams i = some s →
        s.IsValid = true ∧ s.m_type ≠ TorcStreamTypes.StreamTypeUnknown ∧ 0 ≤ s.m_index) := by
  have hsome : ∀ ty : TorcStreamTypes, ty ≠ TorcStreamTypes.StreamTypeUnknown →
      (∀ stream, (ScanStream.classify av stream).m_type = ty) →
      (ScanStream c (some l) Index).map (fun s => (s.m_type, s.m_index)) =
        some (ty, (Index : Int)) := by
    intro ty hty hc
    obtain ⟨s, hs, h1, h2, _⟩ := ScanStream_some c l Index av hget hidx ty hty hc
    rw [hs, Option.map_some', h1, h2]
  refine ⟨?_, ?_, ?_⟩
  · intro hd
    exact hsome _ (by decide) (fun stream => (classify_type av stream).1 hd)
  · intro hd
    refine ⟨?_, ?_, ?_, ?_, ?_, ?_⟩
    · intro h
      exact hsome _ (by decide) (fun stream => ((classify_type av stream).2 hd).1 h)
    · intro h
      obtain ⟨s, hs, h1, h2, h3⟩ := ScanStream_some c l Index av hget hidx
        TorcStreamTypes.StreamTypeAudio (by decide)
        (fun stream => (((classify_type av stream).2 hd).2.1 h).1)
      rw [hs, Option.map_some', h1, h2, h3, (((classify_type av _).2 hd).2.1 h).2]
    · intro h hid
      exact hsome _ (by decide) (fun stream => ((classify_type av stream).2 hd).2.2.1 h hid)
    · intro h h1 h2
      exact hsome _ (by decide) (fun stream => ((classify_type av stream).2 hd).2.2.2.1 h h1 h2)
    · intro h
      exact hsome _ (by decide) (fun stream => ((classify_type av stream).2 hd).2.2.2.2.1 h)
    · intro h
      exact ScanStream_none c l Index av hget
        (fun stream => ((classify_type av stream).2 hd).2.2.2.2.2 h)
  · intro streams i s hs
    have hv := ScanStream_valid c streams i s hs
    refine ⟨hv, ?_, ?_⟩
    · intro ht
      unfold TorcStreamData.IsValid at hv
      rw [ht] at hv
      simp at hv
    · unfold TorcStreamData.IsValid at hv
      simp only [Bool.and_eq_true, decide_eq_true_eq] at hv
      omega

/-- C27 on the sample container: stream 3, a picture attached as a video
stream, is an `Attachment`; stream 1 is `Audio` with six original channels;
stream 2, an SRT subtitle, is `RawText`; stream 4, a data stream, gives `NULL`. -/
theorem ScanStream_classifies_witness :
    (ScanStream sampleConstants (some sampleStreams) 3).map (fun s => (s.m_type, s.m_index)) =
      some (TorcStreamTypes.StreamTypeAttachment, 3) ∧
    (ScanStream sampleConstants (some sampleStreams) 1).map
        (fun s => (s.m_type, s.m_index, s.m_originalChannels)) =
      some (TorcStreamTypes.StreamTypeAudio, 1, 6) ∧
    (ScanStream sampleConstants (some sampleStreams) 2).map (fun s => (s.m_type, s.m_index)) =
      some (TorcStreamTypes.StreamTypeRawText, 2) ∧
    ScanStream sampleConstants (some sampleStreams) 4 = none :=
  ⟨(ScanStream_classifies sampleConstants sampleStreams 3 _ rfl (by decide)).1 (by decide),
    ((ScanStream_classifies sampleConstants sampleStreams 1 _ rfl (by decide)).2.1
      (by decide)).2.1 rfl,
    ((ScanStream_classifies sampleConstants sampleStreams 2 _ rfl (by decide)).2.1
      (by decide)).2.2.1 rfl (Or.inr (by decide)),
    ((ScanStream_classifies sampleConstants sampleStreams 4 _ rfl (by decide)).2.1
      (by decide)).2.2.2.2.2 (Or.inl rfl)⟩


/-! ## Theorems: pending state requests in the refresh -/

theorem follow_at (p : TorcPlayer) (d : Decoder) (s1 s2 : PlayerState) (d1 d2 : DecoderState)
    (c : DecoderCall) (hs : p.m_state = s1) (hd : p.m_decoder = some d) :
    TorcPlayer.Refresh.follow p s1 s2 d1 d2 c =
      some (if d.state = d1 then p.SetState s2
        else if d.state ≠ d2 then { p with m_decoder := some (d.call c) } else p) := by
  unfold TorcPlayer.Refresh.follow
  rw [if_pos (by simpa using hs), hd]
  simp only []
  by_cases h1 : d.state = d1
  · rw [if_pos (by simpa using h1), if_pos h1]
  · rw [if_neg (by simpa using h1), if_neg h1]
    by_cases h2 : d.state = d2
    · rw [if_neg (by simpa using h2), if_neg (by simpa using h2)]
    · rw [if_pos (by simpa using h2), if_pos h2]

theorem follow_other (p : TorcPlayer) (s1 s2 : PlayerState) (d1 d2 : DecoderState)
    (c : DecoderCall) (hs : p.m_state ≠ s1) :
    TorcPlayer.Refresh.follow p s1 s2 d1 d2 c = some p := by
  unfold TorcPlayer.Refresh.follow
  rw [if_neg (by simpa using hs)]

theorem rest_with_decoder (p : TorcPlayer) (d : Decoder) (hd : p.m_decoder = some d)
    (he : d.state ≠ DecoderState.Errored) (hs : d.state ≠ DecoderState.Stopped)
    (hn : p.m_nextState ≠ PlayerState.None) :
    TorcPlayer.Refresh.rest p = TorcPlayer.Refresh.transitions p := by
  unfold TorcPlayer.Refresh.rest
  rw [if_neg (by simp [hn]), hd]
  simp only []
  rw [if_neg (by simpa using he), if_neg (by simpa using hs)]

theorem Refresh_without_switch (p : TorcPlayer) (hnext : p.m_nextDecoder = none)
    (hold : ∀ old, p.m_oldDecoder = some old → old.state ≠ DecoderState.Stopped) :
    p.Refresh = TorcPlayer.Refresh.rest p := by
  have h1 : TorcPlayer.Refresh.destroyOld p = p := by
    unfold TorcPlayer.Refresh.destroyOld
    cases ho : p.m_oldDecoder with
    | none => rfl
    | some old =>
      simp only []
      rw [if_neg (by simpa using hold old ho)]
  have h2 : TorcPlayer.Refresh.checkNext p = p := by
    unfold TorcPlayer.Refresh.checkNext
    rw [hnext]
  unfold TorcPlayer.Refresh
  rw [h1, h2]

/-- C28, counterexample: with `Stopped` pending on a playing player the refresh
enters `Stopping` and arms the stop timer with 3000 ms, not 1000 ms. With
`Playing` pending on a paused player whose old decoder has not stopped yet, the
refresh returns false, stays `Paused`, arms no timer, sends nothing to the
decoder and leaves `Playing` pending. -/
theorem pending_stop_arms_3000 :
    ({ samplePlayer PlayerState.Playing (some (sampleEngine 1 DecoderState.Running)) none none with
        m_nextState := PlayerState.Stopped }.Refresh =
      (some true,
        { samplePlayer PlayerState.Stopping
            (some { id := 1, state := DecoderState.Running, calls := [DecoderCall.Stop] })
            none none with
          m_stopTimer := some 3000 })) ∧
    ({ samplePlayer PlayerState.Paused (some (sampleEngine 2 DecoderState.Paused)) none
          (some (sampleEngine 1 DecoderState.Stopping)) with
        m_nextState := PlayerState.Playing }.Refresh =
      (some false,
        { samplePlayer PlayerState.Paused (some (sampleEngine 2 DecoderState.Paused)) none
            (some (sampleEngine 1 DecoderState.Stopping)) with
          m_nextState := PlayerState.Playing })) := by
  constructor <;> decide


theorem drive_pausing (p : TorcPlayer) (d : Decoder) (hs : p.m_state = PlayerState.Pausing)
    (hd : p.m_decoder = some d) :
    TorcPlayer.Refresh.drive p =
      some (if d.state = DecoderState.Paused then p.SetState PlayerState.Paused
        else if d.state ≠ DecoderState.Pausing then
          { p with m_decoder := some (d.call DecoderCall.Pause) }
        else p) := by
  unfold TorcPlayer.Refresh.drive
  rw [follow_at p d _ _ _ _ _ hs hd, Option.some_bind]
  have hst : ∀ s : PlayerState, s ≠ PlayerState.Paused → s ≠ PlayerState.Pausing →
      (if d.state = DecoderState.Paused then p.SetState PlayerState.Paused
        else if d.state ≠ DecoderState.Pausing then
          { p with m_decoder := some (d.call DecoderCall.Pause) }
        else p).m_state ≠ s := by
    intro s h1 h2
    split_ifs
    · exact fun h => h1 h.symm
    · exact fun h => h2 (hs.symm.trans h).symm
    · exact fun h => h2 (hs.symm.trans h).symm
  rw [follow_other _ _ _ _ _ _ (hst _ (by decide) (by decide)), Option.some_bind,
    follow_other _ _ _ _ _ _ (hst _ (by decide) (by decide))]

theorem drive_starting (p : TorcPlayer) (d : Decoder) (hs : p.m_state = PlayerState.Starting)
    (hd : p.m_decoder = some d) :
    TorcPlayer.Refresh.drive p =
      some (if d.state = DecoderState.Running then p.SetState PlayerState.Playing
        else if d.state ≠ DecoderState.Starting then
          { p with m_decoder := some (d.call DecoderCall.Start) }
        else p) := by
  unfold TorcPlayer.Refresh.drive
  rw [follow_other p _ _ _ _ _ (by rw [hs]; decide), Option.some_bind,
    follow_at p d _ _ _ _ _ hs hd, Option.some_bind]
  have hst : (if d.state = DecoderState.Running then p.SetState PlayerState.Playing
        else if d.state ≠ DecoderState.Starting then
          { p with m_decoder := some (d.call DecoderCall.Start) }
        else p).m_state ≠ PlayerState.Stopping := by
    split_ifs
    · exact fun h => PlayerState.noConfusion h
    · exact fun h => PlayerState.noConfusion (hs.symm.trans h)
    · exact fun h => PlayerState.noConfusion (hs.symm.trans h)
  rw [follow_other _ _ _ _ _ _ hst]

theorem drive_stopping (p : TorcPlayer) (d : Decoder) (hs : p.m_state = PlayerState.Stopping)
    (hd : p.m_decoder = some d) :
    TorcPlayer.Refresh.drive p =
      some (if d.state = DecoderState.Stopped then p.SetState PlayerState.Stopped
        else if d.state ≠ DecoderState.Stopping then
          { p with m_decoder := some (d.call DecoderCall.Stop) }
        else p) := by
  unfold TorcPlayer.Refresh.drive
  rw [follow_other p _ _ _ _ _ (by rw [hs]; decide), Option.some_bind,
    follow_other p _ _ _ _ _ (by rw [hs]; decide), Option.some_bind,
    follow_at p d _ _ _ _ _ hs hd]

theorem updateState_pending (p : TorcPlayer) (hdiff : p.m_nextState ≠ p.m_state) :
    (p.m_nextState = PlayerState.Paused →
      TorcPlayer.Refresh.updateState p =
        (true, { p.SetState PlayerState.Pausing with
                 m_pauseTimer := some DECODER_PAUSE_TIMEOUT, m_nextState := PlayerState.None })) ∧
    (p.m_nextState = PlayerState.Playing → p.m_oldDecoder = none →
      TorcPlayer.Refresh.updateState p =
        (true, { p.SetState PlayerState.Starting with
                 m_playTimer := some DECODER_PAUSE_TIMEOUT, m_nextState := PlayerState.None })) ∧
    (p.m_nextState = PlayerState.Playing → p.m_oldDecoder ≠ none →
      TorcPlayer.Refresh.updateState p = (false, p)) ∧
    (p.m_nextState = PlayerState.Stopped →
      TorcPlayer.Refresh.updateState p =
        (true, { p.SetState PlayerState.Stopping with
                 m_stopTimer := some DECODER_STOP_TIMEOUT, m_nextState := PlayerState.None })) := by
  unfold TorcPlayer.Refresh.updateState
  refine ⟨?_, ?_, ?_, ?_⟩
  · intro h
    rw [if_pos (by rw [h]; decide), if_pos (by simpa using hdiff), if_pos (by rw [h]; decide)]
  · intro h ho
    rw [if_pos (by rw [h]; decide), if_pos (by simpa using hdiff), if_neg (by rw [h]; decide),
      if_pos (by rw [h]; decide), if_neg (by simp [ho])]
  · intro h ho
    have hsome : p.m_oldDecoder.isSome = true := by
      cases hx : p.m_oldDecoder with
      | none => exact absurd hx ho
      | some _ => rfl
    rw [if_pos (by rw [h]; decide), if_pos (by simpa using hdiff), if_neg (by rw [h]; decide),
      if_pos (by rw [h]; decide), if_pos hsome]
  · intro h
    rw [if_pos (by rw [h]; decide), if_pos (by simpa using hdiff), if_neg (by rw [h]; decide),
      if_neg (by rw [h]; decide), if_pos (by rw [h]; decide)]


/-- C28, amended: the rest of `Refresh` for a player whose current decoder
reports neither `Errored` nor `Stopped` and whose pending state differs from its
state. For `Paused`, `Playing` or `Stopped` pending, the update step enters
`Pausing`, `Starting` or `Stopping`, arms the pause timer or the play timer with
1000 ms or the stop timer with 3000 ms, and clears the pending state. The blocks
that follow then set the player to `Paused` or `Playing` when the decoder already
reports `Paused` or `Running`, leave everything as it is when the decoder reports
the transitional state, and otherwise call `Pause`, `Start` or `Stop` on the
decoder; the refresh returns true and the pending state is `None`. `Playing` is
taken up only when there is no old decoder; with an old decoder the refresh
returns false and changes nothing. A refresh without a next decoder and without a
stopped old decoder is this rest. -/
theorem pending_state_taken_up (q : TorcPlayer) (d : Decoder) (hd : q.m_decoder = some d)
    (he : d.state ≠ DecoderState.Errored) (hs : d.state ≠ DecoderState.Stopped)
    (hdiff : q.m_nextState ≠ q.m_state) :
    (DECODER_PAUSE_TIMEOUT = 1000 ∧ DECODER_STOP_TIMEOUT = 3000) ∧
    (q.m_nextState = PlayerState.Paused →
      TorcPlayer.Refresh.updateState q =
        (true, { q.SetState PlayerState.Pausing with
                 m_pauseTimer := some DECODER_PAUSE_TIMEOUT, m_nextState := PlayerState.None }) ∧
      TorcPlayer.Refresh.rest q =
        (some true,
          if d.state = DecoderState.Paused then
            TorcPlayer.SetState
              { q.SetState PlayerState.Pausing with
                m_pauseTimer := some DECODER_PAUSE_TIMEOUT, m_nextState := PlayerState.None }
              PlayerState.Paused
          else if d.state ≠ DecoderState.Pausing then
            { q.SetState PlayerState.Pausing with
              m_pauseTimer := some DECODER_PAUSE_TIMEOUT, m_nextState := PlayerState.None
              m_decoder := some (d.call DecoderCall.Pause) }
          else
            { q.SetState PlayerState.Pausing with
              m_pauseTimer := some DECODER_PAUSE_TIMEOUT, m_nextState := PlayerState.None }) ∧
      (TorcPlayer.Refresh.rest q).2.m_nextState = PlayerState.None) ∧
    (q.m_nextState = PlayerState.Playing → q.m_oldDecoder = none →
      TorcPlayer.Refresh.updateState q =
        (true, { q.SetState PlayerState.Starting with
                 m_playTimer := some DECODER_PAUSE_TIMEOUT, m_nextState := PlayerState.None }) ∧
      TorcPlayer.Refresh.rest q =
        (some true,
          if d.state = DecoderState.Running then
            TorcPlayer.SetState
              { q.SetState PlayerState.Starting with
                m_playTimer := some DECODER_PAUSE_TIMEOUT, m_nextState := PlayerState.None }
              PlayerState.Playing
          else if d.state ≠ DecoderState.Starting then
            { q.SetState PlayerState.Starting with
              m_playTimer := some DECODER_PAUSE_TIMEOUT, m_nextState := PlayerState.None
              m_decoder := some (d.call DecoderCall.Start) }
          else
            { q.SetState PlayerState.Starting with
              m_playTimer := some DECODER_PAUSE_TIMEOUT, m_nextState := PlayerState.None }) ∧
      (TorcPlayer.Refresh.rest q).2.m_nextState = PlayerState.None) ∧
    (q.m_nextState = PlayerState.Playing → q.m_oldDecoder ≠ none →
      TorcPlayer.Refresh.rest q = (some false, q)) ∧
    (q.m_nextState = PlayerState.Stopped →
      TorcPlayer.Refresh.updateState q =
        (true, { q.SetState PlayerState.Stopping with
                 m_stopTimer := some DECODER_STOP_TIMEOUT, m_nextState := PlayerState.None }) ∧
      TorcPlayer.Refresh.rest q =
        (some true,
          if d.state ≠ DecoderState.Stopping then
            { q.SetState PlayerState.Stopping with
              m_stopTimer := some DECODER_STOP_TIMEOUT, m_nextState := PlayerState.None
              m_decoder := some (d.call DecoderCall.Stop) }
          else
            { q.SetState PlayerState.Stopping with
              m_stopTimer := some DECODER_STOP_TIMEOUT, m_nextState := PlayerState.None }) ∧
      (TorcPlayer.Refresh.rest q).2.m_nextState = PlayerState.None) ∧
    (q.m_nextDecoder = none →
      (∀ old, q.m_oldDecoder = some old → old.state ≠ DecoderState.Stopped) →
      q.Refresh = TorcPlayer.Refresh.rest q) := by
  have hu := updateState_pending q hdiff
  have hrest : ∀ hn : q.m_nextState ≠ PlayerState.None,
      TorcPlayer.Refresh.rest q = TorcPlayer.Refresh.transitions q :=
    fun hn => rest_with_decoder q d hd he hs hn
  refine ⟨⟨rfl, rfl⟩, ?_, ?_, ?_, ?_, Refresh_without_switch q⟩
  · intro h
    have hr : TorcPlayer.Refresh.rest q = _ := hrest (by rw [h]; decide)
    have hdr := drive_pausing
      { q.SetState PlayerState.Pausing with
        m_pauseTimer := some DECODER_PAUSE_TIMEOUT, m_nextState := PlayerState.None } d rfl hd
    refine ⟨hu.1 h, ?_, ?_⟩
    · rw [hr]
      unfold TorcPlayer.Refresh.transitions
      simp only [hu.1 h, Bool.not_true, Bool.false_eq_true, if_false, hdr]
    · rw [hr]
      unfold TorcPlayer.Refresh.transitions
      simp only [hu.1 h, Bool.not_true, Bool.false_eq_true, if_false, hdr]
      split_ifs <;> rfl
  · intro h ho
    have hr : TorcPlayer.Refresh.rest q = _ := hrest (by rw [h]; decide)
    have hdr := drive_starting
      { q.SetState PlayerState.Starting with
        m_playTimer := some DECODER_PAUSE_TIMEOUT, m_nextState := PlayerState.None } d rfl hd
    refine ⟨hu.2.1 h ho, ?_, ?_⟩
    · rw [hr]
      unfold TorcPlayer.Refresh.transitions
      simp only [hu.2.1 h ho, Bool.not_true, Bool.false_eq_true, if_false, hdr]
    · rw [hr]
      unfold TorcPlayer.Refresh.transitions
      simp only [hu.2.1 h ho, Bool.not_true, Bool.false_eq_true, if_false, hdr]
      split_ifs <;> rfl
  · intro h ho
    rw [hrest (by rw [h]; decide)]
    unfold TorcPlayer.Refresh.transitions
    simp only [hu.2.2.1 h ho, Bool.not_false, if_true]
  · intro h
    have hr : TorcPlayer.Refresh.rest q = _ := hrest (by rw [h]; decide)
    have hdr := drive_stopping
      { q.SetState PlayerState.Stopping with
        m_stopTimer := some DECODER_STOP_TIMEOUT, m_nextState := PlayerState.None } d rfl hd
    rw [if_neg hs] at hdr
    refine ⟨hu.2.2.2 h, ?_, ?_⟩
    · rw [hr]
      unfold TorcPlayer.Refresh.transitions
      simp only [hu.2.2.2 h, Bool.not_true, Bool.false_eq_true, if_false, hdr]
    · rw [hr]
      unfold TorcPlayer.Refresh.transitions
      simp only [hu.2.2.2 h, Bool.not_true, Bool.false_eq_true, if_false, hdr]
      split_ifs <;> rfl

/-- C28, amended, on a sample player: `Paused` is pending on a playing player
whose decoder is running. The refresh enters `Pausing`, arms the pause timer with
1000 ms, calls `Pause` on the decoder and clears the pending state. -/
theorem pending_state_taken_up_witness :
    { samplePlayer PlayerState.Playing (some (sampleEngine 1 DecoderState.Running)) none none with
        m_nextState := PlayerState.Paused }.Refresh =
      (some true,
        { samplePlayer PlayerState.Pausing
            (some { id := 1, state := DecoderState.Running, calls := [DecoderCall.Pause] })
            none none with
          m_pauseTimer := some 1000 }) :=
  ((pending_state_taken_up
      { samplePlayer PlayerState.Playing (some (sampleEngine 1 DecoderState.Running)) none none with
        m_nextState := PlayerState.Paused }
      (sampleEngine 1 DecoderState.Running) rfl (by decide) (by decide) (by decide)).2.2.2.2.2
    rfl (fun _ ho => Option.noConfusion ho)).trans
  ((pending_state_taken_up
      { samplePlayer PlayerState.Playing (some (sampleEngine 1 DecoderState.Running)) none none with
        m_nextState := PlayerState.Paused }
      (sampleEngine 1 DecoderState.Running) rfl (by decide) (by decide) (by decide)).2.1
    rfl).2.1


/-! ## Theorems: the current decoder after the end of playback -/

/-- C29, the code at the failing input: a playing player with `Paused` pending
whose decoder reports `Stopped`. The refresh sets the state `Stopped` and deletes
the decoder, takes up the pending state and enters `Pausing`, and the block for
`Pausing` then asks the deleted decoder for its state: the refresh does not
return. The same happens with `Playing` pending. With nothing pending, or with
`Stopped` pending, the refresh returns and the player is `Stopped` without a
decoder. -/
theorem refresh_asks_deleted_decoder :
    ({ samplePlayer PlayerState.Playing (some (sampleEngine 1 DecoderState.Stopped)) none none with
        m_nextState := PlayerState.Paused }.Refresh.1 = none ∧
      { samplePlayer PlayerState.Playing (some (sampleEngine 1 DecoderState.Stopped)) none none with
        m_nextState := PlayerState.Paused }.Refresh.2.m_decoder = none ∧
      { samplePlayer PlayerState.Playing (some (sampleEngine 1 DecoderState.Stopped)) none none with
        m_nextState := PlayerState.Paused }.Refresh.2.m_state = PlayerState.Pausing) ∧
    ({ samplePlayer PlayerState.Playing (some (sampleEngine 1 DecoderState.Stopped)) none none with
        m_nextState := PlayerState.Playing }.Refresh.1 = none ∧
      { samplePlayer PlayerState.Playing (some (sampleEngine 1 DecoderState.Stopped)) none none with
        m_nextState := PlayerState.Playing }.Refresh.2.m_state = PlayerState.Starting) ∧
    ((samplePlayer PlayerState.Playing (some (sampleEngine 1 DecoderState.Stopped)) none
        none).Refresh =
      (some true, samplePlayer PlayerState.Stopped none none none) ∧
      { samplePlayer PlayerState.Playing (some (sampleEngine 1 DecoderState.Stopped)) none none with
        m_nextState := PlayerState.Stopped }.Refresh =
      (some true, samplePlayer PlayerState.Stopped none none none)) := by
  refine ⟨⟨?_, ?_, ?_⟩, ⟨?_, ?_⟩, ⟨?_, ?_⟩⟩ <;> decide


/-! ## Theorems: the switching flag and the next decoder -/

theorem PlayMedia_while_switching (p : TorcPlayer) (env : TorcPlayer.PlayMediaEnv) (URI : String)
    (StartPaused : Bool) (hsw : p.m_switching = true) :
    (env.sameThread = true → (p.PlayMedia env URI StartPaused).1 = false) ∧
    (env.sameThread = false → p.PlayMedia env URI StartPaused = (true, p)) ∧
    (p.PlayMedia env URI StartPaused).2.m_decoder = p.m_decoder ∧
    (p.PlayMedia env URI StartPaused).2.m_nextDecoder = p.m_nextDecoder ∧
    (p.PlayMedia env URI StartPaused).2.m_oldDecoder = p.m_oldDecoder ∧
    (p.PlayMedia env URI StartPaused).2.m_switching = p.m_switching := by
  unfold TorcPlayer.PlayMedia
  by_cases ht : env.sameThread = true
  · rw [if_neg (by simp [ht])]
    by_cases h1 : (URI == p.m_uri &&
        !(p.m_state == PlayerState.Stopped || p.m_state == PlayerState.Errored)) = true
    · rw [if_pos h1]
      exact ⟨fun _ => rfl, fun hf => absurd ht (by simp [hf]), rfl, rfl, rfl, rfl⟩
    · rw [if_neg h1]
      by_cases h2 : URI.isEmpty = true
      · rw [if_pos h2]
        exact ⟨fun _ => rfl, fun hf => absurd ht (by simp [hf]), rfl, rfl, rfl, rfl⟩
      · rw [if_neg h2, if_pos hsw]
        exact ⟨fun _ => rfl, fun hf => absurd ht (by simp [hf]), rfl, rfl, rfl, rfl⟩
  · rw [if_pos (by simpa using ht)]
    exact ⟨fun h => absurd h ht, fun _ => rfl, rfl, rfl, rfl, rfl⟩

theorem PlayMedia_inv (p : TorcPlayer) (env : TorcPlayer.PlayMediaEnv) (URI : String)
    (StartPaused : Bool) (h : p.SwitchingIffNext) :
    (p.PlayMedia env URI StartPaused).2.SwitchingIffNext := by
  by_cases hsw : p.m_switching = true
  · have hk := PlayMedia_while_switching p env URI StartPaused hsw
    unfold TorcPlayer.SwitchingIffNext at h ⊢
    rw [hk.2.2.2.1, hk.2.2.2.2.2]
    exact h
  · have hsf : p.m_switching = false := by simpa using hsw
    have hnone : p.m_nextDecoder = none := by
      by_contra hn
      exact hsw (h.mpr hn)
    unfold TorcPlayer.SwitchingIffNext TorcPlayer.PlayMedia
    by_cases ht : (!env.sameThread) = true
    · rw [if_pos ht]
      exact h
    · rw [if_neg ht]
      by_cases h1 : (URI == p.m_uri &&
          !(p.m_state == PlayerState.Stopped || p.m_state == PlayerState.Errored)) = true
      · rw [if_pos h1]
        exact h
      · rw [if_neg h1]
        by_cases h2 : URI.isEmpty = true
        · rw [if_pos h2]
          exact h
        · rw [if_neg h2, if_neg hsw]
          cases hc : env.Create <;> by_cases hdn : p.m_decoder.isNone = true <;>
            by_cases ho : env.Open = true <;>
            simp [hdn, ho, hsf, TorcPlayer.SendUserMessage, TorcPlayer.SetState]


theorem cleared_inv (p : TorcPlayer) (h1 : p.m_switching = false) (h2 : p.m_nextDecoder = none) :
    p.SwitchingIffNext := by
  unfold TorcPlayer.SwitchingIffNext
  rw [h1, h2]
  simp

theorem DestroyNextDecoder_inv (p : TorcPlayer) : p.DestroyNextDecoder.SwitchingIffNext :=
  cleared_inv _ (DestroyNextDecoder_spec p).2.1 (DestroyNextDecoder_spec p).1

theorem Teardown_inv (p : TorcPlayer) : p.Teardown.SwitchingIffNext :=
  cleared_inv _ rfl rfl

theorem checkNext_inv (p : TorcPlayer) (h : p.SwitchingIffNext) :
    (TorcPlayer.Refresh.checkNext p).SwitchingIffNext := by
  unfold TorcPlayer.Refresh.checkNext
  cases hn : p.m_nextDecoder with
  | none =>
    simp only []
    exact h
  | some next =>
    simp only []
    split_ifs
    · exact DestroyNextDecoder_inv p
    · have h1 := swap_spec p next
      have h2 := swapToPaused_spec p next
      exact cleared_inv _ (h1.2.2.2.2.1.trans h2.2.2.2.2.1) (h1.2.2.2.1.trans h2.2.2.2.1)
    · exact h

theorem Refresh_inv (p : TorcPlayer) (h : p.SwitchingIffNext) : p.Refresh.2.SwitchingIffNext := by
  have h1 : (TorcPlayer.Refresh.destroyOld p).SwitchingIffNext := by
    have hk := destroyOld_keeps p
    unfold TorcPlayer.SwitchingIffNext at h ⊢
    rw [hk.1, hk.2.1]
    exact h
  have h2 := checkNext_inv _ h1
  have h3 := rest_slots (TorcPlayer.Refresh.checkNext (TorcPlayer.Refresh.destroyOld p))
  unfold TorcPlayer.Refresh
  unfold TorcPlayer.SwitchingIffNext at h2 ⊢
  rw [h3.1, h3.2.1]
  exact h2

theorem invoke_inv (p : TorcPlayer) (c : Command) (h : p.SwitchingIffNext) :
    (p.invoke c).2.SwitchingIffNext := by
  have hk : (p.invoke c).2.m_switching = p.m_switching ∧
      (p.invoke c).2.m_nextDecoder = p.m_nextDecoder := by
    cases c <;>
      simp only [TorcPlayer.invoke, TorcPlayer.Play, TorcPlayer.Pause, TorcPlayer.Unpause,
        TorcPlayer.TogglePause, TorcPlayer.Stop] <;>
      split_ifs <;> exact ⟨rfl, rfl⟩
  unfold TorcPlayer.SwitchingIffNext at h ⊢
  rw [hk.1, hk.2]
  exact h

theorem apply_inv (op : PlayerOp) (p q : TorcPlayer) (h : p.SwitchingIffNext)
    (hq : op.apply p = some q) : q.SwitchingIffNext := by
  cases op with
  | PlayMedia env URI StartPaused =>
    simp only [PlayerOp.apply, Option.some.injEq] at hq
    rw [← hq]
    exact PlayMedia_inv p env URI StartPaused h
  | Refresh =>
    have hr := Refresh_inv p h
    simp only [PlayerOp.apply] at hq
    generalize p.Refresh = r at hr hq
    obtain ⟨v, q1⟩ := r
    cases v with
    | none => exact Option.noConfusion hq
    | some b =>
      simp only [Option.some.injEq] at hq
      rw [← hq]
      exact hr
  | startTimer =>
    simp only [PlayerOp.apply, TorcPlayer.HandleEvent] at hq
    by_cases ht : p.m_nextDecoderStartTimer.isSome = true
    · simp [ht] at hq
      rw [← hq]
      exact DestroyNextDecoder_inv p
    · simp [ht] at hq
      rw [← hq]
      exact h
  | DestroyNextDecoder =>
    simp only [PlayerOp.apply, Option.some.injEq] at hq
    rw [← hq]
    exact DestroyNextDecoder_inv p
  | Teardown =>
    simp only [PlayerOp.apply, Option.some.injEq] at hq
    rw [← hq]
    exact Teardown_inv p
  | command c =>
    simp only [PlayerOp.apply, Option.some.injEq] at hq
    rw [← hq]
    exact invoke_inv p c h
  | decoders current next old =>
    simp only [PlayerOp.apply, Option.some.injEq] at hq
    rw [← hq]
    unfold TorcPlayer.SwitchingIffNext at h ⊢
    simp only [ne_eq, Option.map_eq_none']
    exact h

theorem runPlayer_inv (ops : List PlayerOp) :
    ∀ (p q : TorcPlayer), p.SwitchingIffNext → runPlayer ops p = some q → q.SwitchingIffNext := by
  induction ops with
  | nil =>
    intro p q h hq
    simp only [runPlayer, Option.some.injEq] at hq
    rw [← hq]
    exact h
  | cons op ops ih =>
    intro p q h hq
    simp only [runPlayer] at hq
    cases ha : op.apply p with
    | none => rw [ha] at hq; exact Option.noConfusion hq
    | some p1 =>
      rw [ha, Option.some_bind] at hq
      exact ih p1 q (apply_inv op p p1 h ha) hq


/-- C30, counterexample: on a player that is switching, `PlayMedia` called from
another thread than the player's returns true, not false: the call is posted as
an event and the player is left as it is. -/
theorem PlayMedia_from_other_thread_returns_true :
    (samplePlayer PlayerState.Opening none (some (sampleEngine 2 DecoderState.Opening))
        none).m_switching = true ∧
    (samplePlayer PlayerState.Opening none (some (sampleEngine 2 DecoderState.Opening))
        none).PlayMedia { samplePlayMediaEnv with sameThread := false } "c.mkv" false =
      (true,
        samplePlayer PlayerState.Opening none (some (sampleEngine 2 DecoderState.Opening)) none) := by
  constructor <;> decide

/-- C30, amended: in every player state reached from construction by calls of
`PlayMedia`, refreshes, start-timer events, calls of `DestroyNextDecoder` and
`Teardown`, playback commands and state changes of the decoders, the switching
flag is set exactly when there is a next decoder. On a player that is switching,
`PlayMedia` called on the player's thread returns false, `PlayMedia` called from
another thread returns true and leaves the player as it is, and in both cases
the current, next and old decoder are the same as before. -/
theorem switching_iff_next_decoder (ops : List PlayerOp) (p : TorcPlayer)
    (h : runPlayer ops TorcPlayer.new = some p) (env : TorcPlayer.PlayMediaEnv) (URI : String)
    (StartPaused : Bool) :
    (p.m_switching = true ↔ p.m_nextDecoder ≠ none) ∧
    (p.m_switching = true →
      (env.sameThread = true → (p.PlayMedia env URI StartPaused).1 = false) ∧
      (env.sameThread = false → p.PlayMedia env URI StartPaused = (true, p)) ∧
      (p.PlayMedia env URI StartPaused).2.m_decoder = p.m_decoder ∧
      (p.PlayMedia env URI StartPaused).2.m_nextDecoder = p.m_nextDecoder ∧
      (p.PlayMedia env URI StartPaused).2.m_oldDecoder = p.m_oldDecoder) := by
  refine ⟨runPlayer_inv ops TorcPlayer.new p (cleared_inv _ rfl rfl) h, ?_⟩
  intro hsw
  have hk := PlayMedia_while_switching p env URI StartPaused hsw
  exact ⟨hk.1, hk.2.1, hk.2.2.1, hk.2.2.2.1, hk.2.2.2.2.1⟩

/-- C30, amended, on a sample run: `PlayMedia` for `a.mkv` on a new player
creates decoder 9 as next decoder and sets the switching flag; a second
`PlayMedia`, for `b.mkv`, returns false and decoder 9 is still the next decoder. -/
theorem switching_iff_next_decoder_witness :
    (((TorcPlayer.new.PlayMedia samplePlayMediaEnv "a.mkv" false).2.m_switching = true ↔
        (TorcPlayer.new.PlayMedia samplePlayMediaEnv "a.mkv" false).2.m_nextDecoder ≠ none) ∧
      ((TorcPlayer.new.PlayMedia samplePlayMediaEnv "a.mkv" false).2.m_switching = true →
        (samplePlayMediaEnv.sameThread = true →
          ((TorcPlayer.new.PlayMedia samplePlayMediaEnv "a.mkv" false).2.PlayMedia
            samplePlayMediaEnv "b.mkv" false).1 = false) ∧
        (samplePlayMediaEnv.sameThread = false →
          (TorcPlayer.new.PlayMedia samplePlayMediaEnv "a.mkv" false).2.PlayMedia
              samplePlayMediaEnv "b.mkv" false =
            (true, (TorcPlayer.new.PlayMedia samplePlayMediaEnv "a.mkv" false).2)) ∧
        ((TorcPlayer.new.PlayMedia samplePlayMediaEnv "a.mkv" false).2.PlayMedia
            samplePlayMediaEnv "b.mkv" false).2.m_decoder =
          (TorcPlayer.new.PlayMedia samplePlayMediaEnv "a.mkv" false).2.m_decoder ∧
        ((TorcPlayer.new.PlayMedia samplePlayMediaEnv "a.mkv" false).2.PlayMedia
            samplePlayMediaEnv "b.mkv" false).2.m_nextDecoder =
          (TorcPlayer.new.PlayMedia samplePlayMediaEnv "a.mkv" false).2.m_nextDecoder ∧
        ((TorcPlayer.new.PlayMedia samplePlayMediaEnv "a.mkv" false).2.PlayMedia
            samplePlayMediaEnv "b.mkv" false).2.m_oldDecoder =
          (TorcPlayer.new.PlayMedia samplePlayMediaEnv "a.mkv" false).2.m_oldDecoder)) ∧
    (TorcPlayer.new.PlayMedia samplePlayMediaEnv "a.mkv" false).2.m_switching = true ∧
    (TorcPlayer.new.PlayMedia samplePlayMediaEnv "a.mkv" false).2.m_nextDecoder =
      some (sampleEngine 9 DecoderState.None) :=
  ⟨switching_iff_next_decoder [PlayerOp.PlayMedia samplePlayMediaEnv "a.mkv" false]
      (TorcPlayer.new.PlayMedia samplePlayMediaEnv "a.mkv" false).2 rfl samplePlayMediaEnv
      "b.mkv" false,
    by decide, by decide⟩

end Torc
